import Mathlib

/-!
# Gravitas: the physics update and the grid

A shallow embedding of `src/src/Gravitas.cpp`: the `Object` class
(constructor, `UpdatePos`, `accelerate`, `CheckCollision`), the per-body
update loop of `main`, `UpdateGridVertices` and `CreateGridVertices`.

Arithmetic model.  A C `float` or `double` is a `CFloat`: either a finite
value, which is an exact real number, or one of the IEEE 754 special values
`+inf`, `-inf`, `NaN`.  Operations on finite values are exact (rounding,
overflow, underflow and the sign of zero are not modelled; a decimal literal
denotes its decimal value); operations that IEEE 754 leaves without a finite
result (division by zero, square root or fractional power of a negative
number, `inf - inf`, `0 * inf`) give the special value IEEE 754 prescribes.

Two places are modelled more closely.  `CreateGridVertices` uses only the four
arithmetic operations, and the bounds on the coordinates it builds depend on
rounding: its values are rationals and every operation is rounded to binary32
(`round32`).  The call `abs(verticalShift)` in `UpdateGridVertices` is not
qualified, so that the function it names depends on the headers of the
toolchain: `UpdateGridVertices` takes that resolution as a parameter
(`AbsCall`).
-/

namespace Gravitas

noncomputable section

/-- A C floating-point value: an exact real, or an IEEE 754 special value. -/
inductive CFloat where
  | fin (x : ℝ)
  | pinf
  | ninf
  | nan

namespace CFloat

/-- Unary minus. -/
def neg : CFloat → CFloat
  | fin x => fin (-x)
  | pinf => ninf
  | ninf => pinf
  | nan => nan

/-- Addition: `inf + -inf` is NaN, NaN is absorbing. -/
def add : CFloat → CFloat → CFloat
  | fin x, fin y => fin (x + y)
  | fin _, pinf => pinf
  | fin _, ninf => ninf
  | pinf, fin _ => pinf
  | pinf, pinf => pinf
  | pinf, ninf => nan
  | ninf, fin _ => ninf
  | ninf, ninf => ninf
  | ninf, pinf => nan
  | nan, _ => nan
  | _, nan => nan

/-- The infinity with the sign of the finite value `x` (zero counts as positive). -/
def infOfSign (x : ℝ) : CFloat := if 0 ≤ x then pinf else ninf

/-- Multiplication: `0 * inf` is NaN, NaN is absorbing. -/
def mul : CFloat → CFloat → CFloat
  | fin x, fin y => fin (x * y)
  | fin x, pinf => if x = 0 then nan else infOfSign x
  | fin x, ninf => if x = 0 then nan else infOfSign (-x)
  | pinf, fin y => if y = 0 then nan else infOfSign y
  | ninf, fin y => if y = 0 then nan else infOfSign (-y)
  | pinf, pinf => pinf
  | pinf, ninf => ninf
  | ninf, pinf => ninf
  | ninf, ninf => pinf
  | nan, _ => nan
  | _, nan => nan

/-- Division: `x / 0` is an infinity for `x ≠ 0` and NaN for `x = 0`,
`inf / inf` is NaN, a finite value divided by an infinity is zero. -/
def div : CFloat → CFloat → CFloat
  | fin x, fin y =>
      if y = 0 then (if x = 0 then nan else infOfSign x) else fin (x / y)
  | fin _, pinf => fin 0
  | fin _, ninf => fin 0
  | pinf, fin y => infOfSign y
  | ninf, fin y => if 0 ≤ y then ninf else pinf
  | pinf, pinf => nan
  | pinf, ninf => nan
  | ninf, pinf => nan
  | ninf, ninf => nan
  | nan, _ => nan
  | _, nan => nan

instance : Neg CFloat := ⟨neg⟩
instance : Add CFloat := ⟨add⟩
instance : Sub CFloat := ⟨fun a b => add a (neg b)⟩
instance : Mul CFloat := ⟨mul⟩
instance : Div CFloat := ⟨div⟩

/-- The C functions `sqrt`/`std::sqrt`: NaN on a negative argument. -/
def sqrt : CFloat → CFloat
  | fin x => if x < 0 then nan else fin (Real.sqrt x)
  | pinf => pinf
  | ninf => nan
  | nan => nan

/-- The C function `pow(x, y)` for a finite exponent `y` that is positive and
not an integer (the source uses `1/3` and `1/2`): NaN on a negative finite
base, `+inf` on either infinity. -/
def pow (b : CFloat) (y : ℝ) : CFloat :=
  match b with
  | fin x => if x < 0 then nan else fin (x ^ y)
  | pinf => pinf
  | ninf => pinf
  | nan => nan

/-- The absolute value (`abs`/`fabs` on a floating value). -/
def abs : CFloat → CFloat
  | fin x => fin |x|
  | pinf => pinf
  | ninf => pinf
  | nan => nan

/-- The comparison `a < b` of C: false whenever an operand is NaN. -/
def lt : CFloat → CFloat → Prop
  | fin x, fin y => x < y
  | fin _, pinf => True
  | ninf, fin _ => True
  | ninf, pinf => True
  | _, _ => False

instance : DecidableRel lt := fun _ _ => Classical.propDecidable _

/-- The function `std::max(a, b)`, which is `(a < b) ? b : a`. -/
def stdMax (a b : CFloat) : CFloat := if lt a b then b else a

/-- Whether the value is finite (neither NaN nor an infinity). -/
def isFinite : CFloat → Prop
  | fin _ => True
  | _ => False

end CFloat

open CFloat

/-! ## The source: globals, `Object`, the main loop, the grid functions -/

/-- The global `const double G = 6.6743e-11`. -/
def G : CFloat := fin 6.6743e-11

/-- The global `const float c = 299792458.0`. -/
def c : CFloat := fin 299792458

/-- The global `float sizeRatio = 30000.0f`; the source never assigns it again. -/
def sizeRatio : CFloat := fin 30000

/-- A `glm::vec3`. -/
structure Vec3 where
  x : CFloat
  y : CFloat
  z : CFloat

/-- The vector with the three finite components given. -/
def Vec3.ofReal (x y z : ℝ) : Vec3 := ⟨fin x, fin y, fin z⟩

/-- The operator `v *= s` of `glm::vec3` with a scalar: every component is multiplied. -/
def Vec3.scale (v : Vec3) (s : CFloat) : Vec3 := ⟨v.x * s, v.y * s, v.z * s⟩

/-- The operator `a - b` of `glm::vec3`. -/
def Vec3.sub (a b : Vec3) : Vec3 := ⟨a.x - b.x, a.y - b.y, a.z - b.z⟩

/-- The function `glm::length`: the square root of the dot product of the vector with itself. -/
def Vec3.length (v : Vec3) : CFloat := CFloat.sqrt (v.x * v.x + v.y * v.y + v.z * v.z)

/-- The physical fields of `class Object` (the rendering handles `VAO`, `VBO`,
`vertexCount`, and `color`, `glow`, `Launched`, `target`, `LastPos`, which no
physics code reads, are left out). -/
structure Object where
  position : Vec3
  velocity : Vec3
  Initalizing : Bool
  mass : CFloat
  density : CFloat
  radius : CFloat

/-- The expression
`pow(((3 * mass/density)/(4 * 3.14159265359)), (1.0f/3.0f)) / sizeRatio`,
which the constructor, `UpdatePos` and the main loop each write out. -/
def radiusExpr (mass density : CFloat) : CFloat :=
  CFloat.pow ((fin 3 * mass / density) / (fin 4 * fin 3.14159265359)) (1 / 3) / sizeRatio

/-- The constructor `Object::Object(initPosition, initVelocity, mass, density, ...)`.
It has no validation and no `throw`: it yields an object for every argument.
`Initalizing` takes its default member initialiser `false`. -/
def Object.new (initPosition initVelocity : Vec3) (mass density : CFloat) : Object :=
  { position := initPosition
    velocity := initVelocity
    Initalizing := false
    mass := mass
    density := density
    radius := radiusExpr mass density }

/-- The method `Object::UpdatePos`. -/
def Object.UpdatePos (this : Object) : Object :=
  { this with
    position :=
      ⟨this.position.x + this.velocity.x / fin 94,
       this.position.y + this.velocity.y / fin 94,
       this.position.z + this.velocity.z / fin 94⟩
    radius := radiusExpr this.mass this.density }

/-- The method `Object::accelerate(x, y, z)`. -/
def Object.accelerate (this : Object) (x y z : CFloat) : Object :=
  { this with
    velocity :=
      ⟨this.velocity.x + x / fin 96,
       this.velocity.y + y / fin 96,
       this.velocity.z + z / fin 96⟩ }

/-- The distance computed at the top of `Object::CheckCollision`:
`std::pow(dx*dx + dy*dy + dz*dz, (1.0f/2.0f))`. -/
def Object.collisionDistance (this other : Object) : CFloat :=
  let dx := other.position.x - this.position.x
  let dy := other.position.y - this.position.y
  let dz := other.position.z - this.position.z
  CFloat.pow (dx * dx + dy * dy + dz * dz) (1 / 2)

/-- The method `Object::CheckCollision(other)`. -/
def Object.CheckCollision (this other : Object) : CFloat :=
  if CFloat.lt (Object.collisionDistance this other) (other.radius + this.radius) then
    fin (-0.2)
  else
    fin 1

/-- Lines 359-361 of the main loop: `dx`, `dy`, `dz`, the components of
`obj2.GetPos() - obj.GetPos()`. -/
def pairDelta (obj obj2 : Object) : Vec3 :=
  ⟨obj2.position.x - obj.position.x,
   obj2.position.y - obj.position.y,
   obj2.position.z - obj.position.z⟩

/-- Line 362 of the main loop: `distance = sqrt(dx * dx + dy * dy + dz * dz)`. -/
def pairDistance (obj obj2 : Object) : CFloat :=
  let d := pairDelta obj obj2
  CFloat.sqrt (d.x * d.x + d.y * d.y + d.z * d.z)

/-- Lines 365-371 of the main loop: the vector `acc`, the acceleration of
`obj` due to `obj2`. -/
def pairAcc (obj obj2 : Object) : Vec3 :=
  let d := pairDelta obj obj2
  let distance := pairDistance obj obj2
  let direction : Vec3 := ⟨d.x / distance, d.y / distance, d.z / distance⟩
  let distance := distance * fin 1000
  let Gforce := (G * obj.mass * obj2.mass) / (distance * distance)
  let acc1 := Gforce / obj.mass
  ⟨direction.x * acc1, direction.y * acc1, direction.z * acc1⟩

/-- Line 377 of the main loop: `obj.velocity *= obj.CheckCollision(obj2)`. -/
def collide (obj obj2 : Object) : Object :=
  { obj with velocity := obj.velocity.scale (obj.CheckCollision obj2) }

/-- Lines 358-380 of the main loop: the body of the inner loop for an element
`obj2` that is not `obj` itself (`&obj2 != &obj`).  `pause` is the global flag. -/
def pairStep (pause : Bool) (obj obj2 : Object) : Object :=
  if !obj.Initalizing && !obj2.Initalizing then
    if CFloat.lt (fin 0) (pairDistance obj obj2) then
      let acc := pairAcc obj obj2
      let obj := if !pause then obj.accelerate acc.x acc.y acc.z else obj
      collide obj obj2
    else obj
  else obj

/-- Lines 357-381: the inner loop `for (auto& obj2 : objs)` run for the element
at index `i`, whose current value is `obj`.  The second argument is the index
of the head of the list still to be visited; the element at index `i` is `obj`
itself and is skipped. -/
def innerLoop (pause : Bool) (i : Nat) : Nat → List Object → Object → Object
  | _, [], obj => obj
  | j, obj2 :: rest, obj =>
      innerLoop pause i (j + 1) rest (if j = i then obj else pairStep pause obj obj2)

/-- Lines 354-391: one iteration of the outer loop `for (auto& obj : objs)`,
for the element at index `i` with value `obj`, in the collection `objs` (the
drawing calls are left out). -/
def bodyStep (pause : Bool) (objs : List Object) (i : Nat) (obj : Object) : Object :=
  let obj := innerLoop pause i 0 objs obj
  let obj :=
    if obj.Initalizing then { obj with radius := radiusExpr obj.mass obj.density } else obj
  if !pause then obj.UpdatePos else obj

/-- The outer loop iteration at index `i`, written back into the collection
(the loop variable is a reference to the element). -/
def stepAt (pause : Bool) (objs : List Object) (i : Nat) : List Object :=
  match objs[i]? with
  | some obj => objs.set i (bodyStep pause objs i obj)
  | none => objs

/-- The collection after the outer loop has processed the elements at the
indices `0, ..., k - 1`. -/
def passPrefix (pause : Bool) (objs : List Object) (k : Nat) : List Object :=
  (List.range k).foldl (stepAt pause) objs

/-- One pass of the per-body update loop of `main` (lines 354-404): a tick. -/
def tick (pause : Bool) (objs : List Object) : List Object :=
  passPrefix pause objs objs.length

/-- Lines 696-703 of `UpdateGridVertices`: the loop accumulating `comY` and
`totalMass`, as the pair `(comY, totalMass)`. -/
def comLoop (objs : List Object) : CFloat × CFloat :=
  objs.foldl
    (fun acc obj =>
      if obj.Initalizing then acc
      else (acc.1 + obj.mass * obj.position.y, acc.2 + obj.mass))
    (fin 0, fin 0)

/-- The value of `comY` after line 703: divided by `totalMass` when
`totalMass > 0`. -/
def comY (objs : List Object) : CFloat :=
  let acc := comLoop objs
  if CFloat.lt (fin 0) acc.2 then acc.1 / acc.2 else acc.1

/-- Lines 706-708: the loop over `i = 0, 3, 6, ...` taking `std::max` with
`vertices[i+1]`.  When the length is not a multiple of 3 the source reads past
the end of the vector; the model stops at the last whole vertex. -/
def maxYLoop : List CFloat → CFloat → CFloat
  | _ :: y :: _ :: rest, m => maxYLoop rest (CFloat.stdMax m y)
  | _, m => m

/-- Lines 705-708: `originalMaxY`, starting from minus infinity. -/
def originalMaxY (vertices : List CFloat) : CFloat := maxYLoop vertices ninf

/-- Line 710: `verticalShift = comY - originalMaxY`. -/
def verticalShift (vertices : List CFloat) (objs : List Object) : CFloat :=
  comY objs - originalMaxY vertices

/-- Lines 722-727: the value `dz` for one object and one vertex. -/
def dzTerm (obj : Object) (vertexPos : Vec3) : CFloat :=
  let toObject := obj.position.sub vertexPos
  let distance := toObject.length
  let distance_m := distance * fin 1000
  let rs := (fin 2 * G * obj.mass) / (c * c)
  fin 2 * CFloat.sqrt (rs * (distance_m - rs))

/-- Lines 718-729: `totalDisplacement.y` after the loop over all objects (the
`continue` on `Initalizing` is commented out in the source). -/
def totalDisplacementY (objs : List Object) (vertexPos : Vec3) : CFloat :=
  objs.foldl (fun t obj => t + dzTerm obj vertexPos * fin 2) (fin 0)

/-- The conversion of a finite floating value to an integer type: the value
is truncated toward zero. -/
def truncate (x : ℝ) : Int := if 0 ≤ x then ⌊x⌋ else ⌈x⌉

/-- The declaration the unqualified call `abs(verticalShift)` of line 730
names.  The source has no using-directive and does not qualify the call, so
this is settled by the headers of the toolchain.
`floating`: a floating overload of `abs` is visible in the global namespace,
and the call is the floating absolute value.
`integer`: only `int abs(int)` of the C library is visible (so with g++ and
libstdc++, whose floating overloads are declared in `std`), and the argument is
converted to `int`.  C++ leaves that conversion undefined when the truncated
value is not an `int` or the argument is a special value, and leaves
`abs(INT_MIN)` undefined; `undef` gives the `int` obtained in these cases. -/
inductive AbsCall where
  | floating
  | integer (undef : CFloat → Int)

/-- The value of `abs(x)` at line 730, as a floating value (the `int` result of
`int abs(int)` is converted back when it is added to a `float`). -/
def absCall : AbsCall → CFloat → CFloat
  | AbsCall.floating, x => CFloat.abs x
  | AbsCall.integer undef, fin x =>
      if |truncate x| < 2 ^ 31 then fin ((|truncate x| : Int) : ℝ)
      else fin ((undef (fin x) : Int) : ℝ)
  | AbsCall.integer undef, x => fin ((undef x : Int) : ℝ)

/-- Lines 714-731: the loop rewriting `vertices[i+1]` for `i = 0, 3, 6, ...`
with `totalDisplacement.y + -abs(verticalShift)`.  A trailing part shorter
than a vertex is left as it is (the source indexes past the end there). -/
def heightLoop (call : AbsCall) (objs : List Object) (shift : CFloat) :
    List CFloat → List CFloat
  | x :: y :: z :: rest =>
      x :: (totalDisplacementY objs ⟨x, y, z⟩ + -(absCall call shift)) :: z ::
        heightLoop call objs shift rest
  | rest => rest

/-- The function `UpdateGridVertices(vertices, objs)` (the `std::cout` line
is left out), for the resolution `call` of its call of `abs`. -/
def UpdateGridVertices (call : AbsCall) (vertices : List CFloat) (objs : List Object) :
    List CFloat :=
  heightLoop call objs (verticalShift vertices objs) vertices

/-- Rounding of a rational to the nearest integer, a tie going to the even
neighbour. -/
def roundEven (x : ℚ) : Int :=
  if x - ⌊x⌋ < 1 / 2 then ⌊x⌋
  else if 1 / 2 < x - ⌊x⌋ then ⌊x⌋ + 1
  else if ⌊x⌋ % 2 = 0 then ⌊x⌋ else ⌊x⌋ + 1

/-- The unit in the last place of a binary32 value of the magnitude of `q`:
`2 ^ (e - 23)` for `2 ^ e ≤ |q| < 2 ^ (e + 1)` (a significand of 24 bits). -/
def ulp32 (q : ℚ) : ℚ := (2 : ℚ) ^ (Int.log 2 |q| - 23)

/-- The binary32 value of a rational result: rounding to nearest, ties to
even, with a significand of 24 bits.  The exponent range is not bounded, so
this is the IEEE 754 result as long as it neither overflows nor falls below
the normal range (magnitudes from `2^-126` up to `2^128`). -/
def round32 (q : ℚ) : ℚ := if q = 0 then 0 else (roundEven (q / ulp32 q) : ℚ) * ulp32 q

/-- The function `CreateGridVertices(size, divisions, objs)` (lines 658-691):
the segments along `x`, then the segments along `z`, two vertices each.  The
values are finite binary32 values, given as rationals; every conversion of a
counter to `float` and every arithmetic operation is rounded on its own
(`-halfSize` is exact).  The parameter `objs` is not read.  The loop counters
are mathematical integers (a loop `for (k = 0; k <= divisions; ++k)` runs
`divisions + 1` times when `divisions ≥ 0` and not at all otherwise); `int`
overflow is not modelled. -/
def CreateGridVertices (size : ℚ) (divisions : Int) (_objs : List Object) : List ℚ :=
  let step := round32 (size / round32 (divisions : ℚ))
  let halfSize := round32 (size / 2)
  ((List.range (divisions + 1).toNat).flatMap fun yStep =>
    (List.range (divisions + 1).toNat).flatMap fun zStep =>
      (List.range divisions.toNat).flatMap fun xStep =>
        let y := round32 (-halfSize + round32 (round32 (yStep : ℚ) * step))
        let z := round32 (-halfSize + round32 (round32 (zStep : ℚ) * step))
        let xStart := round32 (-halfSize + round32 (round32 (xStep : ℚ) * step))
        let xEnd := round32 (xStart + step)
        [xStart, y, z, xEnd, y, z])
  ++
  ((List.range (divisions + 1).toNat).flatMap fun xStep =>
    (List.range (divisions + 1).toNat).flatMap fun yStep =>
      (List.range divisions.toNat).flatMap fun zStep =>
        let x := round32 (-halfSize + round32 (round32 (xStep : ℚ) * step))
        let y := round32 (-halfSize + round32 (round32 (yStep : ℚ) * step))
        let zStart := round32 (-halfSize + round32 (round32 (zStep : ℚ) * step))
        let zEnd := round32 (zStart + step)
        [x, y, zStart, x, y, zEnd])

/-! ## Quantities used to state the properties

The definitions below are not functions of the source: they are the sums,
real-valued formulas and concrete bodies the theorems are stated with. -/

/-- The operator `a + b` of `glm::vec3`. -/
def Vec3.add (a b : Vec3) : Vec3 := ⟨a.x + b.x, a.y + b.y, a.z + b.z⟩

/-- The zero vector `glm::vec3(0.0f)`. -/
def Vec3.zero : Vec3 := ⟨fin 0, fin 0, fin 0⟩

/-- Whether the inner loop computes a contribution from `obj2` for `obj`: the
guard `!obj2.Initalizing` of line 358 and the guard `distance > 0` of line 364. -/
def contributes (obj obj2 : Object) : Bool :=
  !obj2.Initalizing && decide (CFloat.lt (fin 0) (pairDistance obj obj2))

/-- The sum of the vectors `acc` of the main loop (`pairAcc obj obj2`) over the
elements `obj2` of `others` for which the loop computes one. -/
def netAcc (obj : Object) (others : List Object) : Vec3 :=
  ((others.filter (contributes obj)).map (pairAcc obj)).foldl Vec3.add Vec3.zero

/-- The real number a finite value stands for (0 on the special values). -/
def CFloat.toReal : CFloat → ℝ
  | fin x => x
  | _ => 0

/-- The update `w[k] += a[k] / s` on each of the three components, the form of
`Object::accelerate` (with `s = 96`) and of `Object::UpdatePos` (with `s = 94`). -/
def Vec3.addDiv (w a : Vec3) (s : CFloat) : Vec3 :=
  ⟨w.x + a.x / s, w.y + a.y / s, w.z + a.z / s⟩

/-- A body built by the constructor at the origin with velocity `(1, 0, 0)`;
its mass and density make its radius 1. -/
def bodyA : Object :=
  Object.new (Vec3.ofReal 0 0 0) (Vec3.ofReal 1 0 0) (fin (4 * 3.14159265359 * 30000 ^ 3)) (fin 3)

/-- A body of radius 1 at rest at `(3, 4, 0)`, at distance 5 from `bodyA`. -/
def bodyB : Object :=
  Object.new (Vec3.ofReal 3 4 0) (Vec3.ofReal 0 0 0) (fin (4 * 3.14159265359 * 30000 ^ 3)) (fin 3)

/-- A body of radius 1 at rest at `(1, 0, 0)`, at distance 1 from `bodyA`. -/
def bodyC : Object :=
  Object.new (Vec3.ofReal 1 0 0) (Vec3.ofReal 0 0 0) (fin (4 * 3.14159265359 * 30000 ^ 3)) (fin 3)

/-- The flat vertex array `x0, y0, z0, x1, y1, z1, ...` of a list of vertices. -/
def flatC : List (CFloat × CFloat × CFloat) → List CFloat
  | [] => []
  | v :: rest => v.1 :: v.2.1 :: v.2.2 :: flatC rest

/-- The flat vertex array of a list of vertices with finite coordinates. -/
def flat (vs : List (ℝ × ℝ × ℝ)) : List CFloat :=
  flatC (vs.map fun v => (fin v.1, fin v.2.1, fin v.2.2))

/-- The position and the mass of the object are finite values. -/
def Object.FinitePlace (o : Object) : Prop :=
  o.position.x.isFinite ∧ o.position.y.isFinite ∧ o.position.z.isFinite ∧ o.mass.isFinite

/-- The real number `rs = 2*G*mass / c^2` of an object with a finite mass. -/
def rsReal (o : Object) : ℝ :=
  2 * 6.6743e-11 * o.mass.toReal / (299792458 * 299792458)

/-- The Euclidean distance `|position(o) - v|` of an object with a finite
position from the vertex `v`. -/
def distReal (o : Object) (v : ℝ × ℝ × ℝ) : ℝ :=
  Real.sqrt ((o.position.x.toReal - v.1) * (o.position.x.toReal - v.1)
    + (o.position.y.toReal - v.2.1) * (o.position.y.toReal - v.2.1)
    + (o.position.z.toReal - v.2.2) * (o.position.z.toReal - v.2.2))

/-- The argument `rs * (distance_m - rs)` of the square root, as a real number. -/
def sqrtArg (o : Object) (v : ℝ × ℝ × ℝ) : ℝ :=
  rsReal o * (1000 * distReal o v - rsReal o)

/-- The sum over all objects of `2 * (2 * sqrt(rs * (distance_m - rs)))`. -/
def dispReal (objs : List Object) (v : ℝ × ℝ × ℝ) : ℝ :=
  (objs.map fun o => 2 * (2 * Real.sqrt (sqrtArg o v))).sum

/-- The sum of `mass * position.y` over the non-initializing objects. -/
def massYSum (objs : List Object) : ℝ :=
  ((objs.filter fun o => !o.Initalizing).map fun o => o.mass.toReal * o.position.y.toReal).sum

/-- The sum of the masses of the non-initializing objects. -/
def massSum (objs : List Object) : ℝ :=
  ((objs.filter fun o => !o.Initalizing).map fun o => o.mass.toReal).sum

/-- The real value of `comY` after line 703 for objects with finite positions
and masses: the quotient when the total mass is positive, the bare sum otherwise. -/
def comYReal (objs : List Object) : ℝ :=
  if 0 < massSum objs then massYSum objs / massSum objs else massYSum objs

/-- The largest height among the vertices (0 for the empty list). -/
def maxYReal : List (ℝ × ℝ × ℝ) → ℝ
  | [] => 0
  | v :: rest => rest.foldl (fun m w => max m w.2.1) v.2.1

/-- The real value of `abs(x)` at line 730 for a finite argument `x`. -/
def absReal (call : AbsCall) (x : ℝ) : ℝ := (absCall call (fin x)).toReal

/-- The call `abs(x)` at a finite `x` stays within defined behaviour: always
for the floating overload; for `int abs(int)`, when the truncated value and its
absolute value are `int`s. -/
def AbsCall.Defined : AbsCall → ℝ → Prop
  | AbsCall.floating, _ => True
  | AbsCall.integer _, x => |truncate x| < 2 ^ 31

/-- The resolution to `int abs(int)` the examples are evaluated with (the
undefined cases, given the value 0 here, do not occur in them). -/
def intAbs : AbsCall := AbsCall.integer fun _ => 0

/-- The height `UpdateGridVertices` gives the vertex `v`, for finite inputs:
NaN as soon as one square-root argument is negative. -/
def heightAt (call : AbsCall) (vs : List (ℝ × ℝ × ℝ)) (objs : List Object) (v : ℝ × ℝ × ℝ) :
    CFloat :=
  if ∀ o ∈ objs, 0 ≤ sqrtArg o v then
    fin (dispReal objs v - absReal call (comYReal objs - maxYReal vs))
  else nan

/-- The first body of the preset built in `main`, the Sun: at the origin, at
rest, mass `1.989 * pow(10, 25)`, density 1414. -/
def sun : Object :=
  Object.new (Vec3.ofReal 0 0 0) (Vec3.ofReal 0 0 0) (fin 1.989e25) (fin 1414)

/-- A body of radius 1 at rest at the origin, where `bodyA` is too. -/
def bodyE : Object :=
  Object.new (Vec3.ofReal 0 0 0) (Vec3.ofReal 0 0 0) (fin (4 * 3.14159265359 * 30000 ^ 3)) (fin 3)

/-- The Sun of the preset with the flag `Initalizing` set. -/
def sunInitializing : Object := { sun with Initalizing := true }

/-- A body at rest at `(0, 2, 0)` whose mass `1000 * c^2 / (2*G)` makes
`rs = 2*G*mass/c^2` equal to 1000; density 1. -/
def heavyBody : Object :=
  Object.new (Vec3.ofReal 0 2 0) (Vec3.ofReal 0 0 0)
    (fin (1000 * (299792458 * 299792458) / (2 * 6.6743e-11))) (fin 1)

/-- The collection `objs` built in `main` (lines 253-278): the Sun, Mars,
Earth, the Moon, Jupiter with three moons, Neptune with three moons.
`pow(10, 23.5)` is the real power. -/
def preset : List Object :=
  [ Object.new (Vec3.ofReal 0 0 0) (Vec3.ofReal 0 0 0) (fin (1.989 * 10 ^ 25)) (fin 1414),
    Object.new (Vec3.ofReal (-3000) 650 0) (Vec3.ofReal 0 0 500) (fin (5.97219 * 10 ^ 23))
      (fin 5515),
    Object.new (Vec3.ofReal 5000 650 0) (Vec3.ofReal 0 0 (-500)) (fin (5.97219 * 10 ^ 23))
      (fin 5515),
    Object.new (Vec3.ofReal 5250 650 0) (Vec3.ofReal 0 0 (-50)) (fin (5.97219 * 10 ^ 21))
      (fin 5515),
    Object.new (Vec3.ofReal 0 500 9000) (Vec3.ofReal (-500) 50 0)
      (fin (5.97219 * (10 : ℝ) ^ (23.5 : ℝ))) (fin 5515),
    Object.new (Vec3.ofReal 0 550 9500) (Vec3.ofReal 0 0 (-50)) (fin (5.97219 * 10 ^ 21))
      (fin 5515),
    Object.new (Vec3.ofReal 0 450 8500) (Vec3.ofReal 0 0 (-50)) (fin (5.97219 * 10 ^ 21))
      (fin 5515),
    Object.new (Vec3.ofReal 100 500 9000) (Vec3.ofReal 50 0 0) (fin (5.97219 * 10 ^ 21))
      (fin 5515),
    Object.new (Vec3.ofReal 0 (-500) (-10500)) (Vec3.ofReal (-350) 50 0)
      (fin (5.97219 * (10 : ℝ) ^ (23.5 : ℝ))) (fin 5515),
    Object.new (Vec3.ofReal 350 (-450) (-10500)) (Vec3.ofReal 0 0 (-550))
      (fin (5.97219 * 10 ^ 21)) (fin 5515),
    Object.new (Vec3.ofReal (-350) (-450) (-10500)) (Vec3.ofReal 0 0 (-550))
      (fin (5.97219 * 10 ^ 21)) (fin 5515),
    Object.new (Vec3.ofReal 0 (-450) (-11050)) (Vec3.ofReal (-550) 0 0)
      (fin (5.97219 * 10 ^ 21)) (fin 5515) ]

/-- The loop of `tickPhaseOrdered`: the outer-loop iteration of every element,
each evaluated in the same collection `start`. -/
def phaseFrom (pause : Bool) (start : List Object) : Nat → List Object → List Object
  | _, [] => []
  | i, obj :: rest => bodyStep pause start i obj :: phaseFrom pause start (i + 1) rest

/-- A tick as the specification describes it, phase by phase: the update of
every body is computed from the collection as it stands at the start of the
tick, so that no body sees the advanced position of another.  It is the
counterpart `tick` is compared with. -/
def tickPhaseOrdered (pause : Bool) (objs : List Object) : List Object :=
  phaseFrom pause objs 0 objs

/-- A body of radius 1 at rest at `(5, 0, 0)`, five units from `bodyA` along
the `x` axis. -/
def bodyD : Object :=
  Object.new (Vec3.ofReal 5 0 0) (Vec3.ofReal 0 0 0) (fin (4 * 3.14159265359 * 30000 ^ 3)) (fin 3)

/-- The `x` velocity of `bodyA` after its own update in an unpaused tick of
the collection `[bodyA, bodyD]`. -/
def advU : ℝ :=
  1 + (5 - 0) / 5 * (6.6743e-11 * (4 * 3.14159265359 * 30000 ^ 3) / (1000 * 5) ^ 2) / 96

/-- The `x` position of `bodyA` after its own update in that tick. -/
def advX : ℝ := 0 + advU / 94

/-- The total momentum `sum of mass * velocity` of a collection. -/
def totalMomentum (objs : List Object) : Vec3 :=
  (objs.map fun o => o.velocity.scale o.mass).foldl Vec3.add Vec3.zero

/-- The flat array `x0, y0, z0, x1, y1, z1, ...` of a list of vertices with
rational coordinates. -/
def flatQ : List (ℚ × ℚ × ℚ) → List ℚ
  | [] => []
  | v :: rest => v.1 :: v.2.1 :: v.2.2 :: flatQ rest

/-- The value `step = size / divisions` of `CreateGridVertices`, for `size = s`
and `divisions = d`. -/
def gridStep (s : ℚ) (d : Nat) : ℚ := round32 (s / round32 (d : ℚ))

/-- The value `-halfSize + k * step` of `CreateGridVertices`: the coordinate of
the lattice line `k`, and the start of the segment `k`. -/
def gridLine (s : ℚ) (d k : Nat) : ℚ := round32 (-round32 (s / 2) + round32 (round32 (k : ℚ) * gridStep s d))

/-- The value `xEnd = xStart + step` (`zEnd = zStart + step`) of the segment `k`. -/
def gridEnd (s : ℚ) (d k : Nat) : ℚ := round32 (gridLine s d k + gridStep s d)

/-- The vertices `CreateGridVertices` builds for the size `s` and `d`
divisions, as triples, in the order of the source. -/
def gridVertices (s : ℚ) (d : Nat) : List (ℚ × ℚ × ℚ) :=
  ((List.range (d + 1)).flatMap fun yStep =>
    (List.range (d + 1)).flatMap fun zStep =>
      (List.range d).flatMap fun xStep =>
        [(gridLine s d xStep, gridLine s d yStep, gridLine s d zStep),
         (gridEnd s d xStep, gridLine s d yStep, gridLine s d zStep)])
  ++
  ((List.range (d + 1)).flatMap fun xStep =>
    (List.range (d + 1)).flatMap fun yStep =>
      (List.range d).flatMap fun zStep =>
        [(gridLine s d xStep, gridLine s d yStep, gridLine s d zStep),
         (gridLine s d xStep, gridLine s d yStep, gridEnd s d zStep)])

/-- The displacement sum of the grid update for the Sun of the preset at the
vertex `(3, 4.5, 0)`: `2 * (2 * sqrt(rs * (1000 * |position - v| - rs)))`. -/
def sunDisplacement : ℝ :=
  2 * (2 * Real.sqrt (rsReal sun * (1000 * distReal sun (3, 4.5, 0) - rsReal sun)))

/-- The radius of the invariant, with the number pi:
`cbrt((3*mass) / (4*pi*density)) / SIZE_RATIO`, `SIZE_RATIO = 30000`. -/
def radiusFormula (m d : ℝ) : ℝ := (3 * m / (4 * Real.pi * d)) ^ (1 / 3 : ℝ) / 30000

namespace CFloat

@[simp] theorem fin_add_fin (x y : ℝ) : fin x + fin y = fin (x + y) := rfl

@[simp] theorem neg_fin (x : ℝ) : -fin x = fin (-x) := rfl

@[simp] theorem fin_sub_fin (x y : ℝ) : fin x - fin y = fin (x - y) := by
  show add (fin x) (neg (fin y)) = fin (x - y)
  simp [add, neg, sub_eq_add_neg]

@[simp] theorem fin_mul_fin (x y : ℝ) : fin x * fin y = fin (x * y) := rfl

theorem fin_div_fin (x : ℝ) {y : ℝ} (hy : y ≠ 0) : fin x / fin y = fin (x / y) := by
  show div (fin x) (fin y) = fin (x / y)
  simp [div, hy]

theorem sqrt_fin {x : ℝ} (hx : 0 ≤ x) : sqrt (fin x) = fin (Real.sqrt x) := by
  simp [sqrt, not_lt.mpr hx]

theorem sqrt_fin_neg {x : ℝ} (hx : x < 0) : sqrt (fin x) = nan := by
  simp [sqrt, hx]

theorem pow_fin {x : ℝ} (hx : 0 ≤ x) (y : ℝ) : pow (fin x) y = fin (x ^ y) := by
  simp [pow, not_lt.mpr hx]

theorem pow_fin_neg {x : ℝ} (hx : x < 0) (y : ℝ) : pow (fin x) y = nan := by
  simp [pow, hx]

@[simp] theorem abs_fin (x : ℝ) : abs (fin x) = fin |x| := rfl

@[simp] theorem lt_fin_fin (x y : ℝ) : lt (fin x) (fin y) ↔ x < y := Iff.rfl

@[simp] theorem fin_inj (x y : ℝ) : fin x = fin y ↔ x = y :=
  ⟨fun h => by injection h, fun h => by rw [h]⟩

end CFloat

theorem sq_sum_nonneg (a b d : ℝ) : 0 ≤ a * a + b * b + d * d := by
  nlinarith [mul_self_nonneg a, mul_self_nonneg b, mul_self_nonneg d]

/-- With finite positions, `pairDistance` is the Euclidean distance of the centres. -/
theorem pairDistance_ofReal (obj obj2 : Object) (x1 y1 z1 x2 y2 z2 : ℝ)
    (hp1 : obj.position = Vec3.ofReal x1 y1 z1) (hp2 : obj2.position = Vec3.ofReal x2 y2 z2) :
    pairDistance obj obj2
      = fin (Real.sqrt ((x2 - x1) * (x2 - x1) + (y2 - y1) * (y2 - y1) + (z2 - z1) * (z2 - z1))) := by
  simp only [pairDistance, pairDelta, hp1, hp2, Vec3.ofReal, fin_sub_fin, fin_mul_fin,
    fin_add_fin]
  exact sqrt_fin (sq_sum_nonneg _ _ _)

/-- C1: for two bodies with finite positions at centre distance `r > 0` and
finite masses `m1 ≠ 0`, `m2`, the vector `acc` computed in the main loop for
`obj` is `((G*m1*m2 / (1000*r)^2) / m1)` times the unit vector `d / r`, where
`d = position(obj2) - position(obj)`; the scalar equals `G*m2 / (1000*r)^2`,
which does not mention `m1`; `d / r` has length 1; and for `m2 ≥ 0` the scalar
is non-negative, so that the acceleration points from `obj` towards `obj2`.
When both bodies are non-initializing and the simulation is unpaused, this is
the vector the loop body passes to `accelerate`. -/
theorem pairAcc_newton (obj obj2 : Object) (x1 y1 z1 x2 y2 z2 m1 m2 r : ℝ)
    (hp1 : obj.position = Vec3.ofReal x1 y1 z1) (hp2 : obj2.position = Vec3.ofReal x2 y2 z2)
    (hm1 : obj.mass = fin m1) (hm2 : obj2.mass = fin m2) (hm : m1 ≠ 0)
    (hr : r = Real.sqrt ((x2 - x1) * (x2 - x1) + (y2 - y1) * (y2 - y1) + (z2 - z1) * (z2 - z1)))
    (hpos : 0 < r) :
    pairDistance obj obj2 = fin r ∧
    pairAcc obj obj2
      = Vec3.ofReal
          ((x2 - x1) / r * ((6.6743e-11 * m1 * m2 / (1000 * r) ^ 2) / m1))
          ((y2 - y1) / r * ((6.6743e-11 * m1 * m2 / (1000 * r) ^ 2) / m1))
          ((z2 - z1) / r * ((6.6743e-11 * m1 * m2 / (1000 * r) ^ 2) / m1)) ∧
    (6.6743e-11 * m1 * m2 / (1000 * r) ^ 2) / m1 = 6.6743e-11 * m2 / (1000 * r) ^ 2 ∧
    ((x2 - x1) / r) ^ 2 + ((y2 - y1) / r) ^ 2 + ((z2 - z1) / r) ^ 2 = 1 ∧
    (0 ≤ m2 → 0 ≤ 6.6743e-11 * m2 / (1000 * r) ^ 2) ∧
    (obj.Initalizing = false → obj2.Initalizing = false →
      pairStep false obj obj2
        = collide (obj.accelerate (pairAcc obj obj2).x (pairAcc obj obj2).y (pairAcc obj obj2).z)
            obj2) := by
  have hd : pairDistance obj obj2 = fin r := by
    rw [pairDistance_ofReal obj obj2 x1 y1 z1 x2 y2 z2 hp1 hp2, hr]
  have hr0 : r ≠ 0 := ne_of_gt hpos
  have hrr : r * 1000 * (r * 1000) ≠ 0 := by positivity
  refine ⟨hd, ?_, ?_, ?_, ?_, ?_⟩
  · simp only [pairAcc, hd, pairDelta, hp1, hp2, hm1, hm2, Vec3.ofReal, G, fin_sub_fin,
      fin_mul_fin, fin_div_fin _ hr0, fin_div_fin _ hrr, fin_div_fin _ hm]
    have e : 6.6743e-11 * m1 * m2 / (r * 1000 * (r * 1000)) / m1
        = 6.6743e-11 * m1 * m2 / (1000 * r) ^ 2 / m1 := by
      congr 2; ring
    rw [e]
  · field_simp
    ring
  · have hsq : r ^ 2
        = (x2 - x1) * (x2 - x1) + (y2 - y1) * (y2 - y1) + (z2 - z1) * (z2 - z1) := by
      rw [hr]; exact Real.sq_sqrt (sq_sum_nonneg _ _ _)
    field_simp
    rw [hsq]; ring
  · intro h2
    positivity
  · intro hi1 hi2
    simp [pairStep, hi1, hi2, hd, hpos]

/-- C1 at a concrete pair: bodies at `(0,0,0)` and `(3,4,0)`, distance 5, masses 2 and 7. -/
theorem pairAcc_newton_witness :
    pairDistance (Object.new (Vec3.ofReal 0 0 0) (Vec3.ofReal 0 0 0) (fin 2) (fin 1))
        (Object.new (Vec3.ofReal 3 4 0) (Vec3.ofReal 0 0 0) (fin 7) (fin 1)) = fin 5 ∧
    pairAcc (Object.new (Vec3.ofReal 0 0 0) (Vec3.ofReal 0 0 0) (fin 2) (fin 1))
        (Object.new (Vec3.ofReal 3 4 0) (Vec3.ofReal 0 0 0) (fin 7) (fin 1))
      = Vec3.ofReal
          ((3 - 0) / 5 * ((6.6743e-11 * 2 * 7 / (1000 * 5) ^ 2) / 2))
          ((4 - 0) / 5 * ((6.6743e-11 * 2 * 7 / (1000 * 5) ^ 2) / 2))
          ((0 - 0) / 5 * ((6.6743e-11 * 2 * 7 / (1000 * 5) ^ 2) / 2)) := by
  have h5 : (5 : ℝ) = Real.sqrt ((3 - 0) * (3 - 0) + (4 - 0) * (4 - 0) + (0 - 0) * (0 - 0)) := by
    rw [show ((3 : ℝ) - 0) * (3 - 0) + (4 - 0) * (4 - 0) + (0 - 0) * (0 - 0) = 5 ^ 2 by norm_num]
    exact (Real.sqrt_sq (by norm_num)).symm
  have h := pairAcc_newton
    (Object.new (Vec3.ofReal 0 0 0) (Vec3.ofReal 0 0 0) (fin 2) (fin 1))
    (Object.new (Vec3.ofReal 3 4 0) (Vec3.ofReal 0 0 0) (fin 7) (fin 1))
    0 0 0 3 4 0 2 7 5 rfl rfl rfl rfl (by norm_num) h5 (by norm_num)
  exact ⟨h.1, h.2.1⟩

/-! ## Algebra of `CFloat` that holds on the special values too -/

namespace CFloat

theorem add_def (a b : CFloat) : a + b = add a b := rfl

theorem mul_def (a b : CFloat) : a * b = mul a b := rfl

theorem div_def (a b : CFloat) : a / b = div a b := rfl

theorem add_assoc_all (a b d : CFloat) : a + b + d = a + (b + d) := by
  cases a <;> cases b <;> cases d <;> simp [add_def, add, add_assoc]

theorem add_zero_all (a : CFloat) : a + fin 0 = a := by
  cases a <;> simp [add_def, add]

theorem div_add_div_96 (a b : CFloat) : a / fin 96 + b / fin 96 = (a + b) / fin 96 := by
  cases a <;> cases b <;> simp [add_def, add, div_def, div, infOfSign, add_div]

theorem zero_div_96 : fin 0 / fin 96 = fin 0 := by
  simp [div_def, div]

theorem mul_one_all (a : CFloat) : a * fin 1 = a := by
  cases a <;> simp [mul_def, mul, infOfSign]

end CFloat

theorem Vec3.scale_one (v : Vec3) : v.scale (fin 1) = v := by
  cases v; simp [Vec3.scale, CFloat.mul_one_all]

/-! ## The loops of the tick -/

theorem innerLoop_past (pause : Bool) (i : Nat) (L : List Object) :
    ∀ (j : Nat) (o : Object), i < j → innerLoop pause i j L o = L.foldl (pairStep pause) o := by
  induction L with
  | nil => intro j o _; rfl
  | cons obj2 rest ih =>
    intro j o hj
    have hne : j ≠ i := by omega
    simp only [innerLoop, if_neg hne, List.foldl_cons]
    exact ih (j + 1) _ (by omega)

theorem innerLoop_upto (pause : Bool) (i : Nat) (L : List Object) :
    ∀ (j : Nat) (o : Object), j ≤ i →
      innerLoop pause i j L o = (L.eraseIdx (i - j)).foldl (pairStep pause) o := by
  induction L with
  | nil => intro j o _; rfl
  | cons obj2 rest ih =>
    intro j o hj
    by_cases hji : j = i
    · subst hji
      simp only [innerLoop, if_true, Nat.sub_self, List.eraseIdx_cons_zero]
      exact innerLoop_past pause j rest (j + 1) o (by omega)
    · have hsub : i - j = (i - (j + 1)) + 1 := by omega
      simp only [innerLoop, if_neg hji]
      rw [hsub, List.eraseIdx_cons_succ, List.foldl_cons]
      exact ih (j + 1) _ (by omega)

/-- The inner loop visits every element but the one at index `i`. -/
theorem innerLoop_eq_foldl (pause : Bool) (i : Nat) (L : List Object) (o : Object) :
    innerLoop pause i 0 L o = (L.eraseIdx i).foldl (pairStep pause) o := by
  simpa using innerLoop_upto pause i L 0 o (Nat.zero_le _)

theorem stepAt_getElem_ne (pause : Bool) (objs : List Object) (i j : Nat) (h : i ≠ j) :
    (stepAt pause objs i)[j]? = objs[j]? := by
  unfold stepAt
  cases objs[i]? with
  | none => rfl
  | some obj => simp [List.getElem?_set, h]

theorem stepAt_getElem_self (pause : Bool) (objs : List Object) (i : Nat) (obj : Object)
    (h : objs[i]? = some obj) :
    (stepAt pause objs i)[i]? = some (bodyStep pause objs i obj) := by
  have hlt : i < objs.length := by
    by_contra hc
    rw [List.getElem?_eq_none (by omega)] at h
    cases h
  unfold stepAt
  rw [h]
  simp [List.getElem?_set, hlt]

theorem passPrefix_succ (pause : Bool) (objs : List Object) (k : Nat) :
    passPrefix pause objs (k + 1) = stepAt pause (passPrefix pause objs k) k := by
  simp [passPrefix, List.range_succ, List.foldl_append]

/-- An element is untouched until the outer loop reaches it. -/
theorem passPrefix_getElem_ge (pause : Bool) (objs : List Object) (i k : Nat) (h : k ≤ i) :
    (passPrefix pause objs k)[i]? = objs[i]? := by
  induction k with
  | zero => rfl
  | succ k ih =>
    rw [passPrefix_succ, stepAt_getElem_ne pause _ k i (by omega)]
    exact ih (by omega)

/-- An element is not touched again once the outer loop has passed it. -/
theorem passPrefix_getElem_lt (pause : Bool) (objs : List Object) (i k : Nat) (h : i < k) :
    (passPrefix pause objs k)[i]? = (passPrefix pause objs (i + 1))[i]? := by
  induction k with
  | zero => omega
  | succ k ih =>
    by_cases hk : i = k
    · subst hk; rfl
    · rw [passPrefix_succ, stepAt_getElem_ne pause _ k i (fun e => hk e.symm)]
      exact ih (by omega)

/-- The element at index `i` after a tick is the outer-loop iteration applied
to it in the collection as it stands when the loop reaches index `i`. -/
theorem tick_getElem (pause : Bool) (objs : List Object) (i : Nat) (obj : Object)
    (h : objs[i]? = some obj) :
    (tick pause objs)[i]? = some (bodyStep pause (passPrefix pause objs i) i obj) := by
  have hlt : i < objs.length := by
    by_contra hc
    rw [List.getElem?_eq_none (by omega)] at h
    cases h
  unfold tick
  rw [passPrefix_getElem_lt pause objs i objs.length hlt, passPrefix_succ]
  apply stepAt_getElem_self
  rw [passPrefix_getElem_ge pause objs i i (le_refl _)]
  exact h

theorem Vec3.addDiv_addDiv_96 (w s a : Vec3) :
    (w.addDiv s (fin 96)).addDiv a (fin 96) = w.addDiv (s.add a) (fin 96) := by
  simp [Vec3.addDiv, Vec3.add, CFloat.add_assoc_all, CFloat.div_add_div_96]

theorem Vec3.addDiv_zero_96 (w : Vec3) : w.addDiv Vec3.zero (fin 96) = w := by
  cases w
  simp [Vec3.addDiv, Vec3.zero, CFloat.zero_div_96, CFloat.add_zero_all]

theorem foldl_addDiv_96 (L : List Vec3) :
    ∀ w s : Vec3, L.foldl (fun w a => w.addDiv a (fin 96)) (w.addDiv s (fin 96))
      = w.addDiv (L.foldl Vec3.add s) (fin 96) := by
  induction L with
  | nil => intro w s; rfl
  | cons a rest ih =>
    intro w s
    simp only [List.foldl_cons]
    rw [Vec3.addDiv_addDiv_96]
    exact ih w (s.add a)

/-- Adding the contributions one at a time, each divided by 96, adds their sum
divided by 96. -/
theorem foldl_addDiv_96_zero (L : List Vec3) (w : Vec3) :
    L.foldl (fun w a => w.addDiv a (fin 96)) w
      = w.addDiv (L.foldl Vec3.add Vec3.zero) (fin 96) := by
  have h := foldl_addDiv_96 L w Vec3.zero
  rw [Vec3.addDiv_zero_96] at h
  exact h

/-- One unpaused inner-loop step for a non-initializing body that does not
collide with `obj2`. -/
theorem pairStep_unpaused_no_collision (o obj2 : Object)
    (hinit : o.Initalizing = false) (hnc : o.CheckCollision obj2 = fin 1) :
    pairStep false o obj2
      = { o with velocity :=
            (if contributes o obj2 then o.velocity.addDiv (pairAcc o obj2) (fin 96)
             else o.velocity) } := by
  obtain ⟨p, v, ini, m, d, r⟩ := o
  simp only at hinit
  subst hinit
  cases hi2 : obj2.Initalizing
  · by_cases hlt : CFloat.lt (fin 0) (pairDistance ⟨p, v, false, m, d, r⟩ obj2)
    · have hcc : ∀ v1 : Vec3, Object.CheckCollision ⟨p, v1, false, m, d, r⟩ obj2 = fin 1 :=
        fun _ => hnc
      have hc : contributes ⟨p, v, false, m, d, r⟩ obj2 = true := by
        simp [contributes, hi2, hlt]
      simp [pairStep, hi2, hlt, hc, collide, Object.accelerate, hcc, Vec3.scale_one,
        Vec3.addDiv]
    · have hc : contributes ⟨p, v, false, m, d, r⟩ obj2 = false := by
        simp [contributes, hi2, hlt]
      simp [pairStep, hi2, hlt, hc]
  · have hc : contributes ⟨p, v, false, m, d, r⟩ obj2 = false := by
      simp [contributes, hi2]
    simp [pairStep, hi2, hc]

/-- The unpaused inner loop over `others` for a non-initializing body without a
colliding partner only changes the velocity, by the contributions one by one. -/
theorem foldl_pairStep_no_collision (others : List Object) :
    ∀ o : Object, o.Initalizing = false →
    (∀ obj2 ∈ others, o.CheckCollision obj2 = fin 1) →
    others.foldl (pairStep false) o
      = { o with velocity :=
            (((others.filter (contributes o)).map (pairAcc o)).foldl
              (fun w a => w.addDiv a (fin 96)) o.velocity) } := by
  induction others with
  | nil => intro o _ _; rfl
  | cons obj2 rest ih =>
    intro o hinit hnc
    have h2 : o.CheckCollision obj2 = fin 1 := hnc obj2 (List.mem_cons_self _ _)
    have hrest : ∀ obj3 ∈ rest, o.CheckCollision obj3 = fin 1 :=
      fun obj3 h3 => hnc obj3 (List.mem_cons_of_mem _ h3)
    rw [List.foldl_cons, pairStep_unpaused_no_collision o obj2 hinit h2]
    have e1 : ∀ w : Vec3, contributes { o with velocity := w } = contributes o := fun _ => rfl
    have e2 : ∀ w : Vec3, pairAcc { o with velocity := w } = pairAcc o := fun _ => rfl
    have step := ih
      { o with velocity :=
          (if contributes o obj2 then o.velocity.addDiv (pairAcc o obj2) (fin 96)
           else o.velocity) } hinit hrest
    rw [step]
    simp only [e1, e2, List.filter_cons]
    cases hc : contributes o obj2 <;> simp

/-- C2: with the simulation unpaused, a non-initializing body `obj` (at index
`i`) for which `CheckCollision` reports no collision with any other body ends
the tick with `velocity' = velocity + a / 96` and
`position' = position + velocity' / 94`, componentwise, where `a` is the sum
of the pairwise contributions `pairAcc obj obj2` over the other
non-initializing bodies at positive distance, taken in the collection as it
stands when the outer loop reaches `obj`. -/
theorem tick_unpaused_no_collision (objs : List Object) (i : Nat) (obj : Object)
    (h : objs[i]? = some obj) (hinit : obj.Initalizing = false)
    (hnc : ∀ obj2 ∈ (passPrefix false objs i).eraseIdx i, obj.CheckCollision obj2 = fin 1) :
    ∃ obj1 : Object, (tick false objs)[i]? = some obj1 ∧
      obj1.velocity
        = obj.velocity.addDiv (netAcc obj ((passPrefix false objs i).eraseIdx i)) (fin 96) ∧
      obj1.position = obj.position.addDiv obj1.velocity (fin 94) := by
  refine ⟨_, tick_getElem false objs i obj h, ?_⟩
  have hfold := foldl_pairStep_no_collision _ obj hinit hnc
  simp only [bodyStep, innerLoop_eq_foldl, hfold, hinit, foldl_addDiv_96_zero]
  constructor
  · rfl
  · rfl

/-! ## The radius expression and the collision test on finite values -/

/-- On finite mass and density with `density ≠ 0` and a non-negative ratio the
radius expression is the real cube-root formula. -/
theorem radiusExpr_fin (m d : ℝ) (hd : d ≠ 0) (h : 0 ≤ 3 * m / d / (4 * 3.14159265359)) :
    radiusExpr (fin m) (fin d)
      = fin ((3 * m / d / (4 * 3.14159265359)) ^ (1 / 3 : ℝ) / 30000) := by
  have h4 : (4 * 3.14159265359 : ℝ) ≠ 0 := by norm_num
  have h3 : (30000 : ℝ) ≠ 0 := by norm_num
  simp only [radiusExpr, sizeRatio, fin_mul_fin, fin_div_fin _ hd, fin_div_fin _ h4,
    pow_fin h, fin_div_fin _ h3]

/-- The mass and density of the example bodies give radius 1. -/
theorem radiusExpr_unit : radiusExpr (fin (4 * 3.14159265359 * 30000 ^ 3)) (fin 3) = fin 1 := by
  have e : (3 * (4 * 3.14159265359 * 30000 ^ 3) / 3 / (4 * 3.14159265359) : ℝ)
      = (30000 : ℝ) ^ 3 := by norm_num
  rw [radiusExpr_fin _ _ (by norm_num) (by rw [e]; positivity), e]
  have hc : ((30000 : ℝ) ^ 3) ^ (1 / 3 : ℝ) = 30000 := by
    have := Real.pow_rpow_inv_natCast (show (0 : ℝ) ≤ 30000 by norm_num)
      (show (3 : ℕ) ≠ 0 by norm_num)
    rw [show (1 / 3 : ℝ) = ((3 : ℕ) : ℝ)⁻¹ by norm_num]
    exact this
  rw [hc]
  norm_num

theorem collisionDistance_ofReal (a b : Object) (x1 y1 z1 x2 y2 z2 : ℝ)
    (hp1 : a.position = Vec3.ofReal x1 y1 z1) (hp2 : b.position = Vec3.ofReal x2 y2 z2) :
    a.collisionDistance b
      = fin (Real.sqrt ((x2 - x1) * (x2 - x1) + (y2 - y1) * (y2 - y1) + (z2 - z1) * (z2 - z1))) := by
  simp only [Object.collisionDistance, hp1, hp2, Vec3.ofReal, fin_sub_fin, fin_mul_fin,
    fin_add_fin]
  rw [pow_fin (sq_sum_nonneg _ _ _), Real.sqrt_eq_rpow]

/-- With finite positions and radii, `CheckCollision` compares the Euclidean
distance of the centres with the sum of the radii. -/
theorem CheckCollision_ofReal (a b : Object) (x1 y1 z1 x2 y2 z2 r1 r2 : ℝ)
    (hp1 : a.position = Vec3.ofReal x1 y1 z1) (hp2 : b.position = Vec3.ofReal x2 y2 z2)
    (hr1 : a.radius = fin r1) (hr2 : b.radius = fin r2) :
    a.CheckCollision b
      = if Real.sqrt ((x2 - x1) * (x2 - x1) + (y2 - y1) * (y2 - y1) + (z2 - z1) * (z2 - z1))
            < r1 + r2
        then fin (-0.2) else fin 1 := by
  simp only [Object.CheckCollision, collisionDistance_ofReal a b x1 y1 z1 x2 y2 z2 hp1 hp2,
    hr1, hr2, fin_add_fin, lt_fin_fin, add_comm r2 r1]

theorem fin_neg_ne_one : fin (-0.2) ≠ fin 1 := by
  intro h
  rw [fin_inj] at h
  norm_num at h

/-- C3: for two objects with finite positions and radii `r1`, `r2`, whose
centres are at Euclidean distance `dist`, `CheckCollision` returns the damping
factor `-0.2` exactly when `dist < r1 + r2` and `1.0` otherwise; hence a
separation of `r1 + r2 + eps` (`eps > 0`) is not flagged, a separation of
`r1 + r2 - eps` is flagged, and a separation of exactly `r1 + r2` is not flagged. -/
theorem CheckCollision_strict (a b : Object) (x1 y1 z1 x2 y2 z2 r1 r2 dist : ℝ)
    (hp1 : a.position = Vec3.ofReal x1 y1 z1) (hp2 : b.position = Vec3.ofReal x2 y2 z2)
    (hr1 : a.radius = fin r1) (hr2 : b.radius = fin r2)
    (hdist : dist
      = Real.sqrt ((x2 - x1) * (x2 - x1) + (y2 - y1) * (y2 - y1) + (z2 - z1) * (z2 - z1))) :
    (a.CheckCollision b = fin (-0.2) ↔ dist < r1 + r2) ∧
    (a.CheckCollision b = fin 1 ↔ ¬ dist < r1 + r2) ∧
    (∀ eps : ℝ, 0 < eps → dist = r1 + r2 + eps → a.CheckCollision b = fin 1) ∧
    (∀ eps : ℝ, 0 < eps → dist = r1 + r2 - eps → a.CheckCollision b = fin (-0.2)) ∧
    (dist = r1 + r2 → a.CheckCollision b = fin 1) := by
  have hcc := CheckCollision_ofReal a b x1 y1 z1 x2 y2 z2 r1 r2 hp1 hp2 hr1 hr2
  rw [← hdist] at hcc
  have hflag : dist < r1 + r2 → a.CheckCollision b = fin (-0.2) := fun h => by
    rw [hcc, if_pos h]
  have hnot : ¬ dist < r1 + r2 → a.CheckCollision b = fin 1 := fun h => by
    rw [hcc, if_neg h]
  refine ⟨⟨fun h => ?_, hflag⟩, ⟨fun h => ?_, hnot⟩, ?_, ?_, ?_⟩
  · by_contra hc
    rw [hnot hc] at h
    exact fin_neg_ne_one h.symm
  · intro hc
    rw [hflag hc] at h
    exact fin_neg_ne_one h
  · intro eps he hd
    exact hnot (by linarith)
  · intro eps he hd
    exact hflag (by linarith)
  · intro hd
    exact hnot (by linarith)

theorem sqrt_25 :
    Real.sqrt ((3 - 0) * (3 - 0) + (4 - 0) * (4 - 0) + (0 - 0) * (0 - 0)) = 5 := by
  rw [show ((3 : ℝ) - 0) * (3 - 0) + (4 - 0) * (4 - 0) + (0 - 0) * (0 - 0) = 5 ^ 2 by norm_num]
  exact Real.sqrt_sq (by norm_num)

theorem sqrt_1 :
    Real.sqrt ((1 - 0) * (1 - 0) + (0 - 0) * (0 - 0) + (0 - 0) * (0 - 0)) = 1 := by
  rw [show ((1 : ℝ) - 0) * (1 - 0) + (0 - 0) * (0 - 0) + (0 - 0) * (0 - 0) = 1 by norm_num]
  exact Real.sqrt_one

theorem bodyA_radius : bodyA.radius = fin 1 := radiusExpr_unit

theorem bodyB_radius : bodyB.radius = fin 1 := radiusExpr_unit

theorem bodyC_radius : bodyC.radius = fin 1 := radiusExpr_unit

/-- C3 at concrete bodies of radius 1: at distance 5 = 1 + 1 + 3 no collision
is reported, at distance 1 = 1 + 1 - 1 one is. -/
theorem CheckCollision_strict_witness :
    bodyA.CheckCollision bodyB = fin 1 ∧ bodyA.CheckCollision bodyC = fin (-0.2) :=
  ⟨(CheckCollision_strict bodyA bodyB 0 0 0 3 4 0 1 1 5 rfl rfl bodyA_radius bodyB_radius
      sqrt_25.symm).2.2.1 3 (by norm_num) (by norm_num),
   (CheckCollision_strict bodyA bodyC 0 0 0 1 0 0 1 1 1 rfl rfl bodyA_radius bodyC_radius
      sqrt_1.symm).2.2.2.1 1 (by norm_num) (by norm_num)⟩

theorem bodyA_bodyB_no_collision : bodyA.CheckCollision bodyB = fin 1 := by
  rw [CheckCollision_ofReal bodyA bodyB 0 0 0 3 4 0 1 1 rfl rfl bodyA_radius bodyB_radius,
    sqrt_25]
  norm_num

theorem bodyA_bodyC_collision : bodyA.CheckCollision bodyC = fin (-0.2) := by
  rw [CheckCollision_ofReal bodyA bodyC 0 0 0 1 0 0 1 1 rfl rfl bodyA_radius bodyC_radius,
    sqrt_1]
  norm_num

theorem bodyA_bodyC_distance : pairDistance bodyA bodyC = fin 1 := by
  rw [pairDistance_ofReal bodyA bodyC 0 0 0 1 0 0 rfl rfl, sqrt_1]

/-- C2 at a concrete collection: `bodyA` and `bodyB`, five units apart with
radius 1 each, unpaused; the body at index 0. -/
theorem tick_unpaused_no_collision_witness :
    ∃ obj1 : Object, (tick false [bodyA, bodyB])[0]? = some obj1 ∧
      obj1.velocity = bodyA.velocity.addDiv (netAcc bodyA [bodyB]) (fin 96) ∧
      obj1.position = bodyA.position.addDiv obj1.velocity (fin 94) :=
  tick_unpaused_no_collision [bodyA, bodyB] 0 bodyA rfl rfl (by
    intro obj2 h
    have h2 : obj2 = bodyB := by
      simpa [passPrefix] using h
    rw [h2]
    exact bodyA_bodyB_no_collision)

/-- C4: in the inner-loop step for a pair of non-initializing bodies at
positive centre distance, the velocity of the processed body (after the
`accelerate` call, which is made only when unpaused) is multiplied as a whole
by `CheckCollision`, which is the constant `-0.2` when the centre distance is
below the sum of the radii and `1.0` otherwise, in which case the velocity is
unchanged; the factor is the same for any two objects with the same centre
distance and the same sum of radii, whatever their masses and velocities. -/
theorem pairStep_collision_factor (pause : Bool) (obj obj2 : Object)
    (hi1 : obj.Initalizing = false) (hi2 : obj2.Initalizing = false)
    (hd : CFloat.lt (fin 0) (pairDistance obj obj2)) :
    (pairStep pause obj obj2).velocity
      = (if pause then obj
          else obj.accelerate (pairAcc obj obj2).x (pairAcc obj obj2).y
            (pairAcc obj obj2).z).velocity.scale (obj.CheckCollision obj2) ∧
    (CFloat.lt (obj.collisionDistance obj2) (obj2.radius + obj.radius) →
      obj.CheckCollision obj2 = fin (-0.2)) ∧
    (¬ CFloat.lt (obj.collisionDistance obj2) (obj2.radius + obj.radius) →
      obj.CheckCollision obj2 = fin 1 ∧
      (pairStep pause obj obj2).velocity
        = (if pause then obj
            else obj.accelerate (pairAcc obj obj2).x (pairAcc obj obj2).y
              (pairAcc obj obj2).z).velocity) ∧
    (∀ a b : Object, a.collisionDistance b = obj.collisionDistance obj2 →
      b.radius + a.radius = obj2.radius + obj.radius →
      a.CheckCollision b = obj.CheckCollision obj2) := by
  have hv : (pairStep pause obj obj2).velocity
      = (if pause then obj
          else obj.accelerate (pairAcc obj obj2).x (pairAcc obj obj2).y
            (pairAcc obj obj2).z).velocity.scale (obj.CheckCollision obj2) := by
    cases pause
    · simp only [pairStep, hi1, hi2, hd, collide]
      rfl
    · simp [pairStep, hi1, hi2, hd, collide]
  refine ⟨hv, ?_, ?_, ?_⟩
  · intro h
    simp [Object.CheckCollision, h]
  · intro h
    have h1 : obj.CheckCollision obj2 = fin 1 := by simp [Object.CheckCollision, h]
    refine ⟨h1, ?_⟩
    rw [hv, h1, Vec3.scale_one]
  · intro a b h1 h2
    simp only [Object.CheckCollision, h1, h2]

/-- C4 at a concrete pair: paused, `bodyA` (velocity `(1, 0, 0)`) overlapping
`bodyC`: the velocity becomes `(-0.2, 0, 0)`. -/
theorem pairStep_collision_factor_witness :
    (pairStep true bodyA bodyC).velocity = bodyA.velocity.scale (fin (-0.2)) := by
  have h := (pairStep_collision_factor true bodyA bodyC rfl rfl
    (by rw [bodyA_bodyC_distance]; exact (lt_fin_fin 0 1).mpr one_pos)).1
  rw [bodyA_bodyC_collision] at h
  exact h

/-- C5 fails on two overlapping bodies: with the simulation paused, one pass
of the update loop over `bodyA` (velocity `(1, 0, 0)`) and `bodyC` leaves
`bodyA` with velocity `(-0.2, 0, 0)`; the collision line is not under the
`if(!pause)` guard. -/
theorem paused_tick_changes_velocity :
    bodyA.velocity = Vec3.ofReal 1 0 0 ∧
    (tick true [bodyA, bodyC])[0]?.map Object.velocity = some (Vec3.ofReal (-0.2) 0 0) ∧
    (tick true [bodyA, bodyC])[0]?.map Object.position = some bodyA.position := by
  have ht := tick_getElem true [bodyA, bodyC] 0 bodyA rfl
  have hp : passPrefix true [bodyA, bodyC] 0 = [bodyA, bodyC] := rfl
  have hs : pairStep true bodyA bodyC = collide bodyA bodyC := by
    have hi1 : bodyA.Initalizing = false := rfl
    have hi2 : bodyC.Initalizing = false := rfl
    simp [pairStep, hi1, hi2, bodyA_bodyC_distance]
  have hb : bodyStep true [bodyA, bodyC] 0 bodyA = collide bodyA bodyC := by
    have hi : (collide bodyA bodyC).Initalizing = false := rfl
    simp [bodyStep, innerLoop, hs, hi]
  rw [hp, hb] at ht
  refine ⟨rfl, ?_, ?_⟩
  · rw [ht]
    simp only [Option.map_some', collide, bodyA_bodyC_collision]
    have hv : bodyA.velocity = Vec3.ofReal 1 0 0 := rfl
    rw [hv]
    simp [Vec3.scale, Vec3.ofReal]
  · rw [ht]
    rfl

/-! ## The grid update on finite inputs -/

namespace CFloat

@[simp] theorem toReal_fin (x : ℝ) : (fin x).toReal = x := rfl

theorem eq_fin_of_isFinite {a : CFloat} (h : a.isFinite) : ∃ x : ℝ, a = fin x := by
  cases a with
  | fin x => exact ⟨x, rfl⟩
  | pinf => exact h.elim
  | ninf => exact h.elim
  | nan => exact h.elim

theorem nan_add (a : CFloat) : nan + a = nan := by
  cases a <;> rfl

theorem add_nan (a : CFloat) : a + nan = nan := by
  cases a <;> rfl

theorem nan_mul (a : CFloat) : nan * a = nan := by
  cases a <;> rfl

theorem mul_nan (a : CFloat) : a * nan = nan := by
  cases a <;> rfl

end CFloat

/-- The value `dz` for an object with finite position and mass and a finite
vertex: NaN exactly when the argument of the square root is negative. -/
theorem dzTerm_fin (o : Object) (hf : o.FinitePlace) (v : ℝ × ℝ × ℝ) :
    dzTerm o ⟨fin v.1, fin v.2.1, fin v.2.2⟩
      = if 0 ≤ sqrtArg o v then fin (2 * Real.sqrt (sqrtArg o v)) else nan := by
  obtain ⟨⟨px, py, pz⟩, vel, ini, mass, den, rad⟩ := o
  obtain ⟨hx, hy, hz, hm⟩ := hf
  obtain ⟨x, rfl⟩ := eq_fin_of_isFinite hx
  obtain ⟨y, rfl⟩ := eq_fin_of_isFinite hy
  obtain ⟨z, rfl⟩ := eq_fin_of_isFinite hz
  obtain ⟨m, rfl⟩ := eq_fin_of_isFinite hm
  have hcc : (299792458 * 299792458 : ℝ) ≠ 0 := by norm_num
  have harg : Real.sqrt ((x - v.1) * (x - v.1) + (y - v.2.1) * (y - v.2.1)
        + (z - v.2.2) * (z - v.2.2)) * 1000
      = 1000 * Real.sqrt ((x - v.1) * (x - v.1) + (y - v.2.1) * (y - v.2.1)
        + (z - v.2.2) * (z - v.2.2)) := mul_comm _ _
  simp only [dzTerm, Vec3.sub, Vec3.length, G, c, fin_sub_fin, fin_mul_fin, fin_add_fin,
    sqrt_fin (sq_sum_nonneg _ _ _), fin_div_fin _ hcc, sqrtArg, rsReal, distReal, toReal_fin,
    harg]
  by_cases h : 0 ≤ 2 * 6.6743e-11 * m / (299792458 * 299792458)
      * (1000 * Real.sqrt ((x - v.1) * (x - v.1) + (y - v.2.1) * (y - v.2.1)
        + (z - v.2.2) * (z - v.2.2)) - 2 * 6.6743e-11 * m / (299792458 * 299792458))
  · rw [if_pos h, sqrt_fin h, fin_mul_fin]
  · rw [if_neg h, sqrt_fin_neg (not_le.mp h)]
    rfl

theorem foldl_disp_nan (objs : List Object) (V : Vec3) :
    objs.foldl (fun t obj => t + dzTerm obj V * fin 2) nan = nan := by
  induction objs with
  | nil => rfl
  | cons o rest ih => rw [List.foldl_cons, nan_add]; exact ih

theorem foldl_disp_fin (v : ℝ × ℝ × ℝ) (objs : List Object) :
    (∀ o ∈ objs, o.FinitePlace) →
    ∀ t : ℝ, objs.foldl (fun t obj => t + dzTerm obj ⟨fin v.1, fin v.2.1, fin v.2.2⟩ * fin 2)
        (fin t)
      = if ∀ o ∈ objs, 0 ≤ sqrtArg o v then fin (t + dispReal objs v) else nan := by
  induction objs with
  | nil => intro _ t; simp [dispReal]
  | cons o rest ih =>
    intro hfin t
    have ho : o.FinitePlace := hfin o (List.mem_cons_self _ _)
    have hrest : ∀ o1 ∈ rest, o1.FinitePlace := fun o1 h1 => hfin o1 (List.mem_cons_of_mem _ h1)
    rw [List.foldl_cons, dzTerm_fin o ho v]
    by_cases h : 0 ≤ sqrtArg o v
    · rw [if_pos h, fin_mul_fin, fin_add_fin, ih hrest]
      have e : t + 2 * Real.sqrt (sqrtArg o v) * 2 + dispReal rest v
          = t + dispReal (o :: rest) v := by
        simp only [dispReal, List.map_cons, List.sum_cons]; ring
      simp only [List.forall_mem_cons, h, true_and, e]
    · rw [if_neg h, nan_mul, add_nan, foldl_disp_nan]
      simp [List.forall_mem_cons, h]

/-- The accumulated displacement at a finite vertex, for objects with finite
positions and masses. -/
theorem totalDisplacementY_fin (v : ℝ × ℝ × ℝ) (objs : List Object)
    (hfin : ∀ o ∈ objs, o.FinitePlace) :
    totalDisplacementY objs ⟨fin v.1, fin v.2.1, fin v.2.2⟩
      = if ∀ o ∈ objs, 0 ≤ sqrtArg o v then fin (dispReal objs v) else nan := by
  have h := foldl_disp_fin v objs hfin 0
  simp only [zero_add] at h
  exact h

theorem comLoop_foldl_fin (objs : List Object) :
    (∀ o ∈ objs, o.FinitePlace) →
    ∀ s t : ℝ,
      objs.foldl
          (fun acc obj =>
            if obj.Initalizing then acc
            else (acc.1 + obj.mass * obj.position.y, acc.2 + obj.mass))
          (fin s, fin t)
        = (fin (s + massYSum objs), fin (t + massSum objs)) := by
  induction objs with
  | nil => intro _ s t; simp [massYSum, massSum]
  | cons o rest ih =>
    intro hfin s t
    have ho : o.FinitePlace := hfin o (List.mem_cons_self _ _)
    have hrest : ∀ o1 ∈ rest, o1.FinitePlace := fun o1 h1 => hfin o1 (List.mem_cons_of_mem _ h1)
    obtain ⟨y, hy⟩ := eq_fin_of_isFinite ho.2.1
    obtain ⟨m, hm⟩ := eq_fin_of_isFinite ho.2.2.2
    rw [List.foldl_cons]
    cases hi : o.Initalizing
    · simp only [Bool.false_eq_true, if_false, hm, hy, fin_mul_fin, fin_add_fin]
      rw [ih hrest]
      have e1 : massYSum (o :: rest) = m * y + massYSum rest := by
        simp [massYSum, List.filter_cons, hi, hm, hy]
      have e2 : massSum (o :: rest) = m + massSum rest := by
        simp [massSum, List.filter_cons, hi, hm]
      rw [e1, e2, add_assoc, add_assoc]
    · simp only [if_true]
      rw [ih hrest]
      have e1 : massYSum (o :: rest) = massYSum rest := by
        simp [massYSum, List.filter_cons, hi]
      have e2 : massSum (o :: rest) = massSum rest := by
        simp [massSum, List.filter_cons, hi]
      rw [e1, e2]

/-- For objects with finite positions and masses `comY` is finite. -/
theorem comY_fin (objs : List Object) (hfin : ∀ o ∈ objs, o.FinitePlace) :
    comY objs = fin (comYReal objs) := by
  have h := comLoop_foldl_fin objs hfin 0 0
  simp only [zero_add] at h
  simp only [comY, comLoop, h, lt_fin_fin, comYReal]
  by_cases hpos : 0 < massSum objs
  · rw [if_pos hpos, if_pos hpos, fin_div_fin _ (ne_of_gt hpos)]
  · rw [if_neg hpos, if_neg hpos]

theorem maxYLoop_flatC (L : List (CFloat × CFloat × CFloat)) :
    ∀ m : CFloat, maxYLoop (flatC L) m = L.foldl (fun m v => CFloat.stdMax m v.2.1) m := by
  induction L with
  | nil => intro m; rfl
  | cons v rest ih => intro m; simp only [flatC, maxYLoop, List.foldl_cons]; exact ih _

theorem stdMax_fin (a b : ℝ) : CFloat.stdMax (fin a) (fin b) = fin (max a b) := by
  simp only [CFloat.stdMax, lt_fin_fin]
  by_cases h : a < b
  · rw [if_pos h, max_eq_right (le_of_lt h)]
  · rw [if_neg h, max_eq_left (not_lt.mp h)]

theorem foldl_stdMax_fin (vs : List (ℝ × ℝ × ℝ)) :
    ∀ m : ℝ,
      (vs.map fun v => ((fin v.1, fin v.2.1, fin v.2.2) : CFloat × CFloat × CFloat)).foldl
          (fun m v => CFloat.stdMax m v.2.1) (fin m)
        = fin (vs.foldl (fun m w => max m w.2.1) m) := by
  induction vs with
  | nil => intro m; rfl
  | cons v rest ih =>
    intro m
    simp only [List.map_cons, List.foldl_cons, stdMax_fin]
    exact ih _

/-- For a non-empty list of finite vertices `originalMaxY` is the largest height. -/
theorem originalMaxY_fin (v : ℝ × ℝ × ℝ) (rest : List (ℝ × ℝ × ℝ)) :
    originalMaxY (flat (v :: rest)) = fin (maxYReal (v :: rest)) := by
  have h0 : CFloat.stdMax ninf (fin v.2.1) = fin v.2.1 := by
    simp [CFloat.stdMax, CFloat.lt]
  simp only [originalMaxY, flat, maxYLoop_flatC, List.map_cons, List.foldl_cons, h0, maxYReal]
  exact foldl_stdMax_fin rest _

theorem truncate_intCast (n : Int) : truncate (n : ℝ) = n := by
  simp only [truncate, Int.floor_intCast, Int.ceil_intCast, ite_self]

theorem absCall_fin (call : AbsCall) (x : ℝ) : absCall call (fin x) = fin (absReal call x) := by
  cases call with
  | floating => rfl
  | integer undef =>
    simp only [absReal, absCall]
    split_ifs <;> rfl

theorem absReal_floating (x : ℝ) : absReal AbsCall.floating x = |x| := rfl

theorem absReal_integer (undef : CFloat → Int) (x : ℝ) (h : |truncate x| < 2 ^ 31) :
    absReal (AbsCall.integer undef) x = ((|truncate x| : Int) : ℝ) := by
  simp only [absReal, absCall, if_pos h, toReal_fin]

/-- At an integer within the range of `int` both resolutions of `abs` give the
absolute value. -/
theorem absReal_intCast (call : AbsCall) (n : Int) (h : |n| < 2 ^ 31) :
    absReal call (n : ℝ) = |(n : ℝ)| := by
  cases call with
  | floating => rfl
  | integer undef =>
    rw [absReal_integer undef _ (by rw [truncate_intCast]; exact h), truncate_intCast]
    push_cast
    rfl

/-- Within defined behaviour, `abs` applied to its own result changes nothing. -/
theorem absReal_idem (call : AbsCall) (x : ℝ) (h : call.Defined x) :
    absReal call (absReal call x) = absReal call x := by
  cases call with
  | floating => simp only [absReal_floating, abs_abs]
  | integer undef =>
    have h1 : |truncate x| < 2 ^ 31 := h
    rw [absReal_integer undef x h1]
    rw [absReal_integer undef _ (by rw [truncate_intCast, abs_abs]; exact h1), truncate_intCast,
      abs_abs]

theorem heightLoop_flatC (call : AbsCall) (objs : List Object) (shift : CFloat)
    (L : List (CFloat × CFloat × CFloat)) :
    heightLoop call objs shift (flatC L)
      = flatC (L.map fun v =>
          (v.1, totalDisplacementY objs ⟨v.1, v.2.1, v.2.2⟩ + -(absCall call shift), v.2.2)) := by
  induction L with
  | nil => rfl
  | cons v rest ih => simp only [flatC, heightLoop, List.map_cons, ih]

/-- The grid update on finite vertices and objects with finite positions and
masses: the horizontal coordinates are kept and the height of the vertex `v`
becomes `heightAt call vs objs v`. -/
theorem UpdateGridVertices_fin (call : AbsCall) (vs : List (ℝ × ℝ × ℝ)) (objs : List Object)
    (hfin : ∀ o ∈ objs, o.FinitePlace) :
    UpdateGridVertices call (flat vs) objs
      = flatC (vs.map fun v => (fin v.1, heightAt call vs objs v, fin v.2.2)) := by
  cases vs with
  | nil => rfl
  | cons v0 rest =>
    have hshift : verticalShift (flat (v0 :: rest)) objs
        = fin (comYReal objs - maxYReal (v0 :: rest)) := by
      rw [verticalShift, comY_fin objs hfin, originalMaxY_fin, fin_sub_fin]
    rw [UpdateGridVertices, hshift]
    rw [flat, heightLoop_flatC, List.map_map]
    congr 1
    apply List.map_congr_left
    intro v _
    simp only [Function.comp, totalDisplacementY_fin v objs hfin, heightAt, absCall_fin, neg_fin]
    by_cases h : ∀ o ∈ objs, 0 ≤ sqrtArg o v
    · rw [if_pos h, if_pos h, fin_add_fin, ← sub_eq_add_neg]
    · rw [if_neg h, if_neg h, nan_add]

theorem massSum_nonneg (objs : List Object) (hmass : ∀ o ∈ objs, 0 ≤ o.mass.toReal) :
    0 ≤ massSum objs := by
  apply List.sum_nonneg
  intro x hx
  obtain ⟨o, ho, rfl⟩ := List.mem_map.mp hx
  exact hmass o (List.mem_filter.mp ho).1

theorem massYSum_eq_zero (objs : List Object) :
    (∀ o ∈ objs, 0 ≤ o.mass.toReal) → massSum objs = 0 → massYSum objs = 0 := by
  induction objs with
  | nil => intro _ _; rfl
  | cons o rest ih =>
    intro hmass h0
    have hrest : ∀ o1 ∈ rest, 0 ≤ o1.mass.toReal :=
      fun o1 h1 => hmass o1 (List.mem_cons_of_mem _ h1)
    have hr := massSum_nonneg rest hrest
    have ho := hmass o (List.mem_cons_self _ _)
    cases hi : o.Initalizing
    · have e2 : massSum (o :: rest) = o.mass.toReal + massSum rest := by
        simp [massSum, List.filter_cons, hi]
      have e1 : massYSum (o :: rest)
          = o.mass.toReal * o.position.y.toReal + massYSum rest := by
        simp [massYSum, List.filter_cons, hi]
      rw [e2] at h0
      have hm0 : o.mass.toReal = 0 := by linarith
      have hr0 : massSum rest = 0 := by linarith
      rw [e1, hm0, ih hrest hr0]
      ring
    · have e2 : massSum (o :: rest) = massSum rest := by
        simp [massSum, List.filter_cons, hi]
      have e1 : massYSum (o :: rest) = massYSum rest := by
        simp [massYSum, List.filter_cons, hi]
      rw [e2] at h0
      rw [e1]
      exact ih hrest h0

/-- With non-negative masses the code value of `comY` is the mass-weighted
mean height of the non-initializing objects (0 when their total mass is 0). -/
theorem comYReal_eq_mean (objs : List Object) (hmass : ∀ o ∈ objs, 0 ≤ o.mass.toReal) :
    comYReal objs = massYSum objs / massSum objs := by
  unfold comYReal
  by_cases hpos : 0 < massSum objs
  · rw [if_pos hpos]
  · rw [if_neg hpos]
    have h0 : massSum objs = 0 := le_antisymm (not_lt.mp hpos) (massSum_nonneg objs hmass)
    rw [massYSum_eq_zero objs hmass h0, h0]
    simp

theorem foldl_max_spec (rest : List (ℝ × ℝ × ℝ)) :
    ∀ m : ℝ, m ≤ rest.foldl (fun m w => max m w.2.1) m ∧
      (∀ w ∈ rest, w.2.1 ≤ rest.foldl (fun m w => max m w.2.1) m) ∧
      (rest.foldl (fun m w => max m w.2.1) m = m ∨
        ∃ w ∈ rest, w.2.1 = rest.foldl (fun m w => max m w.2.1) m) := by
  induction rest with
  | nil => intro m; simp
  | cons a rest ih =>
    intro m
    obtain ⟨h1, h2, h3⟩ := ih (max m a.2.1)
    simp only [List.foldl_cons]
    refine ⟨le_trans (le_max_left _ _) h1, ?_, ?_⟩
    · intro w hw
      rcases List.mem_cons.mp hw with rfl | hw
      · exact le_trans (le_max_right _ _) h1
      · exact h2 w hw
    · rcases h3 with h3 | ⟨w, hw, h3⟩
      · rcases max_choice m a.2.1 with hc | hc
        · left; rw [h3, hc]
        · right; exact ⟨a, List.mem_cons_self _ _, by rw [h3, hc]⟩
      · right; exact ⟨w, List.mem_cons_of_mem _ hw, h3⟩

/-- The value `maxYReal` is the greatest height of a non-empty vertex list. -/
theorem maxYReal_isGreatest (v0 : ℝ × ℝ × ℝ) (rest : List (ℝ × ℝ × ℝ)) :
    IsGreatest {y : ℝ | ∃ v ∈ v0 :: rest, v.2.1 = y} (maxYReal (v0 :: rest)) := by
  obtain ⟨h1, h2, h3⟩ := foldl_max_spec rest v0.2.1
  constructor
  · rcases h3 with h3 | ⟨w, hw, h3⟩
    · exact ⟨v0, List.mem_cons_self _ _, h3.symm⟩
    · exact ⟨w, List.mem_cons_of_mem _ hw, h3⟩
  · rintro y ⟨v, hv, rfl⟩
    rcases List.mem_cons.mp hv with rfl | hv
    · exact h1
    · exact h2 v hv

theorem flatC_fin_eq_flat (vs : List (ℝ × ℝ × ℝ)) (h : ℝ × ℝ × ℝ → ℝ) :
    flatC (vs.map fun v => (fin v.1, fin (h v), fin v.2.2))
      = flat (vs.map fun v => (v.1, h v, v.2.2)) := by
  rw [flat, List.map_map]
  rfl

theorem sun_finitePlace : sun.FinitePlace := ⟨trivial, trivial, trivial, trivial⟩

theorem sun_rsReal : rsReal sun = 2 * 6.6743e-11 * 1.989e25 / (299792458 * 299792458) := rfl

theorem sun_distReal_origin : distReal sun (0, 0, 0) = 0 := by
  simp [distReal, sun, Object.new, Vec3.ofReal]

theorem sun_distReal_345 : distReal sun (3, 4, 0) = 5 := by
  have e : ((0 : ℝ) - 3) * (0 - 3) + (0 - 4) * (0 - 4) + (0 - 0) * (0 - 0) = 5 ^ 2 := by
    norm_num
  simp only [distReal, sun, Object.new, Vec3.ofReal, toReal_fin]
  rw [e]
  exact Real.sqrt_sq (by norm_num)

theorem sun_sqrtArg_345 : 0 ≤ sqrtArg sun (3, 4, 0) := by
  rw [sqrtArg, sun_distReal_345, sun_rsReal]
  norm_num

theorem sun_sqrtArg_origin : sqrtArg sun (0, 0, 0) < 0 := by
  rw [sqrtArg, sun_distReal_origin, sun_rsReal]
  norm_num

/-- C6 fails for the Sun of the preset and a lattice vertex at the Sun's
centre: the height `UpdateGridVertices` produces is NaN (the argument of the
square root is `rs * (0 - rs) < 0` and nothing clamps it). -/
theorem grid_height_nan_at_vertex :
    UpdateGridVertices AbsCall.floating (flat [(0, 0, 0)]) [sun] = [fin 0, nan, fin 0] ∧
    UpdateGridVertices intAbs (flat [(0, 0, 0)]) [sun] = [fin 0, nan, fin 0] := by
  have hfin : ∀ o ∈ [sun], o.FinitePlace := by
    intro o ho
    rw [List.mem_singleton.mp ho]
    exact sun_finitePlace
  have hneg : ¬ ∀ o ∈ [sun], 0 ≤ sqrtArg o (0, 0, 0) := by
    intro h
    exact absurd (h sun (List.mem_singleton_self _)) (not_le.mpr sun_sqrtArg_origin)
  have h : ∀ call : AbsCall,
      UpdateGridVertices call (flat [(0, 0, 0)]) [sun] = [fin 0, nan, fin 0] := by
    intro call
    rw [UpdateGridVertices_fin _ _ _ hfin]
    simp only [List.map_cons, List.map_nil, flatC, heightAt, if_neg hneg]
  exact ⟨h _, h _⟩

/-- C6 as amended: for finite vertices and objects with finite positions and
masses, and either resolution of `abs`, `UpdateGridVertices` keeps the horizontal
coordinates and the height
it gives a vertex is finite when every object's square-root argument
`rs * (distance_m - rs)` at that vertex is non-negative, and NaN when some
object's argument is negative (the argument is not clamped). -/
theorem UpdateGridVertices_finite_or_nan (call : AbsCall) (vs : List (ℝ × ℝ × ℝ))
    (objs : List Object) (hfin : ∀ o ∈ objs, o.FinitePlace) :
    ∃ H : ℝ × ℝ × ℝ → CFloat,
      UpdateGridVertices call (flat vs) objs
        = flatC (vs.map fun v => (fin v.1, H v, fin v.2.2)) ∧
      ∀ v ∈ vs, ((∀ o ∈ objs, 0 ≤ sqrtArg o v) → (H v).isFinite) ∧
        ((∃ o ∈ objs, sqrtArg o v < 0) → H v = nan) := by
  refine ⟨heightAt call vs objs, UpdateGridVertices_fin call vs objs hfin, ?_⟩
  intro v _
  constructor
  · intro h
    simp only [heightAt, if_pos h]
    trivial
  · rintro ⟨o, ho, hneg⟩
    have hnot : ¬ ∀ o ∈ objs, 0 ≤ sqrtArg o v := fun h => absurd (h o ho) (not_le.mpr hneg)
    simp only [heightAt, if_neg hnot]

/-- C6 as amended, at the Sun and a vertex five units from it: the height is finite. -/
theorem UpdateGridVertices_finite_or_nan_witness :
    ∃ h : ℝ, UpdateGridVertices intAbs (flat [(3, 4, 0)]) [sun] = [fin 3, fin h, fin 0] := by
  have hfin : ∀ o ∈ [sun], o.FinitePlace := by
    intro o ho
    rw [List.mem_singleton.mp ho]
    exact sun_finitePlace
  obtain ⟨H, heq, hv⟩ := UpdateGridVertices_finite_or_nan intAbs [(3, 4, 0)] [sun] hfin
  have hok : ∀ o ∈ [sun], 0 ≤ sqrtArg o (3, 4, 0) := by
    intro o ho
    rw [List.mem_singleton.mp ho]
    exact sun_sqrtArg_345
  obtain ⟨h, hh⟩ := eq_fin_of_isFinite ((hv (3, 4, 0) (List.mem_singleton_self _)).1 hok)
  refine ⟨h, ?_⟩
  rw [heq]
  simp only [List.map_cons, List.map_nil, flatC, hh]

/-- For finite vertices and objects with finite positions and masses, every
mass non-negative, such that `1000 * |position(b) - v| ≥ rs_b` for each object
`b` and vertex `v`, `UpdateGridVertices` keeps `x` and `z` and sets the height
of each vertex `v` to
`(sum over the objects b of 2 * (2 * sqrt(rs_b * (1000 * |position(b) - v| - rs_b))))
 - abs(comY - maxY)`, where `rs_b = 2*G*mass(b)/c^2`, `comY` is the mass-weighted
mean height of the non-initializing objects, `maxY` is the greatest height of
the input vertices and `abs` is what the call of line 730 resolves to. -/
theorem UpdateGridVertices_formula (call : AbsCall) (vs : List (ℝ × ℝ × ℝ))
    (objs : List Object) (maxY : ℝ)
    (hfin : ∀ o ∈ objs, o.FinitePlace)
    (hmass : ∀ o ∈ objs, 0 ≤ o.mass.toReal)
    (hrs : ∀ o ∈ objs, ∀ v ∈ vs, rsReal o ≤ 1000 * distReal o v)
    (hmax : IsGreatest {y : ℝ | ∃ v ∈ vs, v.2.1 = y} maxY) :
    UpdateGridVertices call (flat vs) objs
      = flat (vs.map fun v =>
          (v.1,
           (objs.map fun o =>
              2 * (2 * Real.sqrt (rsReal o * (1000 * distReal o v - rsReal o)))).sum
             - absReal call (massYSum objs / massSum objs - maxY),
           v.2.2)) := by
  have hM : maxYReal vs = maxY := by
    cases vs with
    | nil =>
      obtain ⟨⟨v, hv, _⟩, _⟩ := hmax
      cases hv
    | cons v0 rest => exact (maxYReal_isGreatest v0 rest).unique hmax
  rw [UpdateGridVertices_fin call vs objs hfin, ← flatC_fin_eq_flat]
  congr 1
  apply List.map_congr_left
  intro v hv
  have hok : ∀ o ∈ objs, 0 ≤ sqrtArg o v := by
    intro o ho
    have h1 : 0 ≤ rsReal o := by
      have := hmass o ho
      unfold rsReal
      positivity
    have h2 := hrs o ho v hv
    exact mul_nonneg h1 (by linarith)
  have hheight : heightAt call vs objs v
      = fin (dispReal objs v - absReal call (comYReal objs - maxYReal vs)) := by
    rw [heightAt, if_pos hok]
  rw [hheight, comYReal_eq_mean objs hmass, hM]
  rfl

/-! ## The radius computed by the constructor and by `UpdatePos` -/

theorem radiusExpr_nan_of_neg (m d : ℝ) (hd : d ≠ 0) (h : m / d < 0) :
    radiusExpr (fin m) (fin d) = nan := by
  have h4 : (4 * 3.14159265359 : ℝ) ≠ 0 := by norm_num
  have hneg : 3 * m / d / (4 * 3.14159265359) < 0 := by
    have e : 3 * m / d / (4 * 3.14159265359) = m / d * (3 / (4 * 3.14159265359)) := by
      field_simp
      ring
    rw [e]
    exact mul_neg_of_neg_of_pos h (by norm_num)
  simp only [radiusExpr, fin_mul_fin, fin_div_fin _ hd, fin_div_fin _ h4, pow_fin_neg hneg]
  rfl

theorem radiusExpr_zero_mass (d : ℝ) (hd : d ≠ 0) : radiusExpr (fin 0) (fin d) = fin 0 := by
  rw [radiusExpr_fin 0 d hd (by simp)]
  have e : (3 * 0 / d / (4 * 3.14159265359) : ℝ) = 0 := by simp
  rw [e, Real.zero_rpow (by norm_num)]
  simp

theorem radiusExpr_zero_density (m : ℝ) (hm : 0 < m) : radiusExpr (fin m) (fin 0) = pinf := by
  have h3 : (3 * m : ℝ) ≠ 0 := by positivity
  have h3p : (0 : ℝ) ≤ 3 * m := by positivity
  have h4 : (0 : ℝ) ≤ 4 * 3.14159265359 := by norm_num
  have h5 : (0 : ℝ) ≤ 30000 := by norm_num
  have e1 : fin 3 * fin m / fin 0 = pinf := by
    simp [div_def, div, infOfSign, h3, h3p]
  have e2 : pinf / (fin 4 * fin 3.14159265359) = pinf := by
    simp only [fin_mul_fin, div_def, div, infOfSign, if_pos h4]
  have e3 : pinf / fin 30000 = pinf := by
    simp only [div_def, div, infOfSign, if_pos h5]
  simp only [radiusExpr, sizeRatio, e1, e2, CFloat.pow, e3]

theorem radiusExpr_zero_zero : radiusExpr (fin 0) (fin 0) = nan := by
  simp [radiusExpr, div_def, div, CFloat.pow]

/-- The code's form `(3*m/d) / (4*P)` of the cube-root argument is the
formula's `(3*m) / (4*P*d)`. -/
theorem radius_arg_eq (m d : ℝ) :
    3 * m / d / (4 * 3.14159265359) = 3 * m / (4 * 3.14159265359 * d) := by
  rw [div_div, mul_comm d]

/-- C8: for finite `mass > 0` and `density > 0` the radius the constructor
computes is a positive real, and the radius computed for mass `2 * m` with the
same density is `2 ^ (1/3)` times the radius computed for mass `m`. -/
theorem radius_pos_and_cbrt_scaling (p v : Vec3) (m d : ℝ) (hm : 0 < m) (hd : 0 < d) :
    ∃ r r2 : ℝ, (Object.new p v (fin m) (fin d)).radius = fin r ∧ 0 < r ∧
      (Object.new p v (fin (2 * m)) (fin d)).radius = fin r2 ∧
      r2 = (2 : ℝ) ^ (1 / 3 : ℝ) * r := by
  have hd0 : d ≠ 0 := ne_of_gt hd
  have hx : 0 < 3 * m / d / (4 * 3.14159265359) := by positivity
  have hx2 : 0 ≤ 3 * (2 * m) / d / (4 * 3.14159265359) := by positivity
  refine ⟨_, _, radiusExpr_fin m d hd0 (le_of_lt hx), ?_, radiusExpr_fin (2 * m) d hd0 hx2, ?_⟩
  · exact div_pos (Real.rpow_pos_of_pos hx _) (by norm_num)
  · have e : 3 * (2 * m) / d / (4 * 3.14159265359)
        = 2 * (3 * m / d / (4 * 3.14159265359)) := by ring
    rw [e, Real.mul_rpow (by norm_num) (le_of_lt hx)]
    ring

/-- C8 at the Sun's mass and density. -/
theorem radius_pos_and_cbrt_scaling_witness :
    ∃ r r2 : ℝ,
      (Object.new Vec3.zero Vec3.zero (fin 1.989e25) (fin 1414)).radius = fin r ∧ 0 < r ∧
      (Object.new Vec3.zero Vec3.zero (fin (2 * 1.989e25)) (fin 1414)).radius = fin r2 ∧
      r2 = (2 : ℝ) ^ (1 / 3 : ℝ) * r :=
  radius_pos_and_cbrt_scaling Vec3.zero Vec3.zero 1.989e25 1414 (by norm_num) (by norm_num)

/-- The argument of the cube root computed with the literal is the argument
computed with the number pi, times `pi / 3.14159265359`. -/
theorem radius_arg_pi (m d : ℝ) (hd : d ≠ 0) :
    3 * m / (4 * 3.14159265359 * d)
      = 3 * m / (4 * Real.pi * d) * (Real.pi / 3.14159265359) := by
  have hpi : Real.pi ≠ 0 := Real.pi_ne_zero
  field_simp
  ring

/-- The literal `3.14159265359` exceeds pi by less than `10^-13` of its value. -/
theorem pi_literal_ratio :
    1 - 1e-13 ≤ Real.pi / 3.14159265359 ∧ Real.pi / 3.14159265359 ≤ 1 := by
  have h1 := Real.pi_gt_d20
  have h2 := Real.pi_lt_d20
  constructor
  · rw [le_div_iff₀ (by norm_num)]
    have e : (1 - 1e-13 : ℝ) * 3.14159265359 ≤ 3.14159265358979323846 := by norm_num
    linarith
  · rw [div_le_one (by norm_num)]
    have e : (3.14159265358979323847 : ℝ) ≤ 3.14159265359 := by norm_num
    linarith

/-- For positive mass and density the radius the code computes lies between
`(1 - 10^-13)` times the value of the formula with the number pi and that
value. -/
theorem radius_near_formula (m d : ℝ) (hm : 0 < m) (hd : 0 < d) :
    (1 - 1e-13) * radiusFormula m d
        ≤ (3 * m / (4 * 3.14159265359 * d)) ^ (1 / 3 : ℝ) / 30000 ∧
      (3 * m / (4 * 3.14159265359 * d)) ^ (1 / 3 : ℝ) / 30000 ≤ radiusFormula m d := by
  obtain ⟨hlo, hhi⟩ := pi_literal_ratio
  have hpi : 0 < Real.pi := Real.pi_pos
  have hb : 0 < 3 * m / (4 * Real.pi * d) := by positivity
  have hq : 0 < Real.pi / 3.14159265359 := by positivity
  have hroot : 0 ≤ (3 * m / (4 * Real.pi * d)) ^ (1 / 3 : ℝ) := Real.rpow_nonneg hb.le _
  have hqroot : Real.pi / 3.14159265359 ≤ (Real.pi / 3.14159265359) ^ (1 / 3 : ℝ) := by
    have h := Real.rpow_le_rpow_of_exponent_ge hq hhi (by norm_num : (1 / 3 : ℝ) ≤ 1)
    rwa [Real.rpow_one] at h
  have hqroot1 : (Real.pi / 3.14159265359) ^ (1 / 3 : ℝ) ≤ 1 :=
    Real.rpow_le_one hq.le hhi (by norm_num)
  rw [radius_arg_pi m d (ne_of_gt hd), Real.mul_rpow hb.le hq.le, radiusFormula]
  constructor
  · rw [mul_div_assoc', div_le_div_iff_of_pos_right (by norm_num : (0 : ℝ) < 30000), mul_comm]
    exact mul_le_mul_of_nonneg_left (le_trans hlo hqroot) hroot
  · rw [div_le_div_iff_of_pos_right (by norm_num : (0 : ℝ) < 30000)]
    calc (3 * m / (4 * Real.pi * d)) ^ (1 / 3 : ℝ) * (Real.pi / 3.14159265359) ^ (1 / 3 : ℝ)
        ≤ (3 * m / (4 * Real.pi * d)) ^ (1 / 3 : ℝ) * 1 :=
          mul_le_mul_of_nonneg_left hqroot1 hroot
      _ = (3 * m / (4 * Real.pi * d)) ^ (1 / 3 : ℝ) := mul_one _

/-- C9: for finite mass `m > 0` and density `d > 0`, the radius after
construction, and after `UpdatePos` of an object with that mass and density, is
the real number `r = ((3*m) / (4*P*d)) ^ (1/3) / 30000`, where
`P = 3.14159265359` is the literal the code writes for pi; `r` agrees with the
invariant's `cbrt((3*m) / (4*pi*d)) / SIZE_RATIO` to within a factor
`1 - 10^-13` (less than the resolution of a `float`); `UpdatePos` and
`accelerate` keep mass and density, and `accelerate` leaves the radius
unchanged. -/
theorem radius_invariant (p v : Vec3) (o : Object) (ax ay az : CFloat) (m d : ℝ)
    (hmass : o.mass = fin m) (hdens : o.density = fin d) (hm : 0 < m) (hd : 0 < d) :
    ∃ r : ℝ,
      (Object.new p v (fin m) (fin d)).radius = fin r ∧
      o.UpdatePos.radius = fin r ∧
      r = (3 * m / (4 * 3.14159265359 * d)) ^ (1 / 3 : ℝ) / 30000 ∧
      (1 - 1e-13) * radiusFormula m d ≤ r ∧ r ≤ radiusFormula m d ∧
      o.UpdatePos.mass = o.mass ∧ o.UpdatePos.density = o.density ∧
      (o.accelerate ax ay az).radius = o.radius ∧
      (o.accelerate ax ay az).mass = o.mass ∧
      (o.accelerate ax ay az).density = o.density := by
  have hx : 0 ≤ 3 * m / d / (4 * 3.14159265359) := by positivity
  have hr := radiusExpr_fin m d (ne_of_gt hd) hx
  rw [radius_arg_eq m d] at hr
  obtain ⟨hlo, hhi⟩ := radius_near_formula m d hm hd
  refine ⟨_, hr, ?_, rfl, hlo, hhi, rfl, rfl, rfl, rfl, rfl⟩
  show radiusExpr o.mass o.density = _
  rw [hmass, hdens, hr]

/-- C9 at the Sun of the preset. -/
theorem radius_invariant_witness :
    ∃ r : ℝ,
      sun.radius = fin r ∧ sun.UpdatePos.radius = fin r ∧
      (1 - 1e-13) * radiusFormula 1.989e25 1414 ≤ r ∧ r ≤ radiusFormula 1.989e25 1414 ∧
      (sun.accelerate (fin 1) (fin 2) (fin 3)).radius = sun.radius := by
  obtain ⟨r, h1, h2, _, h4, h5, _, _, h8, _⟩ :=
    radius_invariant (Vec3.ofReal 0 0 0) (Vec3.ofReal 0 0 0) sun (fin 1) (fin 2) (fin 3)
      1.989e25 1414 rfl rfl (by norm_num) (by norm_num)
  exact ⟨r, h1, h2, h4, h5, h8⟩

/-- C10 fails: the constructor returns a body for mass 0, for mass -1 and for
density 0, with radius 0, NaN and +inf. -/
theorem constructor_accepts_nonpositive :
    (Object.new Vec3.zero Vec3.zero (fin 0) (fin 1)).mass = fin 0 ∧
    (Object.new Vec3.zero Vec3.zero (fin 0) (fin 1)).radius = fin 0 ∧
    (Object.new Vec3.zero Vec3.zero (fin (-1)) (fin 1)).mass = fin (-1) ∧
    (Object.new Vec3.zero Vec3.zero (fin (-1)) (fin 1)).radius = nan ∧
    (Object.new Vec3.zero Vec3.zero (fin 1) (fin 0)).density = fin 0 ∧
    (Object.new Vec3.zero Vec3.zero (fin 1) (fin 0)).radius = pinf :=
  ⟨rfl, radiusExpr_zero_mass 1 (by norm_num), rfl,
    radiusExpr_nan_of_neg (-1) 1 (by norm_num) (by norm_num), rfl,
    radiusExpr_zero_density 1 (by norm_num)⟩

/-- C10 as amended: the constructor rejects nothing; for every position,
velocity, mass and density it yields the object with those fields and the
radius the radius expression gives, which is 0 for mass 0 and a finite
non-zero density, NaN when `mass / density < 0`, `+inf` for a positive mass
and density 0, and NaN when both are 0. -/
theorem constructor_total (p v : Vec3) (mass density : CFloat) :
    (Object.new p v mass density).position = p ∧
    (Object.new p v mass density).velocity = v ∧
    (Object.new p v mass density).mass = mass ∧
    (Object.new p v mass density).density = density ∧
    (Object.new p v mass density).Initalizing = false ∧
    (Object.new p v mass density).radius = radiusExpr mass density ∧
    (∀ d : ℝ, d ≠ 0 → radiusExpr (fin 0) (fin d) = fin 0) ∧
    (∀ m d : ℝ, d ≠ 0 → m / d < 0 → radiusExpr (fin m) (fin d) = nan) ∧
    (∀ m : ℝ, 0 < m → radiusExpr (fin m) (fin 0) = pinf) ∧
    radiusExpr (fin 0) (fin 0) = nan :=
  ⟨rfl, rfl, rfl, rfl, rfl, rfl, radiusExpr_zero_mass, radiusExpr_nan_of_neg,
    radiusExpr_zero_density, radiusExpr_zero_zero⟩

/-! ## What a paused pass does keep -/

theorem pairStep_frame (pause : Bool) (o obj2 : Object) :
    (pairStep pause o obj2).position = o.position ∧ (pairStep pause o obj2).mass = o.mass ∧
    (pairStep pause o obj2).density = o.density := by
  unfold pairStep
  split_ifs <;> exact ⟨rfl, rfl, rfl⟩

theorem foldl_pairStep_frame (pause : Bool) (others : List Object) :
    ∀ o : Object, (others.foldl (pairStep pause) o).position = o.position ∧
      (others.foldl (pairStep pause) o).mass = o.mass ∧
      (others.foldl (pairStep pause) o).density = o.density := by
  induction others with
  | nil => intro o; exact ⟨rfl, rfl, rfl⟩
  | cons obj2 rest ih =>
    intro o
    obtain ⟨h1, h2, h3⟩ := ih (pairStep pause o obj2)
    obtain ⟨g1, g2, g3⟩ := pairStep_frame pause o obj2
    rw [List.foldl_cons]
    exact ⟨h1.trans g1, h2.trans g2, h3.trans g3⟩

theorem pairStep_paused_no_collision (o obj2 : Object) (hnc : o.CheckCollision obj2 = fin 1) :
    pairStep true o obj2 = o := by
  have hc : collide o obj2 = o := by
    simp only [collide, hnc, Vec3.scale_one]
  simp only [pairStep, Bool.not_true, Bool.false_eq_true, if_false, hc]
  split_ifs <;> rfl

theorem foldl_pairStep_paused_no_collision (others : List Object) (o : Object)
    (hnc : ∀ obj2 ∈ others, o.CheckCollision obj2 = fin 1) :
    others.foldl (pairStep true) o = o := by
  induction others with
  | nil => rfl
  | cons obj2 rest ih =>
    rw [List.foldl_cons, pairStep_paused_no_collision o obj2 (hnc obj2 (List.mem_cons_self _ _))]
    exact ih (fun obj3 h3 => hnc obj3 (List.mem_cons_of_mem _ h3))

/-- A paused pass of the update loop keeps the position, mass and density of
every body, and keeps the velocity of a body for which `CheckCollision`
reports no collision with any other body of the collection. -/
theorem paused_tick_frame (objs : List Object) (i : Nat) (obj : Object)
    (h : objs[i]? = some obj) :
    ∃ obj1 : Object, (tick true objs)[i]? = some obj1 ∧
      obj1.position = obj.position ∧ obj1.mass = obj.mass ∧ obj1.density = obj.density ∧
      ((∀ obj2 ∈ (passPrefix true objs i).eraseIdx i, obj.CheckCollision obj2 = fin 1) →
        obj1.velocity = obj.velocity) := by
  refine ⟨_, tick_getElem true objs i obj h, ?_⟩
  obtain ⟨h1, h2, h3⟩ := foldl_pairStep_frame true ((passPrefix true objs i).eraseIdx i) obj
  simp only [bodyStep, innerLoop_eq_foldl, Bool.not_true, Bool.false_eq_true, if_false]
  refine ⟨?_, ?_, ?_, ?_⟩
  · split_ifs <;> exact h1
  · split_ifs <;> exact h2
  · split_ifs <;> exact h3
  · intro hnc
    rw [foldl_pairStep_paused_no_collision _ obj hnc]
    split_ifs <;> rfl

/-- The paused pass over `bodyA` and `bodyB`, which do not overlap, at index 0. -/
theorem paused_tick_frame_witness :
    ∃ obj1 : Object, (tick true [bodyA, bodyB])[0]? = some obj1 ∧
      obj1.position = bodyA.position ∧ obj1.velocity = bodyA.velocity := by
  obtain ⟨obj1, h1, h2, _, _, h5⟩ := paused_tick_frame [bodyA, bodyB] 0 bodyA rfl
  refine ⟨obj1, h1, h2, h5 ?_⟩
  intro obj2 h
  have e : obj2 = bodyB := by
    simpa [passPrefix] using h
  rw [e]
  exact bodyA_bodyB_no_collision

/-! ## Pairs with coincident centres -/

theorem CFloat.sub_def (a b : CFloat) : a - b = CFloat.add a (CFloat.neg b) := rfl

/-- For two objects at the same position the guard `distance > 0` fails
(`distance` is 0, or NaN when a coordinate is not finite). -/
theorem pairDistance_same_position (obj obj2 : Object) (h : obj2.position = obj.position) :
    ¬ CFloat.lt (fin 0) (pairDistance obj obj2) := by
  obtain ⟨⟨x, y, z⟩, vel, ini, mass, den, rad⟩ := obj
  simp only [pairDistance, pairDelta, h]
  cases x <;> cases y <;> cases z <;>
    simp [CFloat.sub_def, mul_def, add_def, CFloat.add, CFloat.neg, CFloat.mul, CFloat.sqrt,
      CFloat.lt]

theorem pairStep_same_position (pause : Bool) (obj obj2 : Object)
    (h : obj2.position = obj.position) : pairStep pause obj obj2 = obj := by
  have hd := pairDistance_same_position obj obj2 h
  unfold pairStep
  rw [if_neg hd]
  split_ifs <;> rfl

theorem foldl_pairStep_skip (pause : Bool) (obj2 : Object) (pre post : List Object) (o : Object)
    (h : obj2.position = o.position) :
    (pre ++ obj2 :: post).foldl (pairStep pause) o = (pre ++ post).foldl (pairStep pause) o := by
  have hpos : obj2.position = (pre.foldl (pairStep pause) o).position := by
    rw [(foldl_pairStep_frame pause pre o).1]
    exact h
  rw [List.foldl_append, List.foldl_append, List.foldl_cons,
    pairStep_same_position pause _ obj2 hpos]

/-- C11: if `obj2` has the same position as `obj`, the inner-loop step for the
pair returns `obj` unchanged, whatever `pause` is: the loop computes no
contribution for the pair (`contributes` is false, so the divisions of
`pairAcc` are not reached and `accelerate` is not called), the velocity is
not changed, and the inner loop over a collection gives the same result as
over the collection without `obj2`.  With a finite position the distance
computed is 0. -/
theorem pairStep_coincident (pause : Bool) (obj obj2 : Object)
    (h : obj2.position = obj.position) :
    pairStep pause obj obj2 = obj ∧
    (pairStep pause obj obj2).velocity = obj.velocity ∧
    contributes obj obj2 = false ∧
    (∀ pre post : List Object,
      (pre ++ obj2 :: post).foldl (pairStep pause) obj
        = (pre ++ post).foldl (pairStep pause) obj) ∧
    (∀ x y z : ℝ, obj.position = Vec3.ofReal x y z → pairDistance obj obj2 = fin 0) := by
  have hs := pairStep_same_position pause obj obj2 h
  refine ⟨hs, by rw [hs], ?_, ?_, ?_⟩
  · simp [contributes, pairDistance_same_position obj obj2 h]
  · intro pre post
    exact foldl_pairStep_skip pause obj2 pre post obj h
  · intro x y z hp
    rw [pairDistance_ofReal obj obj2 x y z x y z hp (h.trans hp)]
    simp

/-- C11 at `bodyA` and the Sun of the preset, both at the origin, unpaused. -/
theorem pairStep_coincident_witness :
    pairStep false bodyA sun = bodyA ∧ pairDistance bodyA sun = fin 0 :=
  ⟨(pairStep_coincident false bodyA sun rfl).1,
   (pairStep_coincident false bodyA sun rfl).2.2.2.2 0 0 0 rfl⟩

/-! ## Newton's third law for the pairwise contributions -/

/-- The vector `acc` of the main loop on finite positions and masses. -/
theorem pairAcc_ofReal (obj obj2 : Object) (x1 y1 z1 x2 y2 z2 m1 m2 r : ℝ)
    (hp1 : obj.position = Vec3.ofReal x1 y1 z1) (hp2 : obj2.position = Vec3.ofReal x2 y2 z2)
    (hm1 : obj.mass = fin m1) (hm2 : obj2.mass = fin m2) (hm : m1 ≠ 0)
    (hr : r = Real.sqrt ((x2 - x1) * (x2 - x1) + (y2 - y1) * (y2 - y1) + (z2 - z1) * (z2 - z1)))
    (hpos : 0 < r) :
    pairAcc obj obj2
      = Vec3.ofReal
          ((x2 - x1) / r * (6.6743e-11 * m1 * m2 / (r * 1000 * (r * 1000)) / m1))
          ((y2 - y1) / r * (6.6743e-11 * m1 * m2 / (r * 1000 * (r * 1000)) / m1))
          ((z2 - z1) / r * (6.6743e-11 * m1 * m2 / (r * 1000 * (r * 1000)) / m1)) := by
  have hd : pairDistance obj obj2 = fin r := by
    rw [pairDistance_ofReal obj obj2 x1 y1 z1 x2 y2 z2 hp1 hp2, hr]
  have hr0 : r ≠ 0 := ne_of_gt hpos
  have hrr : r * 1000 * (r * 1000) ≠ 0 := by positivity
  simp only [pairAcc, hd, pairDelta, hp1, hp2, hm1, hm2, Vec3.ofReal, G, fin_sub_fin,
    fin_mul_fin, fin_div_fin _ hr0, fin_div_fin _ hrr, fin_div_fin _ hm]

/-- C20: for two bodies with finite positions at distance `r > 0` and finite
non-zero masses `m1`, `m2`, the contributions computed at these positions,
`a = pairAcc o1 o2` (of `o2` on `o1`) and `b = pairAcc o2 o1` (of `o1` on
`o2`), are finite and satisfy `m1 * a = -(m2 * b)` in each component. -/
theorem pairAcc_third_law (o1 o2 : Object) (x1 y1 z1 x2 y2 z2 m1 m2 r : ℝ)
    (hp1 : o1.position = Vec3.ofReal x1 y1 z1) (hp2 : o2.position = Vec3.ofReal x2 y2 z2)
    (hm1 : o1.mass = fin m1) (hm2 : o2.mass = fin m2) (h1 : m1 ≠ 0) (h2 : m2 ≠ 0)
    (hr : r = Real.sqrt ((x2 - x1) * (x2 - x1) + (y2 - y1) * (y2 - y1) + (z2 - z1) * (z2 - z1)))
    (hpos : 0 < r) :
    ∃ a1 a2 a3 b1 b2 b3 : ℝ,
      pairAcc o1 o2 = Vec3.ofReal a1 a2 a3 ∧ pairAcc o2 o1 = Vec3.ofReal b1 b2 b3 ∧
      m1 * a1 = -(m2 * b1) ∧ m1 * a2 = -(m2 * b2) ∧ m1 * a3 = -(m2 * b3) := by
  have hr2 : r
      = Real.sqrt ((x1 - x2) * (x1 - x2) + (y1 - y2) * (y1 - y2) + (z1 - z2) * (z1 - z2)) := by
    rw [hr]
    congr 1
    ring
  have hr0 : r ≠ 0 := ne_of_gt hpos
  refine ⟨_, _, _, _, _, _,
    pairAcc_ofReal o1 o2 x1 y1 z1 x2 y2 z2 m1 m2 r hp1 hp2 hm1 hm2 h1 hr hpos,
    pairAcc_ofReal o2 o1 x2 y2 z2 x1 y1 z1 m2 m1 r hp2 hp1 hm2 hm1 h2 hr2 hpos, ?_, ?_, ?_⟩
  · field_simp
    ring
  · field_simp
    ring
  · field_simp
    ring

/-- C20 at `bodyA` and `bodyB`, five units apart. -/
theorem pairAcc_third_law_witness :
    ∃ a1 a2 a3 b1 b2 b3 : ℝ,
      pairAcc bodyA bodyB = Vec3.ofReal a1 a2 a3 ∧ pairAcc bodyB bodyA = Vec3.ofReal b1 b2 b3 ∧
      (4 * 3.14159265359 * 30000 ^ 3) * a1 = -((4 * 3.14159265359 * 30000 ^ 3) * b1) ∧
      (4 * 3.14159265359 * 30000 ^ 3) * a2 = -((4 * 3.14159265359 * 30000 ^ 3) * b2) ∧
      (4 * 3.14159265359 * 30000 ^ 3) * a3 = -((4 * 3.14159265359 * 30000 ^ 3) * b3) :=
  pairAcc_third_law bodyA bodyB 0 0 0 3 4 0 (4 * 3.14159265359 * 30000 ^ 3)
    (4 * 3.14159265359 * 30000 ^ 3) 5 rfl rfl rfl rfl (by norm_num) (by norm_num)
    sqrt_25.symm (by norm_num)

/-! ## Collision response and coincident centres -/

theorem bodyE_radius : bodyE.radius = fin 1 := radiusExpr_unit

theorem bodyA_bodyE_collision : bodyA.CheckCollision bodyE = fin (-0.2) := by
  rw [CheckCollision_ofReal bodyA bodyE 0 0 0 0 0 0 1 1 rfl rfl bodyA_radius bodyE_radius]
  norm_num

/-- In the loop body for a pair of non-initializing bodies at positive
distance the velocity, after the optional `accelerate`, is scaled by
`CheckCollision`. -/
theorem pairStep_velocity (pause : Bool) (obj obj2 : Object)
    (hi1 : obj.Initalizing = false) (hi2 : obj2.Initalizing = false)
    (hd : CFloat.lt (fin 0) (pairDistance obj obj2)) :
    (pairStep pause obj obj2).velocity
      = (if pause then obj
          else obj.accelerate (pairAcc obj obj2).x (pairAcc obj obj2).y
            (pairAcc obj obj2).z).velocity.scale (obj.CheckCollision obj2) := by
  cases pause
  · simp only [pairStep, hi1, hi2, hd, collide]
    rfl
  · simp [pairStep, hi1, hi2, hd, collide]

/-- C19 fails for `bodyA` (velocity `(1, 0, 0)`) and `bodyE`, both of radius 1
with their centres at the origin: `CheckCollision` reports a collision, yet
the loop body leaves the velocity of `bodyA` as it is, and so does the whole
unpaused tick; the velocity is not multiplied by `-0.2`. -/
theorem coincident_collision_not_applied :
    bodyA.CheckCollision bodyE = fin (-0.2) ∧
    (pairStep false bodyA bodyE).velocity = Vec3.ofReal 1 0 0 ∧
    (tick false [bodyA, bodyE])[0]?.map Object.velocity = some (Vec3.ofReal 1 0 0) ∧
    (Vec3.ofReal 1 0 0).scale (fin (-0.2)) ≠ Vec3.ofReal 1 0 0 := by
  have hs : pairStep false bodyA bodyE = bodyA := pairStep_same_position false bodyA bodyE rfl
  have ht := tick_getElem false [bodyA, bodyE] 0 bodyA rfl
  have hp : passPrefix false [bodyA, bodyE] 0 = [bodyA, bodyE] := rfl
  have hb : bodyStep false [bodyA, bodyE] 0 bodyA = bodyA.UpdatePos := by
    have hi : bodyA.Initalizing = false := rfl
    simp [bodyStep, innerLoop, hs, hi]
  rw [hp, hb] at ht
  refine ⟨bodyA_bodyE_collision, by rw [hs]; rfl, by rw [ht]; rfl, ?_⟩
  intro h
  have hx := congrArg Vec3.x h
  simp only [Vec3.scale, Vec3.ofReal, fin_mul_fin, fin_inj] at hx
  norm_num at hx

/-- C19 as amended: for a pair of non-initializing bodies at positive centre
distance for which `CheckCollision` reports a collision, the loop body scales
the velocity of the processed body (after the `accelerate` call made when
unpaused) by the damping factor `-0.2`; for a pair with coincident centres
the loop body changes nothing, although with finite radii of positive sum
`CheckCollision` does report a collision. -/
theorem collision_response_guarded (pause : Bool) (obj obj2 : Object)
    (hi1 : obj.Initalizing = false) (hi2 : obj2.Initalizing = false) :
    (CFloat.lt (fin 0) (pairDistance obj obj2) → obj.CheckCollision obj2 = fin (-0.2) →
      (pairStep pause obj obj2).velocity
        = (if pause then obj
            else obj.accelerate (pairAcc obj obj2).x (pairAcc obj obj2).y
              (pairAcc obj obj2).z).velocity.scale (fin (-0.2))) ∧
    (obj2.position = obj.position → pairStep pause obj obj2 = obj) ∧
    (obj2.position = obj.position →
      ∀ x y z r1 r2 : ℝ, obj.position = Vec3.ofReal x y z → obj.radius = fin r1 →
        obj2.radius = fin r2 → 0 < r1 + r2 → obj.CheckCollision obj2 = fin (-0.2)) := by
  refine ⟨?_, pairStep_same_position pause obj obj2, ?_⟩
  · intro hd hc
    rw [pairStep_velocity pause obj obj2 hi1 hi2 hd, hc]
  · intro h x y z r1 r2 hp hr1 hr2 hsum
    rw [CheckCollision_ofReal obj obj2 x y z x y z r1 r2 hp (h.trans hp) hr1 hr2]
    simp [hsum]

/-- C19 as amended, at `bodyA` with `bodyC` (one unit apart, overlapping) and
with `bodyE` (coincident), paused. -/
theorem collision_response_guarded_witness :
    (pairStep true bodyA bodyC).velocity = bodyA.velocity.scale (fin (-0.2)) ∧
    pairStep true bodyA bodyE = bodyA := by
  have h := collision_response_guarded true bodyA
  exact ⟨(h bodyC rfl rfl).1
      (by rw [bodyA_bodyC_distance]; exact (lt_fin_fin 0 1).mpr one_pos) bodyA_bodyC_collision,
    (h bodyE rfl rfl).2.1 rfl⟩

/-! ## The grid update: what it keeps, the centre of mass, the feedback -/

/-- The height loop keeps the length and every entry whose index is not
`1 mod 3`. -/
theorem heightLoop_frame (call : AbsCall) (objs : List Object) (shift : CFloat) :
    ∀ (n : Nat) (l : List CFloat), l.length = n →
      (heightLoop call objs shift l).length = l.length ∧
      ∀ i : Nat, i % 3 ≠ 1 → (heightLoop call objs shift l)[i]? = l[i]? := by
  intro n
  induction n using Nat.strong_induction_on with
  | _ n ih =>
    intro l hl
    match l, hl with
    | [], _ => exact ⟨rfl, fun _ _ => rfl⟩
    | [_], _ => exact ⟨rfl, fun _ _ => rfl⟩
    | [_, _], _ => exact ⟨rfl, fun _ _ => rfl⟩
    | x :: y :: z :: rest, hl =>
      have hlen : rest.length < n := by
        simp only [List.length_cons] at hl
        omega
      obtain ⟨h1, h2⟩ := ih rest.length hlen rest rfl
      refine ⟨by simp [heightLoop, h1], ?_⟩
      intro i hi
      match i, hi with
      | 0, _ => simp [heightLoop]
      | 1, hi => exact absurd rfl hi
      | 2, _ => simp [heightLoop]
      | k + 3, hi =>
        have hk : k % 3 ≠ 1 := by omega
        simp only [heightLoop, List.getElem?_cons_succ]
        exact h2 k hk

/-- C13: for every vertex array whose length is a multiple of 3 and every body
list (and whatever the call of `abs` yields), `UpdateGridVertices` returns an
array of the same length in which every `x` entry (index `0 mod 3`) and every
`z` entry (index `2 mod 3`) is the entry of the input. -/
theorem UpdateGridVertices_frame (call : AbsCall) (vertices : List CFloat)
    (objs : List Object) (hlen : vertices.length % 3 = 0) :
    (UpdateGridVertices call vertices objs).length = vertices.length ∧
    (UpdateGridVertices call vertices objs).length % 3 = 0 ∧
    (∀ k : Nat, (UpdateGridVertices call vertices objs)[3 * k]? = vertices[3 * k]?) ∧
    (∀ k : Nat,
      (UpdateGridVertices call vertices objs)[3 * k + 2]? = vertices[3 * k + 2]?) := by
  obtain ⟨h1, h2⟩ :=
    heightLoop_frame call objs (verticalShift vertices objs) vertices.length vertices rfl
  have h3 : (UpdateGridVertices call vertices objs).length % 3 = 0 := by
    rw [UpdateGridVertices, h1]
    exact hlen
  exact ⟨h1, h3, fun k => h2 (3 * k) (by omega), fun k => h2 (3 * k + 2) (by omega)⟩

/-- C13 at one vertex `(3, 4, 0)` and the Sun of the preset. -/
theorem UpdateGridVertices_frame_witness :
    (UpdateGridVertices intAbs [fin 3, fin 4, fin 0] [sun]).length = 3 ∧
    (UpdateGridVertices intAbs [fin 3, fin 4, fin 0] [sun])[0]? = some (fin 3) ∧
    (UpdateGridVertices intAbs [fin 3, fin 4, fin 0] [sun])[2]? = some (fin 0) := by
  have h := UpdateGridVertices_frame intAbs [fin 3, fin 4, fin 0] [sun] rfl
  exact ⟨h.1, h.2.2.1 0, h.2.2.2 0⟩

theorem comLoop_foldl_filter (objs : List Object) :
    ∀ acc : CFloat × CFloat,
      objs.foldl
          (fun acc obj =>
            if obj.Initalizing then acc
            else (acc.1 + obj.mass * obj.position.y, acc.2 + obj.mass))
          acc
        = (objs.filter fun o => !o.Initalizing).foldl
          (fun acc obj =>
            if obj.Initalizing then acc
            else (acc.1 + obj.mass * obj.position.y, acc.2 + obj.mass))
          acc := by
  induction objs with
  | nil => intro acc; rfl
  | cons o rest ih =>
    intro acc
    cases hi : o.Initalizing
    · simp only [List.foldl_cons, List.filter_cons, hi, Bool.not_false, if_true,
        Bool.false_eq_true, if_false]
      exact ih _
    · simp only [List.foldl_cons, List.filter_cons, hi, Bool.not_true, Bool.false_eq_true,
        if_false, if_true]
      exact ih _

/-- The centre-of-mass loop only reads the non-initializing objects. -/
theorem comLoop_filter (objs : List Object) :
    comLoop objs = comLoop (objs.filter fun o => !o.Initalizing) :=
  comLoop_foldl_filter objs _

theorem massSum_filter (objs : List Object) :
    massSum (objs.filter fun o => !o.Initalizing) = massSum objs := by
  simp [massSum, List.filter_filter]

theorem massYSum_filter (objs : List Object) :
    massYSum (objs.filter fun o => !o.Initalizing) = massYSum objs := by
  simp [massYSum, List.filter_filter]

/-- The centre-of-mass loop on non-initializing objects with finite positions
and masses. -/
theorem comLoop_fin (objs : List Object)
    (hfin : ∀ o ∈ objs, o.Initalizing = false → o.FinitePlace) :
    comLoop objs = (fin (massYSum objs), fin (massSum objs)) := by
  have hf : ∀ o ∈ objs.filter (fun o => !o.Initalizing), o.FinitePlace := by
    intro o ho
    obtain ⟨h1, h2⟩ := List.mem_filter.mp ho
    exact hfin o h1 (by simpa using h2)
  have h := comLoop_foldl_fin _ hf 0 0
  simp only [zero_add, massSum_filter, massYSum_filter] at h
  rw [comLoop_filter, comLoop, h]

theorem CFloat.zero_sub_all (m : CFloat) : fin 0 - m = -m := by
  show CFloat.add (fin 0) (CFloat.neg m) = CFloat.neg m
  cases m <;> simp [CFloat.add, CFloat.neg]

/-- With no non-initializing object the centre-of-mass loop leaves both
accumulators at 0, whatever the field values of the objects. -/
theorem comLoop_all_initializing (objs : List Object)
    (h : ∀ o ∈ objs, o.Initalizing = true) : comLoop objs = (fin 0, fin 0) := by
  have hf : (objs.filter fun o => !o.Initalizing) = [] := by
    rw [List.filter_eq_nil_iff]
    intro o ho
    simp [h o ho]
  rw [comLoop_filter, hf]
  rfl

/-- C14: when the non-initializing bodies have finite positions and finite
masses `≥ 0` whose sum is 0 (in particular when there are no such bodies),
`totalMass` is 0, the test `totalMass > 0` fails so that no division is made,
the centre-of-mass height `comY` is 0, and the vertical shift is minus the
greatest vertex height: `-originalMaxY` for every vertex array, which for a
non-empty finite vertex list is minus its greatest height.  When every body is
initializing this holds whatever the field values are. -/
theorem comY_zero_total_mass (objs : List Object)
    (hfin : ∀ o ∈ objs, o.Initalizing = false → o.FinitePlace)
    (hmass : ∀ o ∈ objs, o.Initalizing = false → 0 ≤ o.mass.toReal)
    (hzero : massSum objs = 0) :
    (comLoop objs).2 = fin 0 ∧ ¬ CFloat.lt (fin 0) (comLoop objs).2 ∧ comY objs = fin 0 ∧
    (∀ vertices : List CFloat, verticalShift vertices objs = -(originalMaxY vertices)) ∧
    (∀ (v0 : ℝ × ℝ × ℝ) (rest : List (ℝ × ℝ × ℝ)),
      verticalShift (flat (v0 :: rest)) objs = fin (-maxYReal (v0 :: rest)) ∧
      IsGreatest {y : ℝ | ∃ v ∈ v0 :: rest, v.2.1 = y} (maxYReal (v0 :: rest))) ∧
    (∀ objs1 : List Object, (∀ o ∈ objs1, o.Initalizing = true) →
      comY objs1 = fin 0 ∧
      ∀ vertices : List CFloat, verticalShift vertices objs1 = -(originalMaxY vertices)) := by
  have hm : ∀ o ∈ objs.filter (fun o => !o.Initalizing), 0 ≤ o.mass.toReal := by
    intro o ho
    obtain ⟨h1, h2⟩ := List.mem_filter.mp ho
    exact hmass o h1 (by simpa using h2)
  have hy0 : massYSum objs = 0 := by
    rw [← massYSum_filter]
    exact massYSum_eq_zero _ hm (by rw [massSum_filter]; exact hzero)
  have hc := comLoop_fin objs hfin
  rw [hy0, hzero] at hc
  have hcom : comY objs = fin 0 := by
    simp [comY, hc]
  refine ⟨by rw [hc], ?_, hcom, ?_, ?_, ?_⟩
  · rw [hc]
    exact lt_irrefl (0 : ℝ)
  · intro vertices
    rw [verticalShift, hcom, CFloat.zero_sub_all]
  · intro v0 rest
    refine ⟨?_, maxYReal_isGreatest v0 rest⟩
    rw [verticalShift, hcom, originalMaxY_fin, fin_sub_fin, zero_sub]
  · intro objs1 h1
    have hc1 := comLoop_all_initializing objs1 h1
    have hcom1 : comY objs1 = fin 0 := by
      simp [comY, hc1]
    refine ⟨hcom1, ?_⟩
    intro vertices
    rw [verticalShift, hcom1, CFloat.zero_sub_all]

/-- C14 at the empty body list and at a list whose only body is initializing,
over the single vertex `(3, 4, 0)`. -/
theorem comY_zero_total_mass_witness :
    (comY [] = fin 0 ∧ verticalShift (flat [(3, 4, 0)]) [] = fin (-4)) ∧
    (comY [sunInitializing] = fin 0 ∧
      verticalShift (flat [(3, 4, 0)]) [sunInitializing] = fin (-4)) := by
  have h0 := comY_zero_total_mass [] (by intro o ho; cases ho) (by intro o ho; cases ho) rfl
  have hfin : ∀ o ∈ [sunInitializing], o.Initalizing = false → o.FinitePlace := by
    intro o ho hi
    rw [List.mem_singleton.mp ho] at hi
    cases hi
  have hmass : ∀ o ∈ [sunInitializing], o.Initalizing = false → 0 ≤ o.mass.toReal := by
    intro o ho hi
    rw [List.mem_singleton.mp ho] at hi
    cases hi
  have hzero : massSum [sunInitializing] = 0 := by
    have hi : sunInitializing.Initalizing = true := rfl
    simp [massSum, List.filter_cons, hi]
  have h1 := comY_zero_total_mass [sunInitializing] hfin hmass hzero
  have e : maxYReal [((3 : ℝ), (4 : ℝ), (0 : ℝ))] = 4 := rfl
  refine ⟨⟨h0.2.2.1, ?_⟩, ⟨h1.2.2.1, ?_⟩⟩
  · have h3 := (h0.2.2.2.2.1 (3, 4, 0) []).1
    rw [e] at h3
    exact h3
  · have h3 := (h1.2.2.2.2.1 (3, 4, 0) []).1
    rw [e] at h3
    exact h3

theorem heightAt_nil (call : AbsCall) (vs : List (ℝ × ℝ × ℝ)) (v : ℝ × ℝ × ℝ) :
    heightAt call vs [] v = fin (-(absReal call (-maxYReal vs))) := by
  simp [heightAt, dispReal, comYReal, massSum, massYSum]

/-- At a real number that is an integer within the range of `int`, both
resolutions of `abs` give the absolute value. -/
theorem absReal_of_int (call : AbsCall) (x : ℝ) (n : Int) (hx : x = (n : ℝ))
    (h : |n| < 2 ^ 31) : absReal call x = |x| := by
  rw [hx]
  exact absReal_intCast call n h

theorem sunInitializing_sqrtArg_345 : 0 < sqrtArg sunInitializing (3, 4, 0) := by
  have e : sqrtArg sunInitializing (3, 4, 0) = sqrtArg sun (3, 4, 0) := rfl
  rw [e, sqrtArg, sun_distReal_345, sun_rsReal]
  norm_num

theorem initializing_body_bends_grid_aux (call : AbsCall) :
    UpdateGridVertices call (flat [(3, 4, 0)])
        ([sunInitializing].filter fun o => !o.Initalizing)
      = [fin 3, fin (-4), fin 0] ∧
    ∃ h : ℝ, -4 < h ∧
      UpdateGridVertices call (flat [(3, 4, 0)]) [sunInitializing]
        = [fin 3, fin h, fin 0] := by
  have h4 : absReal call (-4) = 4 := by
    rw [absReal_of_int call (-4) (-4) (by norm_num) (by norm_num)]
    norm_num
  constructor
  · have hf : ([sunInitializing].filter fun o => !o.Initalizing) = [] := rfl
    rw [hf, UpdateGridVertices_fin _ _ _ (by intro o ho; cases ho)]
    simp [flatC, heightAt_nil, maxYReal, h4]
  · have hfin : ∀ o ∈ [sunInitializing], o.FinitePlace := by
      intro o ho
      rw [List.mem_singleton.mp ho]
      exact ⟨trivial, trivial, trivial, trivial⟩
    have hok : ∀ o ∈ [sunInitializing], 0 ≤ sqrtArg o (3, 4, 0) := by
      intro o ho
      rw [List.mem_singleton.mp ho]
      exact le_of_lt sunInitializing_sqrtArg_345
    have hcom : comYReal [sunInitializing] = 0 := by
      have hi : sunInitializing.Initalizing = true := rfl
      simp [comYReal, massSum, massYSum, List.filter_cons, hi]
    refine ⟨dispReal [sunInitializing] (3, 4, 0) - absReal call (comYReal [sunInitializing]
      - maxYReal [(3, 4, 0)]), ?_, ?_⟩
    · have hs := Real.sqrt_pos.mpr sunInitializing_sqrtArg_345
      rw [hcom]
      have h5 : absReal call ((0 : ℝ) - 4) = 4 := by
        rw [zero_sub]
        exact h4
      simp only [dispReal, List.map_cons, List.map_nil, List.sum_cons, List.sum_nil, maxYReal,
        List.foldl_nil, h5]
      linarith
    · rw [UpdateGridVertices_fin _ _ _ hfin]
      simp only [List.map_cons, List.map_nil, flatC, heightAt, if_pos hok]

/-- C18 fails for the Sun of the preset with `Initalizing` set, over the
single vertex `(3, 4, 0)`, under either resolution of `abs`: with the body
removed the height is `-4`, with the body in the list the height is greater,
because the displacement loop does not skip initializing bodies (its
`continue` is commented out) while the centre-of-mass loop does. -/
theorem initializing_body_bends_grid :
    (UpdateGridVertices AbsCall.floating (flat [(3, 4, 0)])
        ([sunInitializing].filter fun o => !o.Initalizing)
      = [fin 3, fin (-4), fin 0] ∧
    ∃ h : ℝ, -4 < h ∧
      UpdateGridVertices AbsCall.floating (flat [(3, 4, 0)]) [sunInitializing]
        = [fin 3, fin h, fin 0]) ∧
    (UpdateGridVertices intAbs (flat [(3, 4, 0)])
        ([sunInitializing].filter fun o => !o.Initalizing)
      = [fin 3, fin (-4), fin 0] ∧
    ∃ h : ℝ, -4 < h ∧
      UpdateGridVertices intAbs (flat [(3, 4, 0)]) [sunInitializing]
        = [fin 3, fin h, fin 0]) :=
  ⟨initializing_body_bends_grid_aux _, initializing_body_bends_grid_aux _⟩

theorem dispReal_filter_split (objs : List Object) (v : ℝ × ℝ × ℝ) :
    dispReal objs v
      = dispReal (objs.filter fun o => !o.Initalizing) v
        + dispReal (objs.filter fun o => o.Initalizing) v := by
  induction objs with
  | nil => simp [dispReal]
  | cons o rest ih =>
    have e : dispReal (o :: rest) v = 2 * (2 * Real.sqrt (sqrtArg o v)) + dispReal rest v := by
      simp [dispReal]
    cases hi : o.Initalizing
    · have e1 : dispReal ((o :: rest).filter fun o => !o.Initalizing) v
          = 2 * (2 * Real.sqrt (sqrtArg o v))
            + dispReal (rest.filter fun o => !o.Initalizing) v := by
        simp [dispReal, List.filter_cons, hi]
      have e2 : dispReal ((o :: rest).filter fun o => o.Initalizing) v
          = dispReal (rest.filter fun o => o.Initalizing) v := by
        simp [dispReal, List.filter_cons, hi]
      rw [e, e1, e2, ih]
      ring
    · have e1 : dispReal ((o :: rest).filter fun o => !o.Initalizing) v
          = dispReal (rest.filter fun o => !o.Initalizing) v := by
        simp [dispReal, List.filter_cons, hi]
      have e2 : dispReal ((o :: rest).filter fun o => o.Initalizing) v
          = 2 * (2 * Real.sqrt (sqrtArg o v))
            + dispReal (rest.filter fun o => o.Initalizing) v := by
        simp [dispReal, List.filter_cons, hi]
      rw [e, e1, e2, ih]
      ring

theorem comYReal_filter (objs : List Object) :
    comYReal (objs.filter fun o => !o.Initalizing) = comYReal objs := by
  simp only [comYReal, massSum_filter, massYSum_filter]

/-- C18 as amended: bodies that are still being created are left out of the
centre of mass, hence of the vertical shift (for every vertex array and body
list), but not of the displacement sum.  For finite vertices and bodies with
finite positions and masses whose square-root arguments are non-negative, the
height `UpdateGridVertices` returns at a vertex `v` is the height it returns
on the body list with the being-created bodies removed, plus the sum over the
being-created bodies `b` of
`2 * (2 * sqrt(rs_b * (1000 * |position(b) - v| - rs_b)))`. -/
theorem initializing_bodies_displace (call : AbsCall) (vs : List (ℝ × ℝ × ℝ))
    (objs : List Object) (hfin : ∀ o ∈ objs, o.FinitePlace)
    (hok : ∀ o ∈ objs, ∀ v ∈ vs, 0 ≤ sqrtArg o v) :
    (∀ vertices : List CFloat,
      verticalShift vertices objs
        = verticalShift vertices (objs.filter fun o => !o.Initalizing)) ∧
    ∃ H : ℝ × ℝ × ℝ → ℝ,
      UpdateGridVertices call (flat vs) (objs.filter fun o => !o.Initalizing)
        = flat (vs.map fun v => (v.1, H v, v.2.2)) ∧
      UpdateGridVertices call (flat vs) objs
        = flat (vs.map fun v =>
            (v.1,
             H v + ((objs.filter fun o => o.Initalizing).map fun o =>
               2 * (2 * Real.sqrt (rsReal o * (1000 * distReal o v - rsReal o)))).sum,
             v.2.2)) := by
  have hfin1 : ∀ o ∈ objs.filter (fun o => !o.Initalizing), o.FinitePlace :=
    fun o ho => hfin o (List.mem_filter.mp ho).1
  constructor
  · intro vertices
    simp only [verticalShift, comY]
    rw [← comLoop_filter]
  · refine ⟨fun v => dispReal (objs.filter fun o => !o.Initalizing) v
      - absReal call (comYReal objs - maxYReal vs), ?_, ?_⟩
    · rw [UpdateGridVertices_fin call vs _ hfin1, ← flatC_fin_eq_flat]
      congr 1
      apply List.map_congr_left
      intro v hv
      have hk : ∀ o ∈ objs.filter (fun o => !o.Initalizing), 0 ≤ sqrtArg o v :=
        fun o ho => hok o (List.mem_filter.mp ho).1 v hv
      rw [heightAt, if_pos hk, comYReal_filter]
    · rw [UpdateGridVertices_fin call vs _ hfin, ← flatC_fin_eq_flat]
      congr 1
      apply List.map_congr_left
      intro v hv
      have hk : ∀ o ∈ objs, 0 ≤ sqrtArg o v := fun o ho => hok o ho v hv
      have e : ((objs.filter fun o => o.Initalizing).map fun o =>
          2 * (2 * Real.sqrt (rsReal o * (1000 * distReal o v - rsReal o)))).sum
          = dispReal (objs.filter fun o => o.Initalizing) v := rfl
      rw [heightAt, if_pos hk, e, dispReal_filter_split objs v]
      congr 3
      ring

/-- C18 as amended, at the Sun of the preset with `Initalizing` set and the
vertex `(3, 4, 0)`. -/
theorem initializing_bodies_displace_witness :
    (∀ vertices : List CFloat,
      verticalShift vertices [sunInitializing]
        = verticalShift vertices ([sunInitializing].filter fun o => !o.Initalizing)) ∧
    ∃ H : ℝ × ℝ × ℝ → ℝ,
      UpdateGridVertices intAbs (flat [(3, 4, 0)])
          ([sunInitializing].filter fun o => !o.Initalizing)
        = flat ([((3 : ℝ), (4 : ℝ), (0 : ℝ))].map fun v => (v.1, H v, v.2.2)) ∧
      UpdateGridVertices intAbs (flat [(3, 4, 0)]) [sunInitializing]
        = flat ([((3 : ℝ), (4 : ℝ), (0 : ℝ))].map fun v =>
            (v.1,
             H v + (([sunInitializing].filter fun o => o.Initalizing).map fun o =>
               2 * (2 * Real.sqrt (rsReal o * (1000 * distReal o v - rsReal o)))).sum,
             v.2.2)) :=
  initializing_bodies_displace intAbs [(3, 4, 0)] [sunInitializing]
    (by
      intro o ho
      rw [List.mem_singleton.mp ho]
      exact ⟨trivial, trivial, trivial, trivial⟩)
    (by
      intro o ho v hv
      rw [List.mem_singleton.mp ho, List.mem_singleton.mp hv]
      exact le_of_lt sunInitializing_sqrtArg_345)

/-- The grid update for one object and one vertex with a non-negative
square-root argument. -/
theorem UpdateGridVertices_single (call : AbsCall) (o : Object) (v : ℝ × ℝ × ℝ)
    (hfin : o.FinitePlace) (hok : 0 ≤ sqrtArg o v) :
    UpdateGridVertices call (flat [v]) [o]
      = [fin v.1, fin (2 * (2 * Real.sqrt (sqrtArg o v)) - absReal call (comYReal [o] - v.2.1)),
          fin v.2.2] := by
  have hf : ∀ o1 ∈ [o], o1.FinitePlace := by
    intro o1 h1
    rw [List.mem_singleton.mp h1]
    exact hfin
  have hk : ∀ o1 ∈ [o], 0 ≤ sqrtArg o1 v := by
    intro o1 h1
    rw [List.mem_singleton.mp h1]
    exact hok
  rw [UpdateGridVertices_fin _ _ _ hf]
  simp only [List.map_cons, List.map_nil, flatC, heightAt, if_pos hk, dispReal, List.sum_cons,
    List.sum_nil, add_zero, maxYReal, List.foldl_nil]

theorem sun_comYReal : comYReal [sun] = 0 := by
  have hi : sun.Initalizing = false := rfl
  have hm : sun.mass.toReal = 1.989e25 := rfl
  have hy : sun.position.y.toReal = 0 := rfl
  simp only [comYReal, massSum, massYSum, List.filter_cons, hi, Bool.not_false, if_true,
    List.filter_nil, List.map_cons, List.map_nil, List.sum_cons, List.sum_nil, add_zero, hm, hy,
    mul_zero, zero_div, ite_self]

theorem sun_mean_height : massYSum [sun] / massSum [sun] = 0 := by
  have hi : sun.Initalizing = false := rfl
  have hy : sun.position.y.toReal = 0 := rfl
  simp only [massYSum, List.filter_cons, hi, Bool.not_false, if_true, List.filter_nil,
    List.map_cons, List.map_nil, List.sum_cons, List.sum_nil, add_zero, hy, mul_zero, zero_div]

theorem sun_distReal_high : 3 ≤ distReal sun (3, 4.5, 0) := by
  have e : distReal sun (3, 4.5, 0)
      = Real.sqrt ((0 - 3) * (0 - 3) + (0 - 4.5) * (0 - 4.5) + (0 - 0) * (0 - 0)) := rfl
  rw [e]
  exact Real.le_sqrt_of_sq_le (by norm_num)

theorem sun_sqrtArg_high : 0 ≤ sqrtArg sun (3, 4.5, 0) := by
  have h := sun_distReal_high
  have hrs : rsReal sun ≤ 1 := by
    rw [sun_rsReal]
    norm_num
  have hrs0 : 0 ≤ rsReal sun := by
    rw [sun_rsReal]
    norm_num
  rw [sqrtArg]
  exact mul_nonneg hrs0 (by linarith)

theorem truncate_neg_four_half : truncate (-4.5) = -4 := by
  have h : ¬ (0 : ℝ) ≤ -4.5 := by norm_num
  rw [truncate, if_neg h, Int.ceil_eq_iff]
  norm_num

/-- C7: for finite vertices and bodies with finite positions and positive
masses such that `1000 * |position(b) - v| ≥ rs_b` for each body `b` and vertex
`v`, `UpdateGridVertices` sets the height of each vertex `v` to
`(sum over bodies b of 2 * (2 * sqrt(rs_b * (1000 * |position(b) - v| - rs_b))))
 - abs(comY - maxY)` with `abs` as the call of line 730 computes it: the
absolute value when the call resolves to a floating overload, but the absolute
value of `comY - maxY` truncated to an integer when it resolves to
`int abs(int)`.  For the Sun of the preset and the single vertex `(3, 4.5, 0)`
(the premise holds, `comY - maxY = -4.5`) the height returned under
`int abs(int)` is the displacement sum minus 4, and not the displacement sum
minus `|comY - maxY| = 4.5` of the formula. -/
theorem grid_height_truncates_shift :
    (∀ (call : AbsCall) (vs : List (ℝ × ℝ × ℝ)) (objs : List Object) (maxY : ℝ),
      (∀ o ∈ objs, o.FinitePlace) → (∀ o ∈ objs, 0 < o.mass.toReal) →
      (∀ o ∈ objs, ∀ v ∈ vs, rsReal o ≤ 1000 * distReal o v) →
      IsGreatest {y : ℝ | ∃ v ∈ vs, v.2.1 = y} maxY →
      UpdateGridVertices call (flat vs) objs
        = flat (vs.map fun v =>
            (v.1,
             (objs.map fun o =>
                2 * (2 * Real.sqrt (rsReal o * (1000 * distReal o v - rsReal o)))).sum
               - absReal call (massYSum objs / massSum objs - maxY),
             v.2.2))) ∧
    (∀ x : ℝ, absReal AbsCall.floating x = |x|) ∧
    (∀ (undef : CFloat → Int) (x : ℝ), |truncate x| < 2 ^ 31 →
      absReal (AbsCall.integer undef) x = ((|truncate x| : Int) : ℝ)) ∧
    (sun.FinitePlace ∧ 0 < sun.mass.toReal ∧
      rsReal sun ≤ 1000 * distReal sun (3, 4.5, 0)) ∧
    massYSum [sun] / massSum [sun] - 4.5 = -4.5 ∧
    UpdateGridVertices AbsCall.floating (flat [(3, 4.5, 0)]) [sun]
      = [fin 3, fin (sunDisplacement - 4.5), fin 0] ∧
    UpdateGridVertices intAbs (flat [(3, 4.5, 0)]) [sun]
      = [fin 3, fin (sunDisplacement - 4), fin 0] ∧
    UpdateGridVertices intAbs (flat [(3, 4.5, 0)]) [sun]
      ≠ [fin 3, fin (sunDisplacement - |massYSum [sun] / massSum [sun] - 4.5|), fin 0] := by
  have hshift : comYReal [sun] - ((3 : ℝ), (4.5 : ℝ), (0 : ℝ)).2.1 = -4.5 := by
    rw [sun_comYReal]
    norm_num
  have hfloat : absReal AbsCall.floating (-4.5) = 4.5 := by
    rw [absReal_floating, abs_neg]
    exact abs_of_pos (by norm_num)
  have hint : absReal intAbs (-4.5) = 4 := by
    have h31 : |truncate (-4.5)| < 2 ^ 31 := by
      rw [truncate_neg_four_half]
      norm_num
    rw [intAbs, absReal_integer _ _ h31, truncate_neg_four_half]
    norm_num
  have h1 : UpdateGridVertices AbsCall.floating (flat [(3, 4.5, 0)]) [sun]
      = [fin 3, fin (sunDisplacement - 4.5), fin 0] := by
    rw [UpdateGridVertices_single _ sun (3, 4.5, 0) sun_finitePlace sun_sqrtArg_high, hshift,
      hfloat]
    rfl
  have h2 : UpdateGridVertices intAbs (flat [(3, 4.5, 0)]) [sun]
      = [fin 3, fin (sunDisplacement - 4), fin 0] := by
    rw [UpdateGridVertices_single _ sun (3, 4.5, 0) sun_finitePlace sun_sqrtArg_high, hshift,
      hint]
    rfl
  have hrs : rsReal sun ≤ 1000 * distReal sun (3, 4.5, 0) := by
    have h := sun_distReal_high
    have hr : rsReal sun ≤ 1 := by
      rw [sun_rsReal]
      norm_num
    linarith
  have hmass : (0 : ℝ) < sun.mass.toReal := by
    show (0 : ℝ) < 1.989e25
    norm_num
  have hmean : massYSum [sun] / massSum [sun] - 4.5 = -4.5 := by
    rw [sun_mean_height]
    norm_num
  refine ⟨?_, absReal_floating, absReal_integer, ⟨sun_finitePlace, hmass, hrs⟩, hmean, h1, h2, ?_⟩
  · intro call vs objs maxY hfin hm hr hmax
    exact UpdateGridVertices_formula call vs objs maxY hfin (fun o ho => le_of_lt (hm o ho)) hr
      hmax
  · rw [h2, hmean]
    intro h
    have h3 : sunDisplacement - 4 = sunDisplacement - |(-4.5 : ℝ)| := by
      simpa using h
    rw [abs_neg, abs_of_pos (by norm_num : (0 : ℝ) < 4.5)] at h3
    norm_num at h3

theorem heavyBody_finitePlace : heavyBody.FinitePlace := ⟨trivial, trivial, trivial, trivial⟩

theorem heavyBody_rsReal : rsReal heavyBody = 1000 := by
  have e : rsReal heavyBody
      = 2 * 6.6743e-11 * (1000 * (299792458 * 299792458) / (2 * 6.6743e-11))
        / (299792458 * 299792458) := rfl
  rw [e]
  norm_num

theorem heavyBody_comYReal : comYReal [heavyBody] = 2 := by
  have hi : heavyBody.Initalizing = false := rfl
  have hm : heavyBody.mass.toReal = 1000 * (299792458 * 299792458) / (2 * 6.6743e-11) := rfl
  have hy : heavyBody.position.y.toReal = 2 := rfl
  have hpos : (0 : ℝ) < 1000 * (299792458 * 299792458) / (2 * 6.6743e-11) := by norm_num
  simp only [comYReal, massSum, massYSum, List.filter_cons, hi, Bool.not_false, if_true,
    List.filter_nil, List.map_cons, List.map_nil, List.sum_cons, List.sum_nil, add_zero, hm, hy,
    if_pos hpos]
  field_simp

theorem heavyBody_distReal_low : distReal heavyBody (0, 0, 0) = 2 := by
  have e : distReal heavyBody (0, 0, 0)
      = Real.sqrt ((0 - 0) * (0 - 0) + (2 - 0) * (2 - 0) + (0 - 0) * (0 - 0)) := rfl
  rw [e, show ((0 : ℝ) - 0) * (0 - 0) + (2 - 0) * (2 - 0) + (0 - 0) * (0 - 0) = 2 ^ 2 by norm_num]
  exact Real.sqrt_sq (by norm_num)

theorem heavyBody_distReal_high : distReal heavyBody (0, 3998, 0) = 3996 := by
  have e : distReal heavyBody (0, 3998, 0)
      = Real.sqrt ((0 - 0) * (0 - 0) + (2 - 3998) * (2 - 3998) + (0 - 0) * (0 - 0)) := rfl
  rw [e, show ((0 : ℝ) - 0) * (0 - 0) + (2 - 3998) * (2 - 3998) + (0 - 0) * (0 - 0)
    = 3996 ^ 2 by norm_num]
  exact Real.sqrt_sq (by norm_num)

theorem heavyBody_sqrtArg_low : sqrtArg heavyBody (0, 0, 0) = 1000 ^ 2 := by
  rw [sqrtArg, heavyBody_rsReal, heavyBody_distReal_low]
  norm_num

theorem heavyBody_sqrtArg_high : sqrtArg heavyBody (0, 3998, 0) = 3995000000 := by
  rw [sqrtArg, heavyBody_rsReal, heavyBody_distReal_high]
  norm_num

theorem heavyBody_first_update (call : AbsCall) :
    UpdateGridVertices call (flat [(0, 0, 0)]) [heavyBody] = flat [(0, 3998, 0)] := by
  rw [UpdateGridVertices_single call heavyBody (0, 0, 0) heavyBody_finitePlace
    (by rw [heavyBody_sqrtArg_low]; positivity)]
  rw [heavyBody_sqrtArg_low, Real.sqrt_sq (by norm_num), heavyBody_comYReal]
  have h : absReal call ((2 : ℝ) - 0) = 2 := by
    rw [absReal_of_int call _ 2 (by norm_num) (by norm_num)]
    norm_num
  simp only [h]
  norm_num [flat, flatC]

theorem heavyBody_second_update (call : AbsCall) :
    UpdateGridVertices call (flat [(0, 3998, 0)]) [heavyBody]
      = [fin 0, fin (2 * (2 * Real.sqrt 3995000000) - 3996), fin 0] := by
  rw [UpdateGridVertices_single call heavyBody (0, 3998, 0) heavyBody_finitePlace
    (by rw [heavyBody_sqrtArg_high]; positivity)]
  rw [heavyBody_sqrtArg_high, heavyBody_comYReal]
  have h : absReal call ((2 : ℝ) - 3998) = 3996 := by
    rw [absReal_of_int call _ (-3996) (by norm_num) (by norm_num)]
    rw [show (2 : ℝ) - 3998 = -3996 by norm_num, abs_neg]
    exact abs_of_pos (by norm_num)
  simp only [h]

theorem grid_update_not_idempotent_aux (call : AbsCall) :
    UpdateGridVertices call (flat [(0, 0, 0)]) [heavyBody] = flat [(0, 3998, 0)] ∧
    UpdateGridVertices call (UpdateGridVertices call (flat [(0, 0, 0)]) [heavyBody]) [heavyBody]
      ≠ UpdateGridVertices call (flat [(0, 0, 0)]) [heavyBody] := by
  refine ⟨heavyBody_first_update call, ?_⟩
  rw [heavyBody_first_update, heavyBody_second_update]
  intro h
  have h1 : (2 * (2 * Real.sqrt 3995000000) - 3996 : ℝ) = 3998 := by
    simpa [flat, flatC] using h
  have h2 : Real.sqrt 3995000000 = 3997 / 2 := by linarith
  have h3 := Real.sq_sqrt (show (0 : ℝ) ≤ 3995000000 by norm_num)
  rw [h2] at h3
  norm_num at h3

/-- C17 fails for a body with `rs = 1000` at `(0, 2, 0)` and the single vertex
`(0, 0, 0)`, under either resolution of `abs`: the first update gives the
height 3998; applied to its own output, with the body unchanged, the update
gives `4 * sqrt(3995000000) - 3996`, which is not 3998. -/
theorem grid_update_not_idempotent :
    (UpdateGridVertices AbsCall.floating (flat [(0, 0, 0)]) [heavyBody]
        = flat [(0, 3998, 0)] ∧
      UpdateGridVertices AbsCall.floating
          (UpdateGridVertices AbsCall.floating (flat [(0, 0, 0)]) [heavyBody]) [heavyBody]
        ≠ UpdateGridVertices AbsCall.floating (flat [(0, 0, 0)]) [heavyBody]) ∧
    (UpdateGridVertices intAbs (flat [(0, 0, 0)]) [heavyBody] = flat [(0, 3998, 0)] ∧
      UpdateGridVertices intAbs
          (UpdateGridVertices intAbs (flat [(0, 0, 0)]) [heavyBody]) [heavyBody]
        ≠ UpdateGridVertices intAbs (flat [(0, 0, 0)]) [heavyBody]) :=
  ⟨grid_update_not_idempotent_aux _, grid_update_not_idempotent_aux _⟩

theorem maxYReal_const (c0 : ℝ) (v0 : ℝ × ℝ × ℝ) (rest : List (ℝ × ℝ × ℝ)) :
    maxYReal ((v0 :: rest).map fun v => (v.1, c0, v.2.2)) = c0 := by
  have h : ∀ l : List (ℝ × ℝ × ℝ),
      (l.map fun v => ((v.1, c0, v.2.2) : ℝ × ℝ × ℝ)).foldl (fun m w => max m w.2.1) c0
        = c0 := by
    intro l
    induction l with
    | nil => rfl
    | cons a l ih => simpa using ih
  simpa [maxYReal] using h rest

/-- C17 as amended: the vertical shift is the centre-of-mass height minus the
greatest height of the vertex array the function is given (in `main`, the
output of the previous frame), and the distances are measured from the input
heights: the height returned at a vertex `v` is NaN when a square-root
argument is negative and otherwise the displacement sum at `v` minus
`abs(comY - maxY)`, where `abs` is the absolute value under the floating
overload and the absolute value of the argument truncated to an integer under
`int abs(int)`.  With no bodies, and `abs` within defined behaviour, applying
`UpdateGridVertices` to its own output gives the same array as applying it
once. -/
theorem grid_shift_from_input (call : AbsCall) (v0 : ℝ × ℝ × ℝ) (rest : List (ℝ × ℝ × ℝ))
    (objs : List Object) (hfin : ∀ o ∈ objs, o.FinitePlace) :
    verticalShift (flat (v0 :: rest)) objs = fin (comYReal objs - maxYReal (v0 :: rest)) ∧
    IsGreatest {y : ℝ | ∃ v ∈ v0 :: rest, v.2.1 = y} (maxYReal (v0 :: rest)) ∧
    UpdateGridVertices call (flat (v0 :: rest)) objs
      = flatC ((v0 :: rest).map fun v =>
          (fin v.1, heightAt call (v0 :: rest) objs v, fin v.2.2)) ∧
    (∀ v : ℝ × ℝ × ℝ, (∀ o ∈ objs, 0 ≤ sqrtArg o v) →
      heightAt call (v0 :: rest) objs v
        = fin (dispReal objs v - absReal call (comYReal objs - maxYReal (v0 :: rest)))) ∧
    (∀ v : ℝ × ℝ × ℝ, (∃ o ∈ objs, sqrtArg o v < 0) → heightAt call (v0 :: rest) objs v = nan) ∧
    (∀ x : ℝ, absReal AbsCall.floating x = |x|) ∧
    (∀ (undef : CFloat → Int) (x : ℝ), |truncate x| < 2 ^ 31 →
      absReal (AbsCall.integer undef) x = ((|truncate x| : Int) : ℝ)) ∧
    (call.Defined (-maxYReal (v0 :: rest)) →
      UpdateGridVertices call (UpdateGridVertices call (flat (v0 :: rest)) []) []
        = UpdateGridVertices call (flat (v0 :: rest)) []) := by
  have hnil : ∀ o ∈ ([] : List Object), o.FinitePlace := by
    intro o ho
    cases ho
  refine ⟨?_, maxYReal_isGreatest v0 rest, UpdateGridVertices_fin _ _ objs hfin, ?_, ?_,
    absReal_floating, absReal_integer, ?_⟩
  · rw [verticalShift, comY_fin objs hfin, originalMaxY_fin, fin_sub_fin]
  · intro v hv
    rw [heightAt, if_pos hv]
  · rintro v ⟨o, ho, hneg⟩
    have hnot : ¬ ∀ o ∈ objs, 0 ≤ sqrtArg o v := fun h => absurd (h o ho) (not_le.mpr hneg)
    rw [heightAt, if_neg hnot]
  · intro hdef
    have h1 : UpdateGridVertices call (flat (v0 :: rest)) []
        = flat ((v0 :: rest).map fun v =>
            (v.1, -(absReal call (-maxYReal (v0 :: rest))), v.2.2)) := by
      rw [UpdateGridVertices_fin _ _ _ hnil, ← flatC_fin_eq_flat]
      simp only [heightAt_nil]
    rw [h1, UpdateGridVertices_fin _ _ _ hnil, ← flatC_fin_eq_flat]
    simp only [heightAt_nil, maxYReal_const, neg_neg, absReal_idem call _ hdef, List.map_map]
    rfl

/-- C17 as amended, at the Sun of the preset and the vertex `(3, 4, 0)`. -/
theorem grid_shift_from_input_witness :
    verticalShift (flat [(3, 4, 0)]) [sun] = fin (comYReal [sun] - 4) ∧
    UpdateGridVertices intAbs (flat [(3, 4, 0)]) [sun]
      = flatC ([((3 : ℝ), (4 : ℝ), (0 : ℝ))].map fun v =>
          (fin v.1, heightAt intAbs [(3, 4, 0)] [sun] v, fin v.2.2)) := by
  have h := grid_shift_from_input intAbs (3, 4, 0) [] [sun] (by
    intro o ho
    rw [List.mem_singleton.mp ho]
    exact sun_finitePlace)
  refine ⟨?_, h.2.2.1⟩
  have h1 := h.1
  have e : maxYReal [((3 : ℝ), (4 : ℝ), (0 : ℝ))] = 4 := rfl
  rw [e] at h1
  exact h1

/-! ## The preset and the bounding volume of the grid -/

theorem passPrefix_getElem_done (pause : Bool) (objs : List Object) (i j : Nat)
    (hj : j < i) (hi : i ≤ objs.length) :
    (passPrefix pause objs i)[j]? = (tick pause objs)[j]? := by
  rw [tick, passPrefix_getElem_lt pause objs j i hj,
    passPrefix_getElem_lt pause objs j objs.length (by omega)]

theorem phaseFrom_head (pause : Bool) (start : List Object) (i : Nat) (l : List Object) :
    (phaseFrom pause start i l)[0]? = l[0]?.map (bodyStep pause start i) := by
  cases l <;> simp [phaseFrom]

/-- The first body is updated against the start-of-tick collection by both
versions of the tick. -/
theorem tick_head_eq_phaseOrdered (pause : Bool) (objs : List Object) :
    (tick pause objs)[0]? = (tickPhaseOrdered pause objs)[0]? := by
  cases objs with
  | nil => rfl
  | cons o rest =>
    have h0 : (o :: rest)[0]? = some o := by simp
    have hp : passPrefix pause (o :: rest) 0 = o :: rest := rfl
    rw [tick_getElem pause (o :: rest) 0 o h0, tickPhaseOrdered, phaseFrom_head, h0, hp]
    rfl

/-- C16 as amended: a tick is sequential and in place.  The body at index `i`
is updated by the outer-loop iteration evaluated in the collection in which
the bodies before it (`j < i`) already have their end-of-tick state and the
bodies from `i` on still have their start-of-tick state; only the first body
is updated as in the phase-ordered tick. -/
theorem tick_sequential (pause : Bool) (objs : List Object) (i : Nat) (obj : Object)
    (h : objs[i]? = some obj) :
    (tick pause objs)[i]? = some (bodyStep pause (passPrefix pause objs i) i obj) ∧
    (∀ j : Nat, j < i → (passPrefix pause objs i)[j]? = (tick pause objs)[j]?) ∧
    (∀ j : Nat, i ≤ j → (passPrefix pause objs i)[j]? = objs[j]?) ∧
    (tick pause objs)[0]? = (tickPhaseOrdered pause objs)[0]? := by
  have hlt : i < objs.length := by
    by_contra hc
    rw [List.getElem?_eq_none (by omega)] at h
    cases h
  exact ⟨tick_getElem pause objs i obj h,
    fun j hj => passPrefix_getElem_done pause objs i j hj (le_of_lt hlt),
    fun j hj => passPrefix_getElem_ge pause objs j i hj,
    tick_head_eq_phaseOrdered pause objs⟩

/-- A tick of a collection of two bodies. -/
theorem tick_two (pause : Bool) (o1 o2 : Object) :
    tick pause [o1, o2]
      = [bodyStep pause [o1, o2] 0 o1,
          bodyStep pause [bodyStep pause [o1, o2] 0 o1, o2] 1 o2] := by
  simp [tick, passPrefix, List.range_succ, stepAt]

theorem tickPhaseOrdered_two (pause : Bool) (o1 o2 : Object) :
    tickPhaseOrdered pause [o1, o2]
      = [bodyStep pause [o1, o2] 0 o1, bodyStep pause [o1, o2] 1 o2] := rfl

theorem pairStep_initalizing (pause : Bool) (o obj2 : Object) :
    (pairStep pause o obj2).Initalizing = o.Initalizing := by
  unfold pairStep
  split_ifs <;> rfl

theorem bodyStep_two_first (a b o : Object) (hi : o.Initalizing = false) :
    bodyStep false [a, b] 0 o = (pairStep false o b).UpdatePos := by
  have h : (pairStep false o b).Initalizing = false := by rw [pairStep_initalizing, hi]
  simp [bodyStep, innerLoop, h]

theorem bodyStep_two_second (a b o : Object) (hi : o.Initalizing = false) :
    bodyStep false [a, b] 1 o = (pairStep false o a).UpdatePos := by
  have h : (pairStep false o a).Initalizing = false := by rw [pairStep_initalizing, hi]
  simp [bodyStep, innerLoop, h]

/-- The vector `acc` with the mass of the accelerated body cancelled. -/
theorem pairAcc_simplified (obj obj2 : Object) (x1 y1 z1 x2 y2 z2 m1 m2 r : ℝ)
    (hp1 : obj.position = Vec3.ofReal x1 y1 z1) (hp2 : obj2.position = Vec3.ofReal x2 y2 z2)
    (hm1 : obj.mass = fin m1) (hm2 : obj2.mass = fin m2) (hm : m1 ≠ 0)
    (hr : r = Real.sqrt ((x2 - x1) * (x2 - x1) + (y2 - y1) * (y2 - y1) + (z2 - z1) * (z2 - z1)))
    (hpos : 0 < r) :
    pairAcc obj obj2
      = Vec3.ofReal
          ((x2 - x1) / r * (6.6743e-11 * m2 / (1000 * r) ^ 2))
          ((y2 - y1) / r * (6.6743e-11 * m2 / (1000 * r) ^ 2))
          ((z2 - z1) / r * (6.6743e-11 * m2 / (1000 * r) ^ 2)) := by
  have hr0 : r ≠ 0 := ne_of_gt hpos
  have e : 6.6743e-11 * m1 * m2 / (r * 1000 * (r * 1000)) / m1
      = 6.6743e-11 * m2 / (1000 * r) ^ 2 := by
    field_simp
    ring
  rw [pairAcc_ofReal obj obj2 x1 y1 z1 x2 y2 z2 m1 m2 r hp1 hp2 hm1 hm2 hm hr hpos, e]

/-- One unpaused outer-loop iteration of a non-initializing body `o` with
finite state against a single non-initializing, non-colliding partner `o2` at
distance `r > 0`: the velocity gains `acc / 96` and the position then gains
`velocity / 94`. -/
theorem pairStep_UpdatePos_fin (o o2 : Object) (x1 y1 z1 x2 y2 z2 u v w m1 m2 r : ℝ)
    (hi1 : o.Initalizing = false) (hi2 : o2.Initalizing = false)
    (hp1 : o.position = Vec3.ofReal x1 y1 z1) (hp2 : o2.position = Vec3.ofReal x2 y2 z2)
    (hv : o.velocity = Vec3.ofReal u v w)
    (hm1 : o.mass = fin m1) (hm2 : o2.mass = fin m2) (hm : m1 ≠ 0)
    (hr : r = Real.sqrt ((x2 - x1) * (x2 - x1) + (y2 - y1) * (y2 - y1) + (z2 - z1) * (z2 - z1)))
    (hpos : 0 < r) (hnc : o.CheckCollision o2 = fin 1) :
    (pairStep false o o2).UpdatePos
      = ⟨Vec3.ofReal
          (x1 + (u + (x2 - x1) / r * (6.6743e-11 * m2 / (1000 * r) ^ 2) / 96) / 94)
          (y1 + (v + (y2 - y1) / r * (6.6743e-11 * m2 / (1000 * r) ^ 2) / 96) / 94)
          (z1 + (w + (z2 - z1) / r * (6.6743e-11 * m2 / (1000 * r) ^ 2) / 96) / 94),
        Vec3.ofReal
          (u + (x2 - x1) / r * (6.6743e-11 * m2 / (1000 * r) ^ 2) / 96)
          (v + (y2 - y1) / r * (6.6743e-11 * m2 / (1000 * r) ^ 2) / 96)
          (w + (z2 - z1) / r * (6.6743e-11 * m2 / (1000 * r) ^ 2) / 96),
        false, o.mass, o.density, radiusExpr o.mass o.density⟩ := by
  have hd : pairDistance o o2 = fin r := by
    rw [pairDistance_ofReal o o2 x1 y1 z1 x2 y2 z2 hp1 hp2, hr]
  have hc : contributes o o2 = true := by
    simp [contributes, hi2, hd, hpos]
  have h96 : (96 : ℝ) ≠ 0 := by norm_num
  have h94 : (94 : ℝ) ≠ 0 := by norm_num
  rw [pairStep_unpaused_no_collision o o2 hi1 hnc, hc, if_pos rfl,
    pairAcc_simplified o o2 x1 y1 z1 x2 y2 z2 m1 m2 r hp1 hp2 hm1 hm2 hm hr hpos]
  simp only [Object.UpdatePos, hv, hp1, hi1, Vec3.addDiv, Vec3.ofReal, fin_div_fin _ h96,
    fin_div_fin _ h94, fin_add_fin]

/-- C16 as amended, at the collection `[bodyA, bodyB]` and its second body. -/
theorem tick_sequential_witness :
    (tick false [bodyA, bodyB])[1]?
      = some (bodyStep false (passPrefix false [bodyA, bodyB] 1) 1 bodyB) ∧
    (passPrefix false [bodyA, bodyB] 1)[0]? = (tick false [bodyA, bodyB])[0]? := by
  have h := tick_sequential false [bodyA, bodyB] 1 bodyB rfl
  exact ⟨h.1, h.2.1 0 (by norm_num)⟩

/-- An unpaused tick of two non-initializing, non-colliding bodies with finite
state and non-zero masses: the first body is updated from the start
positions, the second from the advanced position `(X1, Y1, Z1)` of the first. -/
theorem two_body_tick_fin (o1 o2 : Object)
    (x1 y1 z1 x2 y2 z2 u1 v1 w1 u2 v2 w2 m1 m2 r U1 V1 W1 X1 Y1 Z1 r1 : ℝ)
    (hi1 : o1.Initalizing = false) (hi2 : o2.Initalizing = false)
    (hp1 : o1.position = Vec3.ofReal x1 y1 z1) (hp2 : o2.position = Vec3.ofReal x2 y2 z2)
    (hv1 : o1.velocity = Vec3.ofReal u1 v1 w1) (hv2 : o2.velocity = Vec3.ofReal u2 v2 w2)
    (hm1 : o1.mass = fin m1) (hm2 : o2.mass = fin m2) (h1 : m1 ≠ 0) (h2 : m2 ≠ 0)
    (hr : r = Real.sqrt ((x2 - x1) * (x2 - x1) + (y2 - y1) * (y2 - y1) + (z2 - z1) * (z2 - z1)))
    (hpos : 0 < r)
    (hU1 : U1 = u1 + (x2 - x1) / r * (6.6743e-11 * m2 / (1000 * r) ^ 2) / 96)
    (hV1 : V1 = v1 + (y2 - y1) / r * (6.6743e-11 * m2 / (1000 * r) ^ 2) / 96)
    (hW1 : W1 = w1 + (z2 - z1) / r * (6.6743e-11 * m2 / (1000 * r) ^ 2) / 96)
    (hX1 : X1 = x1 + U1 / 94) (hY1 : Y1 = y1 + V1 / 94) (hZ1 : Z1 = z1 + W1 / 94)
    (hr1 : r1
      = Real.sqrt ((X1 - x2) * (X1 - x2) + (Y1 - y2) * (Y1 - y2) + (Z1 - z2) * (Z1 - z2)))
    (hpos1 : 0 < r1)
    (hnc1 : o1.CheckCollision o2 = fin 1)
    (hnc2 : o2.CheckCollision
        ⟨Vec3.ofReal X1 Y1 Z1, Vec3.ofReal U1 V1 W1, false, o1.mass, o1.density,
          radiusExpr o1.mass o1.density⟩ = fin 1) :
    tick false [o1, o2]
      = [⟨Vec3.ofReal X1 Y1 Z1, Vec3.ofReal U1 V1 W1, false, o1.mass, o1.density,
            radiusExpr o1.mass o1.density⟩,
         ⟨Vec3.ofReal
            (x2 + (u2 + (X1 - x2) / r1 * (6.6743e-11 * m1 / (1000 * r1) ^ 2) / 96) / 94)
            (y2 + (v2 + (Y1 - y2) / r1 * (6.6743e-11 * m1 / (1000 * r1) ^ 2) / 96) / 94)
            (z2 + (w2 + (Z1 - z2) / r1 * (6.6743e-11 * m1 / (1000 * r1) ^ 2) / 96) / 94),
          Vec3.ofReal
            (u2 + (X1 - x2) / r1 * (6.6743e-11 * m1 / (1000 * r1) ^ 2) / 96)
            (v2 + (Y1 - y2) / r1 * (6.6743e-11 * m1 / (1000 * r1) ^ 2) / 96)
            (w2 + (Z1 - z2) / r1 * (6.6743e-11 * m1 / (1000 * r1) ^ 2) / 96),
          false, o2.mass, o2.density, radiusExpr o2.mass o2.density⟩] := by
  have e1 : bodyStep false [o1, o2] 0 o1
      = ⟨Vec3.ofReal X1 Y1 Z1, Vec3.ofReal U1 V1 W1, false, o1.mass, o1.density,
          radiusExpr o1.mass o1.density⟩ := by
    rw [bodyStep_two_first o1 o2 o1 hi1,
      pairStep_UpdatePos_fin o1 o2 x1 y1 z1 x2 y2 z2 u1 v1 w1 m1 m2 r hi1 hi2 hp1 hp2 hv1 hm1 hm2
        h1 hr hpos hnc1, ← hU1, ← hV1, ← hW1, ← hX1, ← hY1, ← hZ1]
  rw [tick_two, e1, bodyStep_two_second _ o2 o2 hi2,
    pairStep_UpdatePos_fin o2
      ⟨Vec3.ofReal X1 Y1 Z1, Vec3.ofReal U1 V1 W1, false, o1.mass, o1.density,
        radiusExpr o1.mass o1.density⟩
      x2 y2 z2 X1 Y1 Z1 u2 v2 w2 m2 m1 r1 hi2 rfl hp2 rfl hv2 hm2 hm1 h2 hr1 hpos1 hnc2]

/-! ## Two bodies on a line: `bodyA` and `bodyD` -/

theorem bodyD_radius : bodyD.radius = fin 1 := radiusExpr_unit

theorem advU_bounds : 1 < advU ∧ advU < 2 := by
  constructor <;> norm_num [advU]

theorem advX_bounds : 0 < advX ∧ advX < 1 := by
  obtain ⟨h1, h2⟩ := advU_bounds
  constructor
  · rw [advX]
    positivity
  · rw [advX, zero_add, div_lt_one (by norm_num)]
    linarith

theorem sqrt_axis (a : ℝ) (ha : 0 ≤ a) :
    Real.sqrt (a * a + (0 - 0) * (0 - 0) + (0 - 0) * (0 - 0)) = a := by
  rw [show a * a + (0 - 0) * (0 - 0) + (0 - 0) * (0 - 0) = a ^ 2 by ring]
  exact Real.sqrt_sq ha

theorem sqrt_axis_neg (a : ℝ) (ha : a ≤ 0) :
    Real.sqrt (a * a + (0 - 0) * (0 - 0) + (0 - 0) * (0 - 0)) = -a := by
  rw [show a * a + (0 - 0) * (0 - 0) + (0 - 0) * (0 - 0) = (-a) ^ 2 by ring]
  exact Real.sqrt_sq (by linarith)

theorem bodyA_bodyD_no_collision : bodyA.CheckCollision bodyD = fin 1 := by
  rw [CheckCollision_ofReal bodyA bodyD 0 0 0 5 0 0 1 1 rfl rfl bodyA_radius bodyD_radius,
    sqrt_axis (5 - 0) (by norm_num)]
  norm_num

theorem bodyD_bodyA_no_collision : bodyD.CheckCollision bodyA = fin 1 := by
  rw [CheckCollision_ofReal bodyD bodyA 5 0 0 0 0 0 1 1 rfl rfl bodyD_radius bodyA_radius,
    sqrt_axis_neg (0 - 5) (by norm_num)]
  norm_num

theorem bodyD_advanced_no_collision :
    bodyD.CheckCollision
      ⟨Vec3.ofReal advX 0 0, Vec3.ofReal advU 0 0, false, bodyA.mass, bodyA.density,
        radiusExpr bodyA.mass bodyA.density⟩ = fin 1 := by
  obtain ⟨h1, h2⟩ := advX_bounds
  rw [CheckCollision_ofReal bodyD _ 5 0 0 advX 0 0 1 1 rfl rfl bodyD_radius radiusExpr_unit,
    sqrt_axis_neg (advX - 5) (by linarith)]
  rw [if_neg (by linarith)]

/-- The unpaused tick of `[bodyA, bodyD]`: `bodyD` is accelerated towards the
advanced position `advX` of `bodyA`, at distance `5 - advX`. -/
theorem tick_bodyA_bodyD :
    tick false [bodyA, bodyD]
      = [⟨Vec3.ofReal advX 0 0, Vec3.ofReal advU 0 0, false, bodyA.mass, bodyA.density,
            radiusExpr bodyA.mass bodyA.density⟩,
         ⟨Vec3.ofReal
            (5 + (0 + (advX - 5) / (5 - advX)
              * (6.6743e-11 * (4 * 3.14159265359 * 30000 ^ 3) / (1000 * (5 - advX)) ^ 2)
                / 96) / 94)
            (0 + (0 + (0 - 0) / (5 - advX)
              * (6.6743e-11 * (4 * 3.14159265359 * 30000 ^ 3) / (1000 * (5 - advX)) ^ 2)
                / 96) / 94)
            (0 + (0 + (0 - 0) / (5 - advX)
              * (6.6743e-11 * (4 * 3.14159265359 * 30000 ^ 3) / (1000 * (5 - advX)) ^ 2)
                / 96) / 94),
          Vec3.ofReal
            (0 + (advX - 5) / (5 - advX)
              * (6.6743e-11 * (4 * 3.14159265359 * 30000 ^ 3) / (1000 * (5 - advX)) ^ 2) / 96)
            (0 + (0 - 0) / (5 - advX)
              * (6.6743e-11 * (4 * 3.14159265359 * 30000 ^ 3) / (1000 * (5 - advX)) ^ 2) / 96)
            (0 + (0 - 0) / (5 - advX)
              * (6.6743e-11 * (4 * 3.14159265359 * 30000 ^ 3) / (1000 * (5 - advX)) ^ 2) / 96),
          false, bodyD.mass, bodyD.density, radiusExpr bodyD.mass bodyD.density⟩] := by
  obtain ⟨h1, h2⟩ := advX_bounds
  exact two_body_tick_fin bodyA bodyD 0 0 0 5 0 0 1 0 0 0 0 0
    (4 * 3.14159265359 * 30000 ^ 3) (4 * 3.14159265359 * 30000 ^ 3) 5 advU 0 0 advX 0 0
    (5 - advX) rfl rfl rfl rfl rfl rfl rfl rfl (by norm_num) (by norm_num)
    (by rw [sqrt_axis (5 - 0) (by norm_num)]; norm_num) (by norm_num) rfl (by norm_num)
    (by norm_num) rfl
    (by norm_num) (by norm_num)
    (by rw [sqrt_axis_neg (advX - 5) (by linarith)]; ring) (by linarith)
    bodyA_bodyD_no_collision bodyD_advanced_no_collision

/-- The pull on `bodyD` computed at the advanced position of `bodyA` is
stronger than the pull computed at its start position. -/
theorem advanced_pull_lt :
    (advX - 5) / (5 - advX)
        * (6.6743e-11 * (4 * 3.14159265359 * 30000 ^ 3) / (1000 * (5 - advX)) ^ 2)
      < (0 - 5) / 5 * (6.6743e-11 * (4 * 3.14159265359 * 30000 ^ 3) / (1000 * 5) ^ 2) := by
  obtain ⟨h1, h2⟩ := advX_bounds
  have ht : (5 - advX) ≠ 0 := by linarith
  have e1 : (advX - 5) / (5 - advX) = -1 := by
    rw [div_eq_iff ht]
    ring
  have e2 : ((0 : ℝ) - 5) / 5 = -1 := by norm_num
  have hc0 : (0 : ℝ) < 6.6743e-11 * (4 * 3.14159265359 * 30000 ^ 3) := by norm_num
  have hsq : (1000 * (5 - advX)) ^ 2 < ((1000 : ℝ) * 5) ^ 2 := by nlinarith
  have hpos : (0 : ℝ) < (1000 * (5 - advX)) ^ 2 := by
    have : 0 < 1000 * (5 - advX) := by linarith
    positivity
  have hlt := div_lt_div_of_pos_left hc0 hpos hsq
  rw [e1, e2]
  linarith

theorem phaseOrdered_bodyD :
    bodyStep false [bodyA, bodyD] 1 bodyD
      = ⟨Vec3.ofReal
          (5 + (0 + (0 - 5) / 5
            * (6.6743e-11 * (4 * 3.14159265359 * 30000 ^ 3) / (1000 * 5) ^ 2) / 96) / 94)
          (0 + (0 + (0 - 0) / 5
            * (6.6743e-11 * (4 * 3.14159265359 * 30000 ^ 3) / (1000 * 5) ^ 2) / 96) / 94)
          (0 + (0 + (0 - 0) / 5
            * (6.6743e-11 * (4 * 3.14159265359 * 30000 ^ 3) / (1000 * 5) ^ 2) / 96) / 94),
        Vec3.ofReal
          (0 + (0 - 5) / 5
            * (6.6743e-11 * (4 * 3.14159265359 * 30000 ^ 3) / (1000 * 5) ^ 2) / 96)
          (0 + (0 - 0) / 5
            * (6.6743e-11 * (4 * 3.14159265359 * 30000 ^ 3) / (1000 * 5) ^ 2) / 96)
          (0 + (0 - 0) / 5
            * (6.6743e-11 * (4 * 3.14159265359 * 30000 ^ 3) / (1000 * 5) ^ 2) / 96),
        false, bodyD.mass, bodyD.density, radiusExpr bodyD.mass bodyD.density⟩ := by
  rw [bodyStep_two_second bodyA bodyD bodyD rfl]
  exact pairStep_UpdatePos_fin bodyD bodyA 5 0 0 0 0 0 0 0 0
    (4 * 3.14159265359 * 30000 ^ 3) (4 * 3.14159265359 * 30000 ^ 3) 5 rfl rfl rfl rfl rfl rfl
    rfl (by norm_num) (by rw [sqrt_axis_neg (0 - 5) (by norm_num)]; norm_num) (by norm_num)
    bodyD_bodyA_no_collision

/-- C16 fails for `bodyA` (velocity `(1, 0, 0)`) and `bodyD`, five units
apart: in the tick of the code the `x` velocity of `bodyD` is computed from
the advanced position `advX > 0` of `bodyA`, at distance `5 - advX`, whereas
phase-ordered it is computed at distance 5; the two ticks differ. -/
theorem tick_not_phase_ordered :
    tick false [bodyA, bodyD] ≠ tickPhaseOrdered false [bodyA, bodyD] ∧
    (tick false [bodyA, bodyD])[1]?.map (fun o => o.velocity.x)
      = some (fin (0 + (advX - 5) / (5 - advX)
          * (6.6743e-11 * (4 * 3.14159265359 * 30000 ^ 3) / (1000 * (5 - advX)) ^ 2) / 96)) ∧
    (tickPhaseOrdered false [bodyA, bodyD])[1]?.map (fun o => o.velocity.x)
      = some (fin (0 + (0 - 5) / 5
          * (6.6743e-11 * (4 * 3.14159265359 * 30000 ^ 3) / (1000 * 5) ^ 2) / 96)) ∧
    0 < advX := by
  have ht : (tick false [bodyA, bodyD])[1]?.map (fun o => o.velocity.x)
      = some (fin (0 + (advX - 5) / (5 - advX)
          * (6.6743e-11 * (4 * 3.14159265359 * 30000 ^ 3) / (1000 * (5 - advX)) ^ 2) / 96)) := by
    rw [tick_bodyA_bodyD]
    rfl
  have hp : (tickPhaseOrdered false [bodyA, bodyD])[1]?.map (fun o => o.velocity.x)
      = some (fin (0 + (0 - 5) / 5
          * (6.6743e-11 * (4 * 3.14159265359 * 30000 ^ 3) / (1000 * 5) ^ 2) / 96)) := by
    rw [tickPhaseOrdered_two, phaseOrdered_bodyD]
    rfl
  refine ⟨?_, ht, hp, advX_bounds.1⟩
  intro h
  rw [h, hp] at ht
  have e := (fin_inj _ _).mp (Option.some.inj ht)
  have hlt := advanced_pull_lt
  linarith

theorem totalMomentum_two_fin (o1 o2 : Object) (u1 v1 w1 u2 v2 w2 m1 m2 : ℝ)
    (hv1 : o1.velocity = Vec3.ofReal u1 v1 w1) (hv2 : o2.velocity = Vec3.ofReal u2 v2 w2)
    (hm1 : o1.mass = fin m1) (hm2 : o2.mass = fin m2) :
    totalMomentum [o1, o2]
      = Vec3.ofReal (0 + u1 * m1 + u2 * m2) (0 + v1 * m1 + v2 * m2) (0 + w1 * m1 + w2 * m2) := by
  simp only [totalMomentum, List.map_cons, List.map_nil, List.foldl_cons, List.foldl_nil, hv1,
    hv2, hm1, hm2, Vec3.scale, Vec3.add, Vec3.zero, Vec3.ofReal, fin_mul_fin, fin_add_fin]

/-- C12 fails for `bodyA` (velocity `(1, 0, 0)`) and `bodyD` (at rest), which
have the same positive mass and do not collide: the `x` component of the
total momentum is smaller after one unpaused tick than before it. -/
theorem momentum_not_conserved :
    totalMomentum (tick false [bodyA, bodyD]) ≠ totalMomentum [bodyA, bodyD] ∧
    ∃ p q : ℝ, (totalMomentum [bodyA, bodyD]).x = fin p ∧
      (totalMomentum (tick false [bodyA, bodyD])).x = fin q ∧ q < p := by
  have hb := totalMomentum_two_fin bodyA bodyD 1 0 0 0 0 0 (4 * 3.14159265359 * 30000 ^ 3)
    (4 * 3.14159265359 * 30000 ^ 3) rfl rfl rfl rfl
  have ha : totalMomentum (tick false [bodyA, bodyD])
      = Vec3.ofReal
          (0 + advU * (4 * 3.14159265359 * 30000 ^ 3)
            + (0 + (advX - 5) / (5 - advX)
                * (6.6743e-11 * (4 * 3.14159265359 * 30000 ^ 3) / (1000 * (5 - advX)) ^ 2)
                  / 96)
              * (4 * 3.14159265359 * 30000 ^ 3))
          (0 + 0 * (4 * 3.14159265359 * 30000 ^ 3)
            + (0 + (0 - 0) / (5 - advX)
                * (6.6743e-11 * (4 * 3.14159265359 * 30000 ^ 3) / (1000 * (5 - advX)) ^ 2)
                  / 96)
              * (4 * 3.14159265359 * 30000 ^ 3))
          (0 + 0 * (4 * 3.14159265359 * 30000 ^ 3)
            + (0 + (0 - 0) / (5 - advX)
                * (6.6743e-11 * (4 * 3.14159265359 * 30000 ^ 3) / (1000 * (5 - advX)) ^ 2)
                  / 96)
              * (4 * 3.14159265359 * 30000 ^ 3)) := by
    rw [tick_bodyA_bodyD]
    exact totalMomentum_two_fin _ _ _ _ _ _ _ _ _ _ rfl rfl rfl rfl
  have hlt : 0 + advU * (4 * 3.14159265359 * 30000 ^ 3)
      + (0 + (advX - 5) / (5 - advX)
          * (6.6743e-11 * (4 * 3.14159265359 * 30000 ^ 3) / (1000 * (5 - advX)) ^ 2) / 96)
        * (4 * 3.14159265359 * 30000 ^ 3)
      < 0 + 1 * (4 * 3.14159265359 * 30000 ^ 3) + 0 * (4 * 3.14159265359 * 30000 ^ 3) := by
    have hM : (0 : ℝ) < 4 * 3.14159265359 * 30000 ^ 3 := by norm_num
    have hpull := advanced_pull_lt
    have hU : advU = 1 + (5 - 0) / 5
        * (6.6743e-11 * (4 * 3.14159265359 * 30000 ^ 3) / (1000 * 5) ^ 2) / 96 := rfl
    have e5 : ((5 : ℝ) - 0) / 5 = 1 := by norm_num
    have e0 : ((0 : ℝ) - 5) / 5 = -1 := by norm_num
    rw [e0] at hpull
    rw [e5] at hU
    have hsum : advU + (0 + (advX - 5) / (5 - advX)
        * (6.6743e-11 * (4 * 3.14159265359 * 30000 ^ 3) / (1000 * (5 - advX)) ^ 2) / 96)
        < 1 := by
      rw [hU]
      linarith
    nlinarith
  refine ⟨?_, _, _, by rw [hb]; rfl, by rw [ha]; rfl, hlt⟩
  intro h
  rw [ha, hb] at h
  have hx := congrArg Vec3.x h
  simp only [Vec3.ofReal, fin_inj] at hx
  linarith

theorem drift_component (a1 a2 A1 u1 u2 m1 m2 r r1 U1 : ℝ) (hr : r ≠ 0) (hr1 : r1 ≠ 0)
    (hU1 : U1 = u1 + (a2 - a1) / r * (6.6743e-11 * m2 / (1000 * r) ^ 2) / 96) :
    0 + U1 * m1 + (u2 + (A1 - a2) / r1 * (6.6743e-11 * m1 / (1000 * r1) ^ 2) / 96) * m2
      = m1 * u1 + m2 * u2
        + 6.6743e-11 * m1 * m2 / (96 * 1000 ^ 2) * ((a2 - a1) / r ^ 3 - (a2 - A1) / r1 ^ 3) := by
  rw [hU1]
  field_simp
  ring

/-- C12 as amended: for two non-initializing bodies with finite state and
non-zero masses `m1`, `m2`, at distance `r > 0`, that do not collide, one
unpaused tick changes the total momentum `m1*v1 + m2*v2` by
`(G*m1*m2 / (96 * 1000^2)) * ((p2 - p1) / r^3 - (p2 - P1) / r1^3)` in each
component, where `P1 = p1 + V1 / 94` is the position the first body has after
its own update (`V1` its updated velocity) and `r1 = |P1 - p2| > 0` the
distance at which the second body is then accelerated. -/
theorem two_body_momentum_drift (o1 o2 : Object)
    (x1 y1 z1 x2 y2 z2 u1 v1 w1 u2 v2 w2 m1 m2 r U1 V1 W1 X1 Y1 Z1 r1 : ℝ)
    (hi1 : o1.Initalizing = false) (hi2 : o2.Initalizing = false)
    (hp1 : o1.position = Vec3.ofReal x1 y1 z1) (hp2 : o2.position = Vec3.ofReal x2 y2 z2)
    (hv1 : o1.velocity = Vec3.ofReal u1 v1 w1) (hv2 : o2.velocity = Vec3.ofReal u2 v2 w2)
    (hm1 : o1.mass = fin m1) (hm2 : o2.mass = fin m2) (h1 : m1 ≠ 0) (h2 : m2 ≠ 0)
    (hr : r = Real.sqrt ((x2 - x1) * (x2 - x1) + (y2 - y1) * (y2 - y1) + (z2 - z1) * (z2 - z1)))
    (hpos : 0 < r)
    (hU1 : U1 = u1 + (x2 - x1) / r * (6.6743e-11 * m2 / (1000 * r) ^ 2) / 96)
    (hV1 : V1 = v1 + (y2 - y1) / r * (6.6743e-11 * m2 / (1000 * r) ^ 2) / 96)
    (hW1 : W1 = w1 + (z2 - z1) / r * (6.6743e-11 * m2 / (1000 * r) ^ 2) / 96)
    (hX1 : X1 = x1 + U1 / 94) (hY1 : Y1 = y1 + V1 / 94) (hZ1 : Z1 = z1 + W1 / 94)
    (hr1 : r1
      = Real.sqrt ((X1 - x2) * (X1 - x2) + (Y1 - y2) * (Y1 - y2) + (Z1 - z2) * (Z1 - z2)))
    (hpos1 : 0 < r1)
    (hnc1 : o1.CheckCollision o2 = fin 1)
    (hnc2 : o2.CheckCollision
        ⟨Vec3.ofReal X1 Y1 Z1, Vec3.ofReal U1 V1 W1, false, o1.mass, o1.density,
          radiusExpr o1.mass o1.density⟩ = fin 1) :
    totalMomentum [o1, o2]
      = Vec3.ofReal (m1 * u1 + m2 * u2) (m1 * v1 + m2 * v2) (m1 * w1 + m2 * w2) ∧
    totalMomentum (tick false [o1, o2])
      = Vec3.ofReal
          (m1 * u1 + m2 * u2
            + 6.6743e-11 * m1 * m2 / (96 * 1000 ^ 2) * ((x2 - x1) / r ^ 3 - (x2 - X1) / r1 ^ 3))
          (m1 * v1 + m2 * v2
            + 6.6743e-11 * m1 * m2 / (96 * 1000 ^ 2) * ((y2 - y1) / r ^ 3 - (y2 - Y1) / r1 ^ 3))
          (m1 * w1 + m2 * w2
            + 6.6743e-11 * m1 * m2 / (96 * 1000 ^ 2)
              * ((z2 - z1) / r ^ 3 - (z2 - Z1) / r1 ^ 3)) := by
  have hr0 : r ≠ 0 := ne_of_gt hpos
  have hr10 : r1 ≠ 0 := ne_of_gt hpos1
  constructor
  · rw [totalMomentum_two_fin o1 o2 u1 v1 w1 u2 v2 w2 m1 m2 hv1 hv2 hm1 hm2]
    congr 1 <;> ring
  · rw [two_body_tick_fin o1 o2 x1 y1 z1 x2 y2 z2 u1 v1 w1 u2 v2 w2 m1 m2 r U1 V1 W1 X1 Y1 Z1 r1
      hi1 hi2 hp1 hp2 hv1 hv2 hm1 hm2 h1 h2 hr hpos hU1 hV1 hW1 hX1 hY1 hZ1 hr1 hpos1 hnc1 hnc2]
    simp only [totalMomentum, List.map_cons, List.map_nil, List.foldl_cons, List.foldl_nil, hm1,
      hm2, Vec3.scale, Vec3.add, Vec3.zero, Vec3.ofReal, fin_mul_fin, fin_add_fin]
    rw [drift_component x1 x2 X1 u1 u2 m1 m2 r r1 U1 hr0 hr10 hU1,
      drift_component y1 y2 Y1 v1 v2 m1 m2 r r1 V1 hr0 hr10 hV1,
      drift_component z1 z2 Z1 w1 w2 m1 m2 r r1 W1 hr0 hr10 hW1]

/-- C12 as amended, at `bodyA` and `bodyD`: the `x` momentum after the tick
is the momentum before it plus the drift term, with the first body advanced
to `advX`. -/
theorem two_body_momentum_drift_witness :
    totalMomentum (tick false [bodyA, bodyD])
      = Vec3.ofReal
          ((4 * 3.14159265359 * 30000 ^ 3) * 1 + (4 * 3.14159265359 * 30000 ^ 3) * 0
            + 6.6743e-11 * (4 * 3.14159265359 * 30000 ^ 3) * (4 * 3.14159265359 * 30000 ^ 3)
                / (96 * 1000 ^ 2) * ((5 - 0) / 5 ^ 3 - (5 - advX) / (5 - advX) ^ 3))
          ((4 * 3.14159265359 * 30000 ^ 3) * 0 + (4 * 3.14159265359 * 30000 ^ 3) * 0
            + 6.6743e-11 * (4 * 3.14159265359 * 30000 ^ 3) * (4 * 3.14159265359 * 30000 ^ 3)
                / (96 * 1000 ^ 2) * ((0 - 0) / 5 ^ 3 - (0 - 0) / (5 - advX) ^ 3))
          ((4 * 3.14159265359 * 30000 ^ 3) * 0 + (4 * 3.14159265359 * 30000 ^ 3) * 0
            + 6.6743e-11 * (4 * 3.14159265359 * 30000 ^ 3) * (4 * 3.14159265359 * 30000 ^ 3)
                / (96 * 1000 ^ 2) * ((0 - 0) / 5 ^ 3 - (0 - 0) / (5 - advX) ^ 3)) :=
  (two_body_momentum_drift bodyA bodyD 0 0 0 5 0 0 1 0 0 0 0 0
    (4 * 3.14159265359 * 30000 ^ 3) (4 * 3.14159265359 * 30000 ^ 3) 5 advU 0 0 advX 0 0
    (5 - advX) rfl rfl rfl rfl rfl rfl rfl rfl (by norm_num) (by norm_num)
    (by rw [sqrt_axis (5 - 0) (by norm_num)]; norm_num) (by norm_num) rfl (by norm_num)
    (by norm_num) rfl (by norm_num) (by norm_num)
    (by rw [sqrt_axis_neg (advX - 5) (by linarith [advX_bounds.2])]; ring)
    (by linarith [advX_bounds.2])
    bodyA_bodyD_no_collision bodyD_advanced_no_collision).2

/-! ## Symmetry of the collision test -/

theorem CFloat.add_comm_all (a b : CFloat) : a + b = b + a := by
  cases a <;> cases b <;> simp [add_def, CFloat.add, add_comm]

/-- The square of a difference does not depend on the order of the operands,
on the special values too. -/
theorem CFloat.sub_mul_self_comm (p q : CFloat) : (p - q) * (p - q) = (q - p) * (q - p) := by
  cases p <;> cases q <;>
    first
    | (simp only [fin_sub_fin, fin_mul_fin, fin_inj]; ring)
    | simp [CFloat.sub_def, mul_def, CFloat.add, CFloat.neg, CFloat.mul]

theorem collisionDistance_comm (a b : Object) :
    a.collisionDistance b = b.collisionDistance a := by
  simp only [Object.collisionDistance]
  rw [CFloat.sub_mul_self_comm b.position.x, CFloat.sub_mul_self_comm b.position.y,
    CFloat.sub_mul_self_comm b.position.z]

/-- C21: for every two objects `a` and `b` (whatever their field values, the
special values included), `a.CheckCollision(b) = b.CheckCollision(a)`. -/
theorem CheckCollision_comm (a b : Object) : a.CheckCollision b = b.CheckCollision a := by
  simp only [Object.CheckCollision, collisionDistance_comm a b,
    CFloat.add_comm_all b.radius a.radius]

/-! ## The constructed lattice -/

theorem roundEven_intCast (z : Int) : roundEven (z : ℚ) = z := by
  simp [roundEven]

theorem roundEven_err (x : ℚ) : |(roundEven x : ℚ) - x| ≤ 1 / 2 := by
  have h1 := Int.floor_le x
  have h2 := Int.lt_floor_add_one x
  unfold roundEven
  split_ifs with ha hb hc
  · rw [abs_le]; constructor <;> linarith
  · push_cast; rw [abs_le]; constructor <;> linarith
  · rw [abs_le]; constructor <;> linarith
  · push_cast; rw [abs_le]; constructor <;> linarith

theorem roundEven_eq_of_lt (x : ℚ) (n : Int) (h : |x - n| < 1 / 2) : roundEven x = n := by
  rw [abs_lt] at h
  obtain ⟨h1, h2⟩ := h
  unfold roundEven
  by_cases hx : (n : ℚ) ≤ x
  · have hf : ⌊x⌋ = n := by
      rw [Int.floor_eq_iff]
      constructor <;> linarith
    rw [hf, if_pos (by linarith)]
  · have hf : ⌊x⌋ = n - 1 := by
      rw [Int.floor_eq_iff]
      push_cast
      constructor <;> linarith
    have hx1 : x < n := not_le.mp hx
    rw [hf]
    push_cast
    rw [if_neg (by linarith), if_pos (by linarith)]
    ring

theorem ulp32_pos (q : ℚ) : 0 < ulp32 q := by
  unfold ulp32
  positivity

theorem ulp32_le (q : ℚ) (hq : q ≠ 0) : ulp32 q ≤ |q| / 2 ^ 23 := by
  have h := Int.zpow_log_le_self (b := 2) (r := |q|) (by norm_num) (abs_pos.mpr hq)
  unfold ulp32
  rw [zpow_sub₀ (by norm_num : (2 : ℚ) ≠ 0)]
  have e : ((2 : ℕ) : ℚ) = 2 := by norm_num
  rw [e] at h
  have e2 : (2 : ℚ) ^ (23 : Int) = 2 ^ 23 := by norm_num
  rw [e2]
  exact div_le_div_of_nonneg_right h (by positivity)

/-- The relative error of a rounding is at most `2^-24`. -/
theorem round32_err (q : ℚ) : |round32 q - q| ≤ |q| / 2 ^ 24 := by
  unfold round32
  split_ifs with h0
  · rw [h0]; simp
  · have hp := ulp32_pos q
    have hle := ulp32_le q h0
    have he := roundEven_err (q / ulp32 q)
    have e : (roundEven (q / ulp32 q) : ℚ) * ulp32 q - q
        = ((roundEven (q / ulp32 q) : ℚ) - q / ulp32 q) * ulp32 q := by
      field_simp
    rw [e, abs_mul, abs_of_pos hp]
    have h3 : |(roundEven (q / ulp32 q) : ℚ) - q / ulp32 q| * ulp32 q ≤ 1 / 2 * ulp32 q :=
      mul_le_mul_of_nonneg_right he hp.le
    have h4 : 1 / 2 * ulp32 q ≤ 1 / 2 * (|q| / 2 ^ 23) := by linarith
    have h5 : (1 : ℚ) / 2 * (|q| / 2 ^ 23) = |q| / 2 ^ 24 := by ring
    linarith

theorem log_eq_of_bounds (q : ℚ) (e : Int) (h1 : (2 : ℚ) ^ e ≤ |q|) (h2 : |q| < (2 : ℚ) ^ (e + 1)) :
    Int.log 2 |q| = e := by
  have hpos : 0 < |q| := lt_of_lt_of_le (by positivity) h1
  have a1 : e ≤ Int.log 2 |q| := by
    rw [← Int.zpow_le_iff_le_log (by norm_num) hpos]
    exact_mod_cast h1
  have a2 : Int.log 2 |q| < e + 1 := by
    rw [← Int.lt_zpow_iff_log_lt (by norm_num) hpos]
    exact_mod_cast h2
  omega

/-- Evaluation of a rounding: -/
theorem round32_eq (q : ℚ) (e n : Int) (h1 : (2 : ℚ) ^ e ≤ |q|) (h2 : |q| < (2 : ℚ) ^ (e + 1))
    (h3 : |q / (2 : ℚ) ^ (e - 23) - n| < 1 / 2) : round32 q = n * (2 : ℚ) ^ (e - 23) := by
  have hq : q ≠ 0 := by
    intro h
    rw [h, abs_zero] at h1
    have : (0 : ℚ) < 2 ^ e := by positivity
    linarith
  have hu : ulp32 q = (2 : ℚ) ^ (e - 23) := by
    unfold ulp32
    rw [log_eq_of_bounds q e h1 h2]
  rw [round32, if_neg hq, hu, roundEven_eq_of_lt _ n h3]

/-- Evaluation of the rounding of a positive value. -/
theorem round32_eq_pos (q : ℚ) (e n : Int) (h1 : (2 : ℚ) ^ e ≤ q) (h2 : q < (2 : ℚ) ^ (e + 1))
    (h3 : (n : ℚ) - 1 / 2 < q / (2 : ℚ) ^ (e - 23)) (h4 : q / (2 : ℚ) ^ (e - 23) < n + 1 / 2) :
    round32 q = n * (2 : ℚ) ^ (e - 23) := by
  have hq : 0 < q := lt_of_lt_of_le (by positivity) h1
  apply round32_eq q e n
  · rwa [abs_of_pos hq]
  · rwa [abs_of_pos hq]
  · rw [abs_lt]
    constructor <;> linarith

/-- An integer below `2^24` in absolute value is a binary32 value. -/
theorem round32_intCast (n : Int) (h : |n| < 2 ^ 24) : round32 (n : ℚ) = n := by
  by_cases h0 : n = 0
  · rw [h0]; simp [round32]
  · have hq : (n : ℚ) ≠ 0 := by exact_mod_cast h0
    have hpos : (0 : ℚ) < |(n : ℚ)| := abs_pos.mpr hq
    have hge : (1 : ℚ) ≤ |(n : ℚ)| := by
      have : (1 : Int) ≤ |n| := Int.one_le_abs h0
      exact_mod_cast this
    have hlt : |(n : ℚ)| < 2 ^ 24 := by exact_mod_cast h
    have a1 : (0 : Int) ≤ Int.log 2 |(n : ℚ)| := by
      rw [← Int.zpow_le_iff_le_log (by norm_num) hpos]
      simpa using hge
    have a2 : Int.log 2 |(n : ℚ)| < 24 := by
      rw [← Int.lt_zpow_iff_log_lt (by norm_num) hpos]
      have : ((2 : ℕ) : ℚ) ^ (24 : Int) = 2 ^ 24 := by norm_num
      rw [this]
      exact hlt
    obtain ⟨j, hj⟩ : ∃ j : Nat, Int.log 2 |(n : ℚ)| - 23 = -(j : Int) :=
      ⟨(23 - Int.log 2 |(n : ℚ)|).toNat, by omega⟩
    have hu : ulp32 (n : ℚ) = ((2 : ℚ) ^ j)⁻¹ := by
      unfold ulp32
      rw [hj, zpow_neg, zpow_natCast]
    have hx : (n : ℚ) / ulp32 (n : ℚ) = ((n * 2 ^ j : Int) : ℚ) := by
      rw [hu, div_inv_eq_mul]
      push_cast
      ring
    rw [round32, if_neg hq, hx, roundEven_intCast, ← hx]
    have hp := ulp32_pos (n : ℚ)
    field_simp

theorem flatQ_append (l1 l2 : List (ℚ × ℚ × ℚ)) :
    flatQ (l1 ++ l2) = flatQ l1 ++ flatQ l2 := by
  induction l1 with
  | nil => rfl
  | cons v rest ih => simp [flatQ, ih]

theorem flatQ_flatMap {α : Type} (l : List α) (f : α → List (ℚ × ℚ × ℚ)) :
    flatQ (l.flatMap f) = l.flatMap fun a => flatQ (f a) := by
  induction l with
  | nil => rfl
  | cons a rest ih => rw [List.flatMap_cons, List.flatMap_cons, flatQ_append, ih]

theorem flatQ_length (vs : List (ℚ × ℚ × ℚ)) : (flatQ vs).length = 3 * vs.length := by
  induction vs with
  | nil => rfl
  | cons v rest ih =>
    rw [flatQ, List.length_cons, List.length_cons, List.length_cons, ih, List.length_cons]
    ring

theorem length_flatMap_const {α β : Type} (l : List α) (f : α → List β) (n : Nat)
    (h : ∀ a, (f a).length = n) : (l.flatMap f).length = l.length * n := by
  induction l with
  | nil => simp
  | cons a rest ih =>
    rw [List.flatMap_cons, List.length_append, ih, h a, List.length_cons]
    ring

theorem gridVertices_length (s : ℚ) (d : Nat) :
    (gridVertices s d).length = 4 * d * (d + 1) ^ 2 := by
  have inner : ∀ (n : Nat) (f : Nat → List (ℚ × ℚ × ℚ)), (∀ k, (f k).length = 2) →
      ((List.range n).flatMap f).length = n * 2 := by
    intro n f hf
    rw [length_flatMap_const _ f 2 hf, List.length_range]
  have mid : ∀ (f : Nat → Nat → List (ℚ × ℚ × ℚ)), (∀ j k, (f j k).length = 2) →
      ((List.range (d + 1)).flatMap fun j => (List.range d).flatMap (f j)).length
        = (d + 1) * (d * 2) := by
    intro f hf
    rw [length_flatMap_const _ _ (d * 2) (fun j => inner d (f j) (hf j)), List.length_range]
  have outer : ∀ (f : Nat → Nat → Nat → List (ℚ × ℚ × ℚ)), (∀ i j k, (f i j k).length = 2) →
      ((List.range (d + 1)).flatMap fun i =>
        (List.range (d + 1)).flatMap fun j => (List.range d).flatMap (f i j)).length
        = (d + 1) * ((d + 1) * (d * 2)) := by
    intro f hf
    rw [length_flatMap_const _ _ ((d + 1) * (d * 2)) (fun i => mid (f i) (hf i)),
      List.length_range]
  have h1 := outer (fun yStep zStep xStep =>
    [(gridLine s d xStep, gridLine s d yStep, gridLine s d zStep),
     (gridEnd s d xStep, gridLine s d yStep, gridLine s d zStep)])
    (fun _ _ _ => rfl)
  have h2 := outer (fun xStep yStep zStep =>
    [(gridLine s d xStep, gridLine s d yStep, gridLine s d zStep),
     (gridLine s d xStep, gridLine s d yStep, gridEnd s d zStep)])
    (fun _ _ _ => rfl)
  rw [gridVertices, List.length_append, h1, h2]
  ring

/-- For a division count `d ≥ 0` the array built by `CreateGridVertices` is
the flat array of the vertices `gridVertices`. -/
theorem CreateGridVertices_eq (s : ℚ) (d : Nat) (objs : List Object) :
    CreateGridVertices s (d : Int) objs = flatQ (gridVertices s d) := by
  have h1 : ((d : Int) + 1).toNat = d + 1 := by omega
  have h2 : (d : Int).toNat = d := by omega
  have hpair : ∀ a b : ℚ × ℚ × ℚ,
      flatQ [a, b] = [a.1, a.2.1, a.2.2, b.1, b.2.1, b.2.2] :=
    fun _ _ => rfl
  simp only [CreateGridVertices, gridVertices, flatQ_append, flatQ_flatMap, hpair, h1, h2,
    Int.cast_natCast, gridLine, gridEnd, gridStep]

theorem mem_gridVertices (s : ℚ) (d : Nat) (v : ℚ × ℚ × ℚ) (hv : v ∈ gridVertices s d) :
    (∃ i, (i ≤ d ∧ v.1 = gridLine s d i) ∨ (i < d ∧ v.1 = gridEnd s d i)) ∧
    (∃ j, j ≤ d ∧ v.2.1 = gridLine s d j) ∧
    (∃ k, (k ≤ d ∧ v.2.2 = gridLine s d k) ∨ (k < d ∧ v.2.2 = gridEnd s d k)) := by
  simp only [gridVertices, List.mem_append, List.mem_flatMap, List.mem_range, List.mem_cons,
    List.mem_singleton, List.not_mem_nil, or_false] at hv
  rcases hv with ⟨y, hy, z, hz, x, hx, rfl | rfl⟩ | ⟨x, hx, y, hy, z, hz, rfl | rfl⟩
  · exact ⟨⟨x, Or.inl ⟨by omega, rfl⟩⟩, ⟨y, by omega, rfl⟩, ⟨z, Or.inl ⟨by omega, rfl⟩⟩⟩
  · exact ⟨⟨x, Or.inr ⟨by omega, rfl⟩⟩, ⟨y, by omega, rfl⟩, ⟨z, Or.inl ⟨by omega, rfl⟩⟩⟩
  · exact ⟨⟨x, Or.inl ⟨by omega, rfl⟩⟩, ⟨y, by omega, rfl⟩, ⟨z, Or.inl ⟨by omega, rfl⟩⟩⟩
  · exact ⟨⟨x, Or.inl ⟨by omega, rfl⟩⟩, ⟨y, by omega, rfl⟩, ⟨z, Or.inr ⟨by omega, rfl⟩⟩⟩

theorem gridVertices_top_mem (s : ℚ) (d : Nat) (hd : 1 ≤ d) :
    (gridLine s d 0, gridLine s d d, gridLine s d 0) ∈ gridVertices s d := by
  simp only [gridVertices, List.mem_append, List.mem_flatMap, List.mem_range, List.mem_cons,
    List.mem_singleton, List.not_mem_nil, or_false]
  exact Or.inl ⟨d, by omega, 0, by omega, 0, by omega, Or.inl rfl⟩

theorem round32_natCast (k : Nat) (h : k < 2 ^ 24) : round32 (k : ℚ) = k := by
  have h1 : |(k : Int)| < 2 ^ 24 := by
    rw [abs_of_nonneg (Int.natCast_nonneg k)]
    exact_mod_cast h
  have h2 := round32_intCast (k : Int) h1
  rwa [Int.cast_natCast] at h2

theorem round32_nonneg_bounds (q : ℚ) (hq : 0 ≤ q) :
    q * (1 - 1 / 2 ^ 24) ≤ round32 q ∧ round32 q ≤ q * (1 + 1 / 2 ^ 24) := by
  have h := round32_err q
  rw [abs_of_nonneg hq, abs_le] at h
  constructor <;> linarith [h.1, h.2]

theorem round32_near (q M : ℚ) (h : |q| ≤ M) : q - M / 2 ^ 24 ≤ round32 q ∧ round32 q ≤ q + M / 2 ^ 24 := by
  have h1 := round32_err q
  rw [abs_le] at h1
  have h2 : |q| / 2 ^ 24 ≤ M / 2 ^ 24 := div_le_div_of_nonneg_right h (by positivity)
  constructor <;> linarith [h1.1, h1.2]

theorem round32_abs_le (q M : ℚ) (h : |q| ≤ M) : |round32 q| ≤ M * (1 + 1 / 2 ^ 24) := by
  obtain ⟨h1, h2⟩ := round32_near q M h
  rw [abs_le] at h ⊢
  constructor <;> linarith [h.1, h.2]

theorem gridStep_bounds (s : ℚ) (d : Nat) (hs : 0 < s) (hd : d < 2 ^ 24) :
    s / d * (1 - 1 / 2 ^ 24) ≤ gridStep s d ∧ gridStep s d ≤ s / d * (1 + 1 / 2 ^ 24) := by
  rw [gridStep, round32_natCast d hd]
  exact round32_nonneg_bounds _ (by positivity)

/-- The product `k * step` and its rounding, for a line `k ≤ d`. -/
theorem gridProduct_bounds (s : ℚ) (d k : Nat) (hs : 0 < s) (hd1 : 1 ≤ d) (hd : d < 2 ^ 24)
    (hk : k ≤ d) :
    (k : ℚ) * (s / d) * (1 - 1 / 2 ^ 24) ^ 2 ≤ round32 (round32 (k : ℚ) * gridStep s d) ∧
    round32 (round32 (k : ℚ) * gridStep s d) ≤ (k : ℚ) * gridStep s d * (1 + 1 / 2 ^ 24) ∧
    (k : ℚ) * gridStep s d ≤ s * (1 + 1 / 2 ^ 24) ∧ 0 ≤ gridStep s d := by
  obtain ⟨hlo, hhi⟩ := gridStep_bounds s d hs hd
  have hd0 : (0 : ℚ) < d := by exact_mod_cast hd1
  have hq : 0 < s / d := div_pos hs hd0
  have hk0 : (0 : ℚ) ≤ k := Nat.cast_nonneg k
  have hkd : (k : ℚ) ≤ d := by exact_mod_cast hk
  have hstep0 : 0 ≤ gridStep s d := by
    have : 0 ≤ s / d * (1 - 1 / 2 ^ 24) := mul_nonneg hq.le (by norm_num)
    linarith
  have hP0 : 0 ≤ (k : ℚ) * gridStep s d := mul_nonneg hk0 hstep0
  have hks : (k : ℚ) * (s / d) ≤ s := by
    have h1 : (k : ℚ) * (s / d) ≤ d * (s / d) := mul_le_mul_of_nonneg_right hkd hq.le
    have h2 : (d : ℚ) * (s / d) = s := by field_simp
    linarith
  have hP1 : (k : ℚ) * gridStep s d ≤ s * (1 + 1 / 2 ^ 24) := by
    have h1 : (k : ℚ) * gridStep s d ≤ k * (s / d * (1 + 1 / 2 ^ 24)) :=
      mul_le_mul_of_nonneg_left hhi hk0
    have h2 : (k : ℚ) * (s / d * (1 + 1 / 2 ^ 24)) = k * (s / d) * (1 + 1 / 2 ^ 24) := by ring
    have h3 : (k : ℚ) * (s / d) * (1 + 1 / 2 ^ 24) ≤ s * (1 + 1 / 2 ^ 24) :=
      mul_le_mul_of_nonneg_right hks (by norm_num)
    linarith
  have hP2 : (k : ℚ) * (s / d) * (1 - 1 / 2 ^ 24) ≤ k * gridStep s d := by
    have h1 : (k : ℚ) * (s / d * (1 - 1 / 2 ^ 24)) ≤ k * gridStep s d :=
      mul_le_mul_of_nonneg_left hlo hk0
    linarith
  rw [round32_natCast k (lt_of_le_of_lt hk hd)]
  obtain ⟨h1, h2⟩ := round32_nonneg_bounds _ hP0
  refine ⟨?_, h2, hP1, hstep0⟩
  have h3 : (k : ℚ) * (s / d) * (1 - 1 / 2 ^ 24) * (1 - 1 / 2 ^ 24)
      ≤ k * gridStep s d * (1 - 1 / 2 ^ 24) :=
    mul_le_mul_of_nonneg_right hP2 (by norm_num)
  have h4 : (k : ℚ) * (s / d) * (1 - 1 / 2 ^ 24) ^ 2
      = k * (s / d) * (1 - 1 / 2 ^ 24) * (1 - 1 / 2 ^ 24) := by ring
  linarith

theorem half_bounds (s : ℚ) (hs : 0 < s) :
    s / 2 * (1 - 1 / 2 ^ 24) ≤ round32 (s / 2) ∧ round32 (s / 2) ≤ s / 2 * (1 + 1 / 2 ^ 24) :=
  round32_nonneg_bounds _ (by positivity)

/-- The sum `-halfSize + k * step` before its rounding, for a line `k ≤ d`. -/
theorem gridSum_bounds (s : ℚ) (d k : Nat) (hs : 0 < s) (hd1 : 1 ≤ d) (hd : d < 2 ^ 24)
    (hk : k ≤ d) :
    |-round32 (s / 2) + round32 (round32 (k : ℚ) * gridStep s d)|
      ≤ s * ((1 + 1 / 2 ^ 24) ^ 2 - (1 - 1 / 2 ^ 24) / 2) := by
  obtain ⟨h1, h2, h3, h4⟩ := gridProduct_bounds s d k hs hd1 hd hk
  obtain ⟨g1, g2⟩ := half_bounds s hs
  have hk0 : (0 : ℚ) ≤ k := Nat.cast_nonneg k
  have hd0 : (0 : ℚ) < d := by exact_mod_cast hd1
  have ht0 : 0 ≤ round32 (round32 (k : ℚ) * gridStep s d) := by
    have : 0 ≤ (k : ℚ) * (s / d) * (1 - 1 / 2 ^ 24) ^ 2 := by positivity
    linarith
  have ht1 : round32 (round32 (k : ℚ) * gridStep s d) ≤ s * (1 + 1 / 2 ^ 24) * (1 + 1 / 2 ^ 24) := by
    have := mul_le_mul_of_nonneg_right h3 (by norm_num : (0 : ℚ) ≤ 1 + 1 / 2 ^ 24)
    linarith
  rw [abs_le]
  constructor <;> nlinarith [hs]

theorem gridLine_abs_le (s : ℚ) (d k : Nat) (hs : 0 < s) (hd1 : 1 ≤ d) (hd : d < 2 ^ 24)
    (hk : k ≤ d) : |gridLine s d k| ≤ s / 2 * (1 + 1 / 2 ^ 21) := by
  have h := round32_abs_le _ _ (gridSum_bounds s d k hs hd1 hd hk)
  have hc : s * ((1 + 1 / 2 ^ 24) ^ 2 - (1 - 1 / 2 ^ 24) / 2) * (1 + 1 / 2 ^ 24)
      ≤ s / 2 * (1 + 1 / 2 ^ 21) := by nlinarith [hs]
  exact le_trans h hc

theorem gridEnd_abs_le (s : ℚ) (d k : Nat) (hs : 0 < s) (hd1 : 1 ≤ d) (hd : d < 2 ^ 24)
    (hk : k < d) : |gridEnd s d k| ≤ s / 2 * (1 + 1 / 2 ^ 21) := by
  obtain ⟨h1, h2, h3, h4⟩ := gridProduct_bounds s d k hs hd1 hd (le_of_lt hk)
  obtain ⟨_, _, h3s, _⟩ := gridProduct_bounds s d (k + 1) hs hd1 hd hk
  obtain ⟨g1, g2⟩ := half_bounds s hs
  have hsum := gridSum_bounds s d k hs hd1 hd (le_of_lt hk)
  obtain ⟨n1, n2⟩ := round32_near _ _ hsum
  have hline := round32_abs_le _ _ hsum
  rw [abs_le] at hline
  have e : ((k + 1 : Nat) : ℚ) * gridStep s d = (k : ℚ) * gridStep s d + gridStep s d := by
    push_cast
    ring
  rw [e] at h3s
  have hv : |gridLine s d k + gridStep s d|
      ≤ s * ((1 + 1 / 2 ^ 24) ^ 2 - (1 - 1 / 2 ^ 24) / 2) * (1 + 1 / 2 ^ 24) := by
    rw [abs_le]
    constructor
    · have := hline.1
      unfold gridLine
      linarith
    · unfold gridLine
      have ht : round32 (round32 (k : ℚ) * gridStep s d) + gridStep s d
          ≤ s * (1 + 1 / 2 ^ 24) * (1 + 1 / 2 ^ 24) := by
        have a1 : ((k : ℚ) * gridStep s d + gridStep s d) * (1 + 1 / 2 ^ 24)
            ≤ s * (1 + 1 / 2 ^ 24) * (1 + 1 / 2 ^ 24) :=
          mul_le_mul_of_nonneg_right h3s (by norm_num)
        have a2 : gridStep s d ≤ gridStep s d * (1 + 1 / 2 ^ 24) := by nlinarith [h4]
        nlinarith [h4]
      nlinarith [hs]
  have h := round32_abs_le _ _ hv
  have hc : s * ((1 + 1 / 2 ^ 24) ^ 2 - (1 - 1 / 2 ^ 24) / 2) * (1 + 1 / 2 ^ 24)
      * (1 + 1 / 2 ^ 24) ≤ s / 2 * (1 + 1 / 2 ^ 21) := by nlinarith [hs]
  exact le_trans h hc

/-- The top line `k = d` lies within the tolerance below `s/2`. -/
theorem gridLine_top_ge (s : ℚ) (d : Nat) (hs : 0 < s) (hd1 : 1 ≤ d) (hd : d < 2 ^ 24) :
    s / 2 * (1 - 1 / 2 ^ 21) ≤ gridLine s d d := by
  obtain ⟨h1, h2, h3, h4⟩ := gridProduct_bounds s d d hs hd1 hd (le_refl d)
  obtain ⟨g1, g2⟩ := half_bounds s hs
  have hsum := gridSum_bounds s d d hs hd1 hd (le_refl d)
  obtain ⟨n1, n2⟩ := round32_near _ _ hsum
  have hd0 : (0 : ℚ) < d := by exact_mod_cast hd1
  have e : (d : ℚ) * (s / d) = s := by field_simp
  rw [e] at h1
  unfold gridLine
  nlinarith [hs]

theorem round32_of_int (q : ℚ) (n : Int) (hq : q = (n : ℚ)) (h : |n| < 2 ^ 24) : round32 q = q := by
  rw [hq]
  exact round32_intCast n h

/-! ### The default call: size 20000, 25 divisions -/

theorem gridStep_default : gridStep 20000 25 = 800 := by
  have h25 : round32 ((25 : Nat) : ℚ) = 25 := by
    rw [round32_natCast 25 (by norm_num)]
    norm_num
  rw [gridStep, h25, round32_of_int _ 800 (by norm_num) (by norm_num)]
  norm_num

theorem half_default : round32 ((20000 : ℚ) / 2) = 10000 := by
  rw [round32_of_int _ 10000 (by norm_num) (by norm_num)]
  norm_num

theorem gridLine_default (k : Nat) (hk : k ≤ 25) :
    gridLine 20000 25 k = -10000 + 800 * (k : ℚ) := by
  have hk24 : k < 2 ^ 24 := lt_of_le_of_lt hk (by norm_num)
  have hkq : (k : ℚ) ≤ 25 := by exact_mod_cast hk
  have hk0 : (0 : ℚ) ≤ k := Nat.cast_nonneg k
  have hki : (k : Int) ≤ 25 := by exact_mod_cast hk
  have hki0 : (0 : Int) ≤ k := Int.natCast_nonneg k
  rw [gridLine, gridStep_default, half_default, round32_natCast k hk24]
  rw [round32_of_int ((k : ℚ) * 800) (800 * (k : Int)) (by push_cast; ring)
    (by rw [abs_lt]; constructor <;> omega)]
  rw [round32_of_int (-10000 + (k : ℚ) * 800) (-10000 + 800 * (k : Int)) (by push_cast; ring)
    (by rw [abs_lt]; constructor <;> omega)]
  ring

theorem gridEnd_default (k : Nat) (hk : k < 25) :
    gridEnd 20000 25 k = -10000 + 800 * ((k : ℚ) + 1) := by
  have hki : (k : Int) < 25 := by exact_mod_cast hk
  have hki0 : (0 : Int) ≤ k := Int.natCast_nonneg k
  rw [gridEnd, gridLine_default k (le_of_lt hk), gridStep_default]
  rw [round32_of_int (-10000 + 800 * (k : ℚ) + 800) (-10000 + 800 * (k : Int) + 800)
    (by push_cast; ring) (by rw [abs_lt]; constructor <;> omega)]
  ring

theorem gridLine_default_abs (k : Nat) (hk : k ≤ 25) : |gridLine 20000 25 k| ≤ 10000 := by
  have hkq : (k : ℚ) ≤ 25 := by exact_mod_cast hk
  have hk0 : (0 : ℚ) ≤ k := Nat.cast_nonneg k
  rw [gridLine_default k hk, abs_le]
  constructor <;> linarith

theorem gridEnd_default_abs (k : Nat) (hk : k < 25) : |gridEnd 20000 25 k| ≤ 10000 := by
  have hkq : (k : ℚ) + 1 ≤ 25 := by exact_mod_cast hk
  have hk0 : (0 : ℚ) ≤ k := Nat.cast_nonneg k
  rw [gridEnd_default k hk, abs_le]
  constructor <;> linarith

/-- In the lattice of the default call every coordinate lies in
`[-10000, 10000]` and the greatest height is 10000. -/
theorem gridVertices_default :
    (∀ v ∈ gridVertices 20000 25, |v.1| ≤ 10000 ∧ |v.2.1| ≤ 10000 ∧ |v.2.2| ≤ 10000) ∧
    IsGreatest {y : ℚ | ∃ v ∈ gridVertices 20000 25, v.2.1 = y} 10000 := by
  have hall : ∀ v ∈ gridVertices 20000 25,
      |v.1| ≤ 10000 ∧ |v.2.1| ≤ 10000 ∧ |v.2.2| ≤ 10000 := by
    intro v hv
    obtain ⟨⟨i, hi⟩, ⟨j, hj, hjv⟩, ⟨k, hk⟩⟩ := mem_gridVertices 20000 25 v hv
    refine ⟨?_, ?_, ?_⟩
    · rcases hi with ⟨h1, h2⟩ | ⟨h1, h2⟩
      · rw [h2]; exact gridLine_default_abs i h1
      · rw [h2]; exact gridEnd_default_abs i h1
    · rw [hjv]; exact gridLine_default_abs j hj
    · rcases hk with ⟨h1, h2⟩ | ⟨h1, h2⟩
      · rw [h2]; exact gridLine_default_abs k h1
      · rw [h2]; exact gridEnd_default_abs k h1
  refine ⟨hall, ⟨_, gridVertices_top_mem 20000 25 (by norm_num), ?_⟩, ?_⟩
  · show gridLine 20000 25 25 = 10000
    rw [gridLine_default 25 (le_refl _)]
    norm_num
  · rintro y ⟨v, hv, rfl⟩
    exact (abs_le.mp (hall v hv).2.1).2

/-! ### Size 20000 with 13 and with 71 divisions -/

theorem gridStep_13 : gridStep 20000 13 = 12603077 / 8192 := by
  have h13 : round32 ((13 : Nat) : ℚ) = 13 := by
    rw [round32_natCast 13 (by norm_num)]
    norm_num
  rw [gridStep, h13, round32_eq_pos _ 10 12603077 (by norm_num) (by norm_num) (by norm_num) (by norm_num)]
  norm_num

theorem gridLine_13_12 : gridLine 20000 13 12 = 1083077 / 128 := by
  have h12 : round32 ((12 : Nat) : ℚ) = 12 := by
    rw [round32_natCast 12 (by norm_num)]
    norm_num
  have ht : round32 ((12 : ℚ) * (12603077 / 8192)) = 2363077 / 128 := by
    rw [round32_eq_pos _ 14 9452308 (by norm_num) (by norm_num) (by norm_num) (by norm_num)]
    norm_num
  have hw : round32 (-(10000 : ℚ) + 2363077 / 128) = 1083077 / 128 := by
    rw [round32_eq_pos _ 13 8664616 (by norm_num) (by norm_num) (by norm_num) (by norm_num)]
    norm_num
  rw [gridLine, gridStep_13, half_default, h12, ht, hw]

theorem gridEnd_13_12 : gridEnd 20000 13 12 = 10240001 / 1024 := by
  rw [gridEnd, gridLine_13_12, gridStep_13,
    round32_eq_pos _ 13 10240001 (by norm_num) (by norm_num) (by norm_num) (by norm_num)]
  norm_num

theorem gridStep_71 : gridStep 20000 71 = 9230423 / 32768 := by
  have h71 : round32 ((71 : Nat) : ℚ) = 71 := by
    rw [round32_natCast 71 (by norm_num)]
    norm_num
  rw [gridStep, h71, round32_eq_pos _ 8 9230423 (by norm_num) (by norm_num) (by norm_num) (by norm_num)]
  norm_num

theorem gridLine_71_71 : gridLine 20000 71 71 = 5120001 / 512 := by
  have h71 : round32 ((71 : Nat) : ℚ) = 71 := by
    rw [round32_natCast 71 (by norm_num)]
    norm_num
  have ht : round32 ((71 : ℚ) * (9230423 / 32768)) = 10240001 / 512 := by
    rw [round32_eq_pos _ 14 10240001 (by norm_num) (by norm_num) (by norm_num) (by norm_num)]
    norm_num
  have hw : round32 (-(10000 : ℚ) + 10240001 / 512) = 5120001 / 512 := by
    rw [round32_eq_pos _ 13 10240002 (by norm_num) (by norm_num) (by norm_num) (by norm_num)]
    norm_num
  rw [gridLine, gridStep_71, half_default, h71, ht, hw]

theorem gridVertices_end_mem (s : ℚ) (d k : Nat) (hk : k < d) :
    (gridEnd s d k, gridLine s d 0, gridLine s d 0) ∈ gridVertices s d := by
  simp only [gridVertices, List.mem_append, List.mem_flatMap, List.mem_range, List.mem_cons,
    List.mem_singleton, List.not_mem_nil, or_false]
  exact Or.inl ⟨0, by omega, 0, by omega, k, hk, Or.inr rfl⟩

/-- C22 fails for the size 20000 of `main` with 13 divisions: the end of the
segment `xStep = 12` on the lines `y = z = -halfSize` is `10240001 / 1024`,
that is `10000.0009765625`, greater than `size / 2 = 10000`; and with 71
divisions the top lattice line, the greatest constructed height, is
`5120001 / 512`, that is `10000.001953125`. -/
theorem grid_coordinate_exceeds_half_size :
    (CreateGridVertices 20000 13 preset = flatQ (gridVertices 20000 13) ∧
      (∃ v ∈ gridVertices 20000 13, v.1 = 10240001 / 1024) ∧
      ((20000 : ℚ) / 2 < 10240001 / 1024)) ∧
    (CreateGridVertices 20000 71 preset = flatQ (gridVertices 20000 71) ∧
      (∃ v ∈ gridVertices 20000 71, v.2.1 = 5120001 / 512) ∧
      ((20000 : ℚ) / 2 < 5120001 / 512)) :=
  ⟨⟨CreateGridVertices_eq 20000 13 preset,
      ⟨_, gridVertices_end_mem 20000 13 12 (by norm_num), gridEnd_13_12⟩, by norm_num⟩,
    ⟨CreateGridVertices_eq 20000 71 preset,
      ⟨_, gridVertices_top_mem 20000 71 (by norm_num), gridLine_71_71⟩, by norm_num⟩⟩

/-- C22 as amended: for every size `s` with `2^-100 ≤ s ≤ 2^100` (where the
arithmetic stays within the normal range of binary32) and every division count
`1 ≤ divisions < 2^24`, `CreateGridVertices` returns the flat array of a list
`vs` of exactly `4 * divisions * (divisions + 1)^2` vertices, that is
`12 * divisions * (divisions + 1)^2` floats (67600 vertices when
`divisions = 25`).  The coordinates are rounded, so they lie in `[-s/2, s/2]`
only up to rounding: every coordinate `c` of every vertex has
`|c| ≤ (s/2) * (1 + 2^-21)`, and some vertex has a height of at least
`(s/2) * (1 - 2^-21)`, so the greatest constructed height is within
`(s/2) * 2^-21` of `s/2`.  For the call of `main`, `s = 20000` and
`divisions = 25`, whose lattice arithmetic is exact, every coordinate lies in
`[-10000, 10000]` and the greatest constructed height is 10000. -/
theorem CreateGridVertices_count_and_bounds (s : ℚ) (divisions : Int) (objs : List Object)
    (hlo : 1 / 2 ^ 100 ≤ s) (_hhi : s ≤ 2 ^ 100) (hd1 : 1 ≤ divisions)
    (hd : divisions < 2 ^ 24) :
    ∃ vs : List (ℚ × ℚ × ℚ),
      CreateGridVertices s divisions objs = flatQ vs ∧
      (vs.length : Int) = 4 * divisions * (divisions + 1) ^ 2 ∧
      ((CreateGridVertices s divisions objs).length : Int)
        = 12 * divisions * (divisions + 1) ^ 2 ∧
      (divisions = 25 → vs.length = 67600) ∧
      (∀ v ∈ vs, |v.1| ≤ s / 2 * (1 + 1 / 2 ^ 21) ∧ |v.2.1| ≤ s / 2 * (1 + 1 / 2 ^ 21) ∧
        |v.2.2| ≤ s / 2 * (1 + 1 / 2 ^ 21)) ∧
      (∃ v ∈ vs, s / 2 * (1 - 1 / 2 ^ 21) ≤ v.2.1) ∧
      (s = 20000 → divisions = 25 →
        (∀ v ∈ vs, |v.1| ≤ 10000 ∧ |v.2.1| ≤ 10000 ∧ |v.2.2| ≤ 10000) ∧
        IsGreatest {y : ℚ | ∃ v ∈ vs, v.2.1 = y} 10000) := by
  have hs : 0 < s := lt_of_lt_of_le (by positivity) hlo
  obtain ⟨d, rfl⟩ := Int.eq_ofNat_of_zero_le (by omega : (0 : Int) ≤ divisions)
  have hd1n : 1 ≤ d := by omega
  have hdn : d < 2 ^ 24 := by exact_mod_cast hd
  have heq := CreateGridVertices_eq s d objs
  have hlen := gridVertices_length s d
  refine ⟨gridVertices s d, heq, ?_, ?_, ?_, ?_, ?_, ?_⟩
  · rw [hlen]
    push_cast
    ring
  · rw [heq, flatQ_length, hlen]
    push_cast
    ring
  · intro h25
    have hd25 : d = 25 := by omega
    rw [hlen, hd25]
    norm_num
  · intro v hv
    obtain ⟨⟨i, hi⟩, ⟨j, hj, hjv⟩, ⟨k, hk⟩⟩ := mem_gridVertices s d v hv
    refine ⟨?_, ?_, ?_⟩
    · rcases hi with ⟨h1, h2⟩ | ⟨h1, h2⟩
      · rw [h2]; exact gridLine_abs_le s d i hs hd1n hdn h1
      · rw [h2]; exact gridEnd_abs_le s d i hs hd1n hdn h1
    · rw [hjv]; exact gridLine_abs_le s d j hs hd1n hdn hj
    · rcases hk with ⟨h1, h2⟩ | ⟨h1, h2⟩
      · rw [h2]; exact gridLine_abs_le s d k hs hd1n hdn h1
      · rw [h2]; exact gridEnd_abs_le s d k hs hd1n hdn h1
  · exact ⟨_, gridVertices_top_mem s d hd1n, gridLine_top_ge s d hs hd1n hdn⟩
  · intro hs20 h25
    have hd25 : d = 25 := by omega
    rw [hs20, hd25]
    exact gridVertices_default

/-- C22 as amended, at the call of `main`: `CreateGridVertices(20000, 25, objs)`
returns 67600 vertices, every coordinate in `[-10000, 10000]`, the greatest
height 10000. -/
theorem CreateGridVertices_count_and_bounds_witness :
    ∃ vs : List (ℚ × ℚ × ℚ),
      CreateGridVertices 20000 25 preset = flatQ vs ∧
      vs.length = 67600 ∧
      (CreateGridVertices 20000 25 preset).length = 202800 ∧
      (∀ v ∈ vs, |v.1| ≤ 10000 ∧ |v.2.1| ≤ 10000 ∧ |v.2.2| ≤ 10000) ∧
      IsGreatest {y : ℚ | ∃ v ∈ vs, v.2.1 = y} 10000 := by
  obtain ⟨vs, h1, _, h3, h4, _, _, h7⟩ :=
    CreateGridVertices_count_and_bounds 20000 25 preset (by norm_num) (by norm_num)
      (by norm_num) (by norm_num)
  refine ⟨vs, h1, h4 rfl, ?_, (h7 rfl rfl).1, (h7 rfl rfl).2⟩
  have h5 : ((CreateGridVertices 20000 25 preset).length : Int) = 202800 := by
    rw [h3]
    norm_num
  exact_mod_cast h5

end

end Gravitas
